import Mathlib

/-!
# Stable-fluids solvers: sequential (`grid.cpp`) and parallel (`gpu_solver.cpp`)

A shallow embedding of the sequential solver of the repository, of its frame recorder and
of the parallel solver with its compute kernels (`shader_manager.cpp`).  Conventions of the
embedding:

* a C++ `double` or a `float` is an exact rational number (`ℚ`); rounding, infinities and
  NaN are outside the model;
* a `vector<vector<T>>` is a `List (List T)`; every array access is checked, and an
  access outside the allocated extent makes the whole operation return `none`;
* the grid extent, fixed in the source by `width = 256` and `height = 256`, is a
  parameter `W H` of every operation, so that small grids can be evaluated;
* member functions of `grid` take the object state and return the new state;
* the stages of `GPUSolver` append the OpenGL calls they issue to a log; the calls are then
  run on a state that holds the texture contents, each texture a flat array of `float`s;
* the invocations of a dispatch run one after the other, a load outside an image returns
  zero and a store outside has no effect, and the access flag of an image binding does not
  restrict the loads and stores of a kernel.
-/

namespace FluidSim

/-! ## `coords.hpp`, `coords.cpp` -/

/-- The class `Vec`: two `double` components. -/
structure Vec where
  x : ℚ
  y : ℚ
deriving DecidableEq, Repr

namespace Vec

/-- The constructor `Vec()`: both components zero. -/
def zero : Vec := ⟨0, 0⟩

/-- The function `Vec::add`. -/
def add (a b : Vec) : Vec := ⟨a.x + b.x, a.y + b.y⟩

/-- The function `Vec::sub`. -/
def sub (a b : Vec) : Vec := ⟨a.x - b.x, a.y - b.y⟩

/-- The function `Vec::mult`. -/
def mult (a : Vec) (scalar : ℚ) : Vec := ⟨a.x * scalar, a.y * scalar⟩

/-- The function `Vec::dot`. -/
def dot (a b : Vec) : ℚ := a.x * b.x + a.y * b.y

end Vec

/-! ## Constants of `grid.cpp` -/

/-- The constant `width`. -/
def width : Nat := 256

/-- The constant `height`. -/
def height : Nat := 256

/-- The constant `kinematicViscosity` (0.1). -/
def kinematicViscosity : ℚ := 1 / 10

/-- The constant `diffusionIterations`. -/
def diffusionIterations : Nat := 50

/-- The constant `projectionIterations`. -/
def projectionIterations : Nat := 20

/-- The constant `dx`. -/
def dx : Int := 1

/-! ## Arrays and loops -/

/-- The loop `for (int k = 0; k < n; k++) body(k)`: the bodies for `0, 1, ..., n-1` run in
this order on the state, and a faulting body makes the loop fault. -/
def forLoop {σ : Type} (n : Nat) (body : Nat → σ → Option σ) (s : σ) : Option σ :=
  match n with
  | 0 => some s
  | k + 1 => (forLoop k body s).bind (body k)

/-- Checked read `F[i][j]`. -/
def at2 {α : Type} (F : List (List α)) (i j : Nat) : Option α :=
  (F[i]?).bind (fun row => row[j]?)

/-- Checked write `F[i][j] = v`. -/
def set2 {α : Type} (F : List (List α)) (i j : Nat) (v : α) : Option (List (List α)) :=
  match F[i]? with
  | none => none
  | some row => if j < row.length then some (F.set i (row.set j v)) else none

/-- Checked update of one entry, as in `F[i][j].x = e`: the entry is read and written back
with one component replaced. -/
def modify2 {α : Type} (F : List (List α)) (i j : Nat) (f : α → α) : Option (List (List α)) :=
  (at2 F i j).bind (fun old => set2 F i j (f old))

/-- Checked read `F[i][j]` with `int` indices: a negative index is out of range. -/
def atI {α : Type} (F : List (List α)) (i j : Int) : Option α :=
  if 0 ≤ i ∧ 0 ≤ j then at2 F i.toNat j.toNat else none

/-- The array has `rows` rows, each of `cols` entries. -/
def hasDims {α : Type} (F : List (List α)) (rows cols : Nat) : Prop :=
  F.length = rows ∧ ∀ row ∈ F, row.length = cols

instance {α : Type} (F : List (List α)) (rows cols : Nat) : Decidable (hasDims F rows cols) := by
  unfold hasDims; infer_instance

/-- The call `v.resize(n, x)` of `std::vector`: the first `n` entries are kept, and missing
entries are filled with `x`. -/
def resize {α : Type} (xs : List α) (n : Nat) (x : α) : List α :=
  xs.take n ++ List.replicate (n - xs.length) x

/-! ## The class `grid` -/

/-- The data members of the class `grid`. -/
structure grid where
  currentVelocities : List (List Vec)
  nextVelocities : List (List Vec)
  pressureForces : List (List ℚ)
  timeStep : ℚ
  alpha : ℚ
  frames : List (List (List Vec))
  generatedFrames : List (List (List Vec))
deriving DecidableEq, Repr

namespace grid

/-- The function `grid::init`. -/
def init (W H : Nat) (g : grid) : grid :=
  let timeStep : ℚ := 1 / 2
  { g with
    currentVelocities := resize g.currentVelocities W (List.replicate H (Vec.mk 0 0))
    nextVelocities := resize g.nextVelocities W (List.replicate H (Vec.mk 0 0))
    pressureForces := resize g.pressureForces W (List.replicate H 0)
    timeStep := timeStep
    alpha := kinematicViscosity * timeStep / ((dx * dx : Int) : ℚ) }

/-- The function `grid::getBoundaryVelocity`. -/
def getBoundaryVelocity (W H : Nat) (i j : Int) (velocities : List (List Vec)) : Option Vec :=
  let clamped_i : Int := max 0 (min ((W : Int) - 1) i)
  let clamped_j : Int := max 0 (min ((H : Int) - 1) j)
  atI velocities clamped_i clamped_j

/-- The function `grid::getBoundaryPressure`. -/
def getBoundaryPressure (W H : Nat) (i j : Int) (pressureForces : List (List ℚ)) : Option ℚ :=
  let clamped_i : Int := max 0 (min ((W : Int) - 1) i)
  let clamped_j : Int := max 0 (min ((H : Int) - 1) j)
  atI pressureForces clamped_i clamped_j

/-- The body of the two loops of `grid::forces` at cell `[i][j]`. -/
def forcesCell (i j : Nat) (g : grid) : Option grid := do
  let force : Vec := if i < 140 ∧ i ≥ 116 then Vec.mk 2 0 else Vec.mk 0 0
  let toAdd : Vec := Vec.mk (force.x * g.timeStep) (force.y * g.timeStep)
  let old ← at2 g.currentVelocities i j
  let cv ← set2 g.currentVelocities i j (Vec.add old toAdd)
  pure { g with currentVelocities := cv }

/-- The function `grid::forces`. -/
def forces (W H : Nat) (g : grid) : Option grid :=
  forLoop W (fun i => forLoop H (fun j => forcesCell i j)) g

/-- The body of the cell loops of `grid::diffusion` at cell `[i][j]`; `before` is the copy
of the velocity field taken on entry. -/
def diffusionCell (W H : Nat) (before : List (List Vec)) (i j : Nat) (g : grid) :
    Option grid := do
  let left ← getBoundaryVelocity W H ((i : Int) - 1) j g.currentVelocities
  let right ← getBoundaryVelocity W H ((i : Int) + 1) j g.currentVelocities
  let up ← getBoundaryVelocity W H i ((j : Int) - 1) g.currentVelocities
  let down ← getBoundaryVelocity W H i ((j : Int) + 1) g.currentVelocities
  let denominator : ℚ := 1 + 4 * g.alpha
  let bx ← at2 before i j
  let nv ← modify2 g.nextVelocities i j (fun n =>
    { n with x := (bx.x + g.alpha * (left.x + right.x + up.x + down.x)) / denominator })
  let b2 ← at2 before i j
  let nv ← modify2 nv i j (fun n =>
    { n with y := (b2.y + g.alpha * (left.y + right.y + up.y + down.y)) / denominator })
  pure { g with nextVelocities := nv }

/-- One iteration of the `iter` loop of `grid::diffusion`: the pass over all cells, then
`currentVelocities = nextVelocities`. -/
def diffusionIteration (W H : Nat) (before : List (List Vec)) (g : grid) : Option grid := do
  let g ← forLoop W (fun i => forLoop H (fun j => diffusionCell W H before i j)) g
  pure { g with currentVelocities := g.nextVelocities }

/-- The function `grid::diffusion`. -/
def diffusion (W H : Nat) (g : grid) : Option grid :=
  let before := g.currentVelocities
  forLoop diffusionIterations (fun _ => diffusionIteration W H before) g

/-- The body of the cell loops of `grid::advection` at cell `[i][j]`. -/
def advectionCell (W H : Nat) (i j : Nat) (g : grid) : Option grid := do
  let x : Int := j
  let y : Int := (H : Int) - i - 1
  let vx ← at2 g.currentVelocities i j
  let x_new : ℚ := max (min ((x : ℚ) - vx.x * g.timeStep) ((W : ℚ) - 1)) 0
  let vy ← at2 g.currentVelocities i j
  let y_new : ℚ := max (min ((y : ℚ) - vy.y * g.timeStep) ((H : ℚ) - 1)) 0
  let s : ℚ := x_new - (⌊x_new⌋ : Int)
  let t : ℚ := y_new - (⌊y_new⌋ : Int)
  let lowX : Int := ⌊x_new⌋
  let lowY : Int := ⌊y_new⌋
  let store : Int := lowY
  let lowY : Int := lowX
  let lowX : Int := (H : Int) - 1 - store
  let c00 ← atI g.currentVelocities lowX lowY
  let c10 ← atI g.currentVelocities (min (lowX + 1) ((W : Int) - 1)) lowY
  let c01 ← atI g.currentVelocities lowX (min (lowY + 1) ((H : Int) - 1))
  let c11 ← atI g.currentVelocities (min (lowX + 1) ((W : Int) - 1))
    (min (lowY + 1) ((H : Int) - 1))
  let newVelocity : Vec :=
    { x := (1 - s) * (1 - t) * c00.x + s * (1 - t) * c10.x + (1 - s) * t * c01.x
        + s * t * c11.x
      y := (1 - s) * (1 - t) * c00.y + s * (1 - t) * c10.y + (1 - s) * t * c01.y
        + s * t * c11.y }
  let nv ← set2 g.nextVelocities i j newVelocity
  pure { g with nextVelocities := nv }

/-- The function `grid::advection`. -/
def advection (W H : Nat) (g : grid) : Option grid := do
  let g ← forLoop H (fun i => forLoop W (fun j => advectionCell W H i j)) g
  pure { g with currentVelocities := g.nextVelocities }

/-- The body of the divergence loops of `grid::projection` at cell `[i][j]`; the state of
the loop is the local array `divergence`. -/
def divergenceCell (W H : Nat) (velocities : List (List Vec)) (i j : Nat)
    (divergence : List (List ℚ)) : Option (List (List ℚ)) := do
  let u_right ← getBoundaryVelocity W H i ((j : Int) + 1) velocities
  let u_left ← getBoundaryVelocity W H i ((j : Int) - 1) velocities
  let v_up ← getBoundaryVelocity W H ((i : Int) - 1) j velocities
  let v_down ← getBoundaryVelocity W H ((i : Int) + 1) j velocities
  set2 divergence i j (-(1 / 2) * ((u_right.x - u_left.x) + (v_up.y - v_down.y)))

/-- The divergence pass of `grid::projection`: the local array `divergence`, allocated with
`height` rows of `width` zeros, after the first loop nest. -/
def divergencePass (W H : Nat) (velocities : List (List Vec)) : Option (List (List ℚ)) :=
  forLoop H (fun i => forLoop W (fun j => divergenceCell W H velocities i j))
    (List.replicate H (List.replicate W 0))

/-- The body of a pressure loop nest of `grid::projection` at cell `[i][j]`: the cell is
updated when `(i + j) % 2 == parity`. -/
def pressureCell (W H : Nat) (divergence : List (List ℚ)) (parity : Nat) (i j : Nat)
    (g : grid) : Option grid :=
  if (i + j) % 2 = parity then do
    let p_left ← getBoundaryPressure W H i ((j : Int) - 1) g.pressureForces
    let p_right ← getBoundaryPressure W H i ((j : Int) + 1) g.pressureForces
    let p_up ← getBoundaryPressure W H ((i : Int) - 1) j g.pressureForces
    let p_down ← getBoundaryPressure W H ((i : Int) + 1) j g.pressureForces
    let d ← at2 divergence i j
    let p ← set2 g.pressureForces i j ((d + p_right + p_left + p_up + p_down) / 4)
    pure { g with pressureForces := p }
  else
    some g

/-- The first loop nest of one sweep: the cells with `(i + j) % 2 == 0`. -/
def evenHalfSweep (W H : Nat) (divergence : List (List ℚ)) (g : grid) : Option grid :=
  forLoop H (fun i => forLoop W (fun j => pressureCell W H divergence 0 i j)) g

/-- The second loop nest of one sweep: the cells with `(i + j) % 2 == 1`. -/
def oddHalfSweep (W H : Nat) (divergence : List (List ℚ)) (g : grid) : Option grid :=
  forLoop H (fun i => forLoop W (fun j => pressureCell W H divergence 1 i j)) g

/-- The body of the loop `while (iterations--)` of `grid::projection`. -/
def pressureSweep (W H : Nat) (divergence : List (List ℚ)) (g : grid) : Option grid :=
  (evenHalfSweep W H divergence g).bind (oddHalfSweep W H divergence)

/-- The loop `while (iterations--)` of `grid::projection`, started with `iterations`. -/
def pressureSolve (W H : Nat) (divergence : List (List ℚ)) : Nat → grid → Option grid
  | 0, g => some g
  | iterations + 1, g =>
    (pressureSweep W H divergence g).bind (pressureSolve W H divergence iterations)

/-- The body of the last loop nest of `grid::projection` at cell `[i][j]`. -/
def gradientCell (W H : Nat) (i j : Nat) (g : grid) : Option grid := do
  let p_left ← getBoundaryPressure W H i ((j : Int) - 1) g.pressureForces
  let p_right ← getBoundaryPressure W H i ((j : Int) + 1) g.pressureForces
  let p_up ← getBoundaryPressure W H ((i : Int) - 1) j g.pressureForces
  let p_down ← getBoundaryPressure W H ((i : Int) + 1) j g.pressureForces
  let xGradient : ℚ := (p_right - p_left) / 2
  let yGradient : ℚ := (p_up - p_down) / 2
  let cv ← modify2 g.currentVelocities i j (fun v => { v with x := v.x - xGradient })
  let cv ← modify2 cv i j (fun v => { v with y := v.y - yGradient })
  pure { g with currentVelocities := cv }

/-- The last loop nest of `grid::projection`. -/
def subtractGradient (W H : Nat) (g : grid) : Option grid :=
  forLoop H (fun i => forLoop W (fun j => gradientCell W H i j)) g

/-- The function `grid::projection`. -/
def projection (W H : Nat) (g : grid) : Option grid := do
  let divergence ← divergencePass W H g.currentVelocities
  let g ← pressureSolve W H divergence projectionIterations g
  subtractGradient W H g

/-- The function `grid::renderNext`. -/
def renderNext (W H : Nat) (g : grid) : Option grid := do
  let g ← forces W H g
  let g ← diffusion W H g
  let g ← advection W H g
  projection W H g

/-- Checked read `frames[k][r][c]`. -/
def at3 (frames : List (List (List Vec))) (k r c : Nat) : Option Vec :=
  (frames[k]?).bind (fun frame => at2 frame r c)

/-- The body of the cell loops of `grid::frameGen` at cell `[r][c]` of the frame `gen`,
for the pair `frames[i]`, `frames[i + 1]` and the step `j`. -/
def genCell (frames : List (List (List Vec))) (i j : Nat) (r c : Nat)
    (gen : List (List Vec)) : Option (List (List Vec)) := do
  let ax ← at3 frames i r c
  let bx ← at3 frames (i + 1) r c
  let gen ← modify2 gen r c (fun v =>
    { v with x := (ax.x * ((10 - (j : Int) : Int) : ℚ) + bx.x * (((j : Int) + 1 : Int) : ℚ)) / 11 })
  let ay ← at3 frames i r c
  let b2 ← at3 frames (i + 1) r c
  modify2 gen r c (fun v =>
    { v with y := (ay.y * ((10 - (j : Int) : Int) : ℚ) + b2.y * (((j : Int) + 1 : Int) : ℚ)) / 11 })

/-- The body of the loop over `j` of `grid::frameGen`: the frame `gen` is allocated with
`height` rows of `width` zero vectors, filled, and appended to `generatedFrames`. -/
def frameGenStep (W H : Nat) (i j : Nat) (g : grid) : Option grid := do
  let gen ← forLoop H (fun r => forLoop W (fun c => genCell g.frames i j r c))
    (List.replicate H (List.replicate W Vec.zero))
  pure { g with generatedFrames := g.generatedFrames ++ [gen] }

/-- The body of the loop over `i` of `grid::frameGen`. -/
def frameGenPair (W H : Nat) (i : Nat) (g : grid) : Option grid := do
  let frame ← g.frames[i]?
  forLoop 10 (fun j => frameGenStep W H i j)
    { g with generatedFrames := g.generatedFrames ++ [frame] }

/-- The function `grid::frameGen`.  The bound `frames.size() - 1` of the outer loop is
computed in the unsigned 64-bit type of `size()`, so it wraps around for an empty `frames`;
`frames.back()` of an empty vector is a fault. -/
def frameGen (W H : Nat) (g : grid) : Option grid := do
  let bound : Nat := (g.frames.length + 2 ^ 64 - 1) % 2 ^ 64
  let g ← forLoop bound (fun i => frameGenPair W H i) g
  let last ← g.frames.getLast?
  pure { g with generatedFrames := g.generatedFrames ++ [last] }

end grid

/-! ## Descriptions of the stages, cell by cell -/

/-- The array of `rows` rows and `cols` columns whose entry `[i][j]` is `f i j`. -/
def tabulate {α : Type} (rows cols : Nat) (f : Nat → Nat → α) : List (List α) :=
  (List.range rows).map (fun i => (List.range cols).map (fun j => f i j))

/-- An index clamped into `[0, n - 1]`. -/
def clampIdx (n : Nat) (i : Int) : Nat := (max 0 (min ((n : Int) - 1) i)).toNat

/-- Clamped sampling of a velocity field of extent `W` by `H`: the entry at the clamped
coordinate (the zero vector if the array is smaller than its extent). -/
def sampleV (W H : Nat) (F : List (List Vec)) (i j : Int) : Vec :=
  (at2 F (clampIdx W i) (clampIdx H j)).getD Vec.zero

/-- Clamped sampling of a scalar field of extent `W` by `H`. -/
def sampleP (W H : Nat) (F : List (List ℚ)) (i j : Int) : ℚ :=
  (at2 F (clampIdx W i) (clampIdx H j)).getD 0

/-- The cell `(r, c)` comes before the cell `(i, j)` in row-by-row order. -/
def cellBefore (i j r c : Nat) : Prop := r < i ∨ (r = i ∧ c < j)

instance (i j r c : Nat) : Decidable (cellBefore i j r c) := by
  unfold cellBefore; infer_instance

/-- One Jacobi pass of the diffusion as the specification words it: in every cell,
`next = (before + α·(left + right + up + down)) / (1 + 4α)` componentwise, the four neighbours
being clamped samples of the current buffer `cur`. -/
def jacobiPass (W H : Nat) (alpha : ℚ) (before cur : List (List Vec)) : List (List Vec) :=
  tabulate W H (fun i j =>
    let b := (at2 before i j).getD Vec.zero
    let left := sampleV W H cur ((i : Int) - 1) j
    let right := sampleV W H cur ((i : Int) + 1) j
    let up := sampleV W H cur i ((j : Int) - 1)
    let down := sampleV W H cur i ((j : Int) + 1)
    Vec.mk ((b.x + alpha * (left.x + right.x + up.x + down.x)) / (1 + 4 * alpha))
      ((b.y + alpha * (left.y + right.y + up.y + down.y)) / (1 + 4 * alpha)))

/-- A default-constructed `grid` object: empty vectors (the two `double` members, which the
constructor leaves uninitialised, are taken as zero). -/
def grid.fresh : grid :=
  { currentVelocities := [], nextVelocities := [], pressureForces := [], timeStep := 0,
    alpha := 0, frames := [], generatedFrames := [] }

/-- The value the specification gives to cell `[i][j]` after advection: the bilinear
interpolant of the input field `F` at the clamped backtraced position.  The cell `[i][j]` has
position `(x, y) = (j, H - 1 - i)`, and `Fpos a b` is the input velocity of the cell whose
position is `(a, b)`. -/
def bilinearBacktrace (W H : Nat) (dt : ℚ) (F : List (List Vec)) (i j : Nat) : Vec :=
  let v := (at2 F i j).getD Vec.zero
  let x : ℚ := j
  let y : ℚ := (H : ℚ) - 1 - i
  let xs : ℚ := max 0 (min (x - v.x * dt) ((W : ℚ) - 1))
  let ys : ℚ := max 0 (min (y - v.y * dt) ((H : ℚ) - 1))
  let x0 : Int := ⌊xs⌋
  let y0 : Int := ⌊ys⌋
  let s : ℚ := xs - x0
  let t : ℚ := ys - y0
  let x1 : Int := min (x0 + 1) ((W : Int) - 1)
  let y1 : Int := min (y0 + 1) ((H : Int) - 1)
  let Fpos : Int → Int → Vec := fun a b => (atI F ((H : Int) - 1 - b) a).getD Vec.zero
  Vec.mk
    ((1 - s) * (1 - t) * (Fpos x0 y0).x + s * (1 - t) * (Fpos x1 y0).x
      + (1 - s) * t * (Fpos x0 y1).x + s * t * (Fpos x1 y1).x)
    ((1 - s) * (1 - t) * (Fpos x0 y0).y + s * (1 - t) * (Fpos x1 y0).y
      + (1 - s) * t * (Fpos x0 y1).y + s * t * (Fpos x1 y1).y)

/-- A grid of 2 by 2 cells with `dt = 0.5`: the velocity of cell `[0][0]` is `(-1, 0)`, that
of its right neighbour `[0][1]` is `(4, 0)`, the two cells of the row below are at rest. -/
def advectionExample : grid :=
  { grid.init 2 2 grid.fresh with
    currentVelocities := [[Vec.mk (-1) 0, Vec.mk 4 0], [Vec.mk 0 0, Vec.mk 0 0]] }

/-- The divergence field as the specification words it:
`div = -0.5 * ((u_right − u_left) + (v_up − v_down))` in every cell `(i, j)` of the `H` rows
and `W` columns, with clamped samples of the velocity field. -/
def divergenceSpec (W H : Nat) (velocities : List (List Vec)) : List (List ℚ) :=
  tabulate H W (fun i j =>
    -(1 / 2) * (((sampleV W H velocities i ((j : Int) + 1)).x
        - (sampleV W H velocities i ((j : Int) - 1)).x)
      + ((sampleV W H velocities ((i : Int) - 1) j).y
        - (sampleV W H velocities ((i : Int) + 1) j).y)))

/-- A half-sweep of the pressure relaxation as the specification words it, on a grid of `n`
by `n` cells: a cell with `(i + j) % 2 = parity` becomes a quarter of its divergence plus the
sum of its four clamped neighbour pressures in `p`, the pressure field before the half-sweep;
every other cell keeps its value. -/
def halfSweepSpec (n parity : Nat) (divergence p : List (List ℚ)) : List (List ℚ) :=
  tabulate n n (fun i j =>
    if (i + j) % 2 = parity then
      ((at2 divergence i j).getD 0
        + (sampleP n n p i ((j : Int) - 1) + sampleP n n p i ((j : Int) + 1)
          + sampleP n n p ((i : Int) - 1) j + sampleP n n p ((i : Int) + 1) j)) / 4
    else (at2 p i j).getD 0)

/-- One sweep: the even half-sweep, then the odd half-sweep on its result. -/
def sweepSpec (n : Nat) (divergence p : List (List ℚ)) : List (List ℚ) :=
  halfSweepSpec n 1 divergence (halfSweepSpec n 0 divergence p)

/-- The velocity field minus the centred gradient of the pressure field `p`, as the
specification words it, on a grid of `n` by `n` cells. -/
def gradientSpec (n : Nat) (p : List (List ℚ)) (velocities : List (List Vec)) :
    List (List Vec) :=
  tabulate n n (fun i j =>
    let v := (at2 velocities i j).getD Vec.zero
    Vec.mk (v.x - (sampleP n n p i ((j : Int) + 1) - sampleP n n p i ((j : Int) - 1)) / 2)
      (v.y - (sampleP n n p ((i : Int) - 1) j - sampleP n n p ((i : Int) + 1) j) / 2))

/-- A grid of 3 by 3 cells after `init` whose only moving cell is the corner `[0][0]`, with
velocity `(1, 0)`. -/
def cornerExample : grid :=
  { grid.init 3 3 grid.fresh with
    currentVelocities := [[Vec.mk 1 0, Vec.mk 0 0, Vec.mk 0 0],
      [Vec.mk 0 0, Vec.mk 0 0, Vec.mk 0 0], [Vec.mk 0 0, Vec.mk 0 0, Vec.mk 0 0]] }

/-- A grid of 3 by 3 cells after `init` with the velocity `(i² + 2j, 3i + j³)` in cell
`[i][j]`. -/
def polynomialExample : grid :=
  { grid.init 3 3 grid.fresh with
    currentVelocities := [[Vec.mk 0 0, Vec.mk 2 1, Vec.mk 4 8],
      [Vec.mk 1 3, Vec.mk 3 4, Vec.mk 5 11], [Vec.mk 4 6, Vec.mk 6 7, Vec.mk 8 14]] }

/-- A grid of 3 by 3 cells after `init` whose only moving cell is `[1][0]`, in the middle of
the left edge, with velocity `(1, 0)`. -/
def edgeExample : grid :=
  { grid.init 3 3 grid.fresh with
    currentVelocities := [[Vec.mk 0 0, Vec.mk 0 0, Vec.mk 0 0],
      [Vec.mk 1 0, Vec.mk 0 0, Vec.mk 0 0], [Vec.mk 0 0, Vec.mk 0 0, Vec.mk 0 0]] }

/-- The interior cells of an array of `H` rows and `W` columns: those not in the first or
last row nor in the first or last column. -/
def interiorCells (W H : Nat) : List (Nat × Nat) :=
  (List.range H).foldr (fun i acc =>
    (List.range W).foldr (fun j acc =>
      if 1 ≤ i ∧ i + 1 < H ∧ 1 ≤ j ∧ j + 1 < W then (i, j) :: acc else acc) acc) []

/-- The mean of the absolute values of the array `d` over the interior cells. -/
def meanAbsInterior (W H : Nat) (d : List (List ℚ)) : ℚ :=
  ((interiorCells W H).map (fun c => |(at2 d c.1 c.2).getD 0|)).sum
    / ((interiorCells W H).length : ℚ)

/-- The mean absolute interior divergence (the divergence of `grid::projection`) of the
velocity field of a state. -/
def meanAbsDivergence (W H : Nat) (g : grid) : Option ℚ :=
  (grid.divergencePass W H g.currentVelocities).map (meanAbsInterior W H)

/-- The divergence-reduction property of the specification at a state `g`: after one call of
`grid::projection` the mean absolute interior divergence is strictly smaller than before. -/
def divergenceReduced (W H : Nat) (g : grid) : Bool :=
  match meanAbsDivergence W H g, (grid.projection W H g).bind (meanAbsDivergence W H) with
  | some before, some after => decide (after < before)
  | _, _ => false

/-- The `j`-th interpolated frame between the frames `A` and `B` as the specification words
it, on a grid of `n` by `n` cells: every cell is `(A·(10 − j) + B·(j + 1)) / 11`. -/
def interpolatedFrame (n : Nat) (A B : List (List Vec)) (j : Nat) : List (List Vec) :=
  tabulate n n (fun r c =>
    let a := (at2 A r c).getD Vec.zero
    let b := (at2 B r c).getD Vec.zero
    Vec.mk ((a.x * (10 - (j : ℚ)) + b.x * ((j : ℚ) + 1)) / 11)
      ((a.y * (10 - (j : ℚ)) + b.y * ((j : ℚ) + 1)) / 11))

/-- The frames generated for the pair `frames[k]`, `frames[k + 1]`: the frame `frames[k]`
itself, then the 10 interpolated frames. -/
def frameBlock (n : Nat) (frames : List (List (List Vec))) (k : Nat) : List (List (List Vec)) :=
  frames.getD k [] ::
    (List.range 10).map (interpolatedFrame n (frames.getD k []) (frames.getD (k + 1) []))

/-- The frames generated for the first `K` pairs of consecutive frames, in order. -/
def expandedFrames (n : Nat) (frames : List (List (List Vec))) : Nat → List (List (List Vec))
  | 0 => []
  | K + 1 => expandedFrames n frames K ++ frameBlock n frames K

/-- Two recorded frames of one cell each, with velocities `(0, 0)` and `(11, 22)`. -/
def twoFrames : grid :=
  { grid.init 1 1 grid.fresh with frames := [[[Vec.mk 0 0]], [[Vec.mk 11 22]]] }

/-! ## `Vec::magnitude`, `gpu_solver.cpp`: the host state -/

/-- The function `Vec::magnitude`, `sqrt(pow(x, 2) + pow(y, 2))`.  The library function
`std::sqrt` is not rational-valued, so it is a parameter of the embedding. -/
def Vec.magnitude (sqrt : ℚ → ℚ) (a : Vec) : ℚ := sqrt (a.x ^ 2 + a.y ^ 2)

/-- An executable stand-in for `std::sqrt` on non-negative numbers: the square root rounded
down to two decimals. -/
def sqrtApprox (q : ℚ) : ℚ := ((Nat.sqrt (⌊q * 10000⌋.toNat) : Nat) : ℚ) / 100

/-- The data members of the class `GPUSolver` that the simulation steps use: the grid extent
(non-negative `int`s), the three `float` parameters and the ping-pong index. -/
structure GPUSolver where
  gridWidth : Nat
  gridHeight : Nat
  timeStep : ℚ
  viscosity : ℚ
  alpha : ℚ
  currentBuffer : Int
deriving DecidableEq, Repr

namespace GPUSolver

/-- The constructor `GPUSolver::GPUSolver`: `currentBuffer(0)`, `timeStep = 0.2f`,
`viscosity = 30.0f`, `alpha = viscosity * timeStep / (1.0f * 1.0f)`. -/
def new (width height : Nat) : GPUSolver :=
  { gridWidth := width, gridHeight := height, timeStep := 1 / 5, viscosity := 30,
    alpha := 30 * (1 / 5) / (1 * 1), currentBuffer := 0 }

/-- The function `GPUSolver::swapBuffers`. -/
def swapBuffers (s : GPUSolver) : GPUSolver :=
  { s with currentBuffer := 1 - s.currentBuffer }

end GPUSolver

/-! ## Frame files (`writeFramesToFile`, `readFramesFromFile`, `loadFramesFromFile`) -/

/-- An item of a binary file: the `sizeof(int) = 4` bytes of one `int` or the
`sizeof(double) = 8` bytes of one `double`, as `write` stores them and `read` loads them back.
The byte representation of a value is abstract. -/
inductive Chunk where
  | int32 (v : Int)
  | float64 (v : ℚ)
deriving DecidableEq, Repr

/-- The number of bytes of an item. -/
def Chunk.size : Chunk → Nat
  | Chunk.int32 _ => 4
  | Chunk.float64 _ => 8

/-- The length of a file in bytes. -/
def fileSize (file : List Chunk) : Nat := (file.map Chunk.size).sum

/-- Conversion of an integer to `int` (32 bits, two's complement). -/
def toInt32 (n : Int) : Int := (n + 2 ^ 31) % 2 ^ 32 - 2 ^ 31

/-- The call `inFile.read(&v, sizeof(int))`: the next item must be an `int`. -/
def readInt : List Chunk → Option (Int × List Chunk)
  | Chunk.int32 v :: rest => some (v, rest)
  | _ => none

/-- The call `inFile.read(&v, sizeof(double))`: the next item must be a `double`. -/
def readDouble : List Chunk → Option (ℚ × List Chunk)
  | Chunk.float64 v :: rest => some (v, rest)
  | _ => none

/-- Checked write `frames[f][i][j] = v`. -/
def set3 (frames : List (List (List Vec))) (f i j : Nat) (v : Vec) :
    Option (List (List (List Vec))) := do
  let frame ← frames[f]?
  let frame ← set2 frame i j v
  pure (frames.set f frame)

namespace grid

/-- The body of the cell loops of `grid::writeFramesToFile` at cell `[i][j]` of frame `f`;
the state is the content of the output file. -/
def writeCell (f i j : Nat) (g : grid) (out : List Chunk) : Option (List Chunk) := do
  let vx ← at3 g.generatedFrames f i j
  let vy ← at3 g.generatedFrames f i j
  pure (out ++ [Chunk.float64 vx.x, Chunk.float64 vy.y])

/-- The function `grid::writeFramesToFile`.  The flag `opens` tells whether the file can be
opened for writing; the result is the content of the file written (`none` when nothing is
written). -/
def writeFramesToFile (W H : Nat) (opens : Bool) (g : grid) : Option (Option (List Chunk)) :=
  if opens = false then some none
  else do
    let numFrames : Int := toInt32 g.generatedFrames.length
    let header : List Chunk := [Chunk.int32 numFrames, Chunk.int32 W, Chunk.int32 H]
    let out ← forLoop numFrames.toNat
      (fun f => forLoop H (fun i => forLoop W (fun j => writeCell f i j g))) header
    pure (some out)

/-- The body of the cell loops of `grid::readFramesFromFile`; the state is the member
`generatedFrames` and the unread rest of the file. -/
def readCell (f i j : Nat) (st : List (List (List Vec)) × List Chunk) :
    Option (List (List (List Vec)) × List Chunk) := do
  let (vx, rest) ← readDouble st.2
  let (vy, rest) ← readDouble rest
  let frames ← set3 st.1 f i j (Vec.mk vx vy)
  pure (frames, rest)

/-- The body of the loop over `i` of `grid::readFramesFromFile`:
`generatedFrames[f][i].resize(width)`, then the loop over `j`. -/
def readRow (W : Nat) (f i : Nat) (st : List (List (List Vec)) × List Chunk) :
    Option (List (List (List Vec)) × List Chunk) := do
  let frame ← st.1[f]?
  let row ← frame[i]?
  forLoop W (fun j => readCell f i j)
    (st.1.set f (frame.set i (resize row W Vec.zero)), st.2)

/-- The body of the loop over `f` of `grid::readFramesFromFile`:
`generatedFrames[f].resize(height)`, then the loop over `i`. -/
def readFrame (W H : Nat) (f : Nat) (st : List (List (List Vec)) × List Chunk) :
    Option (List (List (List Vec)) × List Chunk) := do
  let frame ← st.1[f]?
  forLoop H (fun i => readRow W f i) (st.1.set f (resize frame H []), st.2)

/-- The function `grid::readFramesFromFile`.  The argument `file` is the content of the file,
`none` when it cannot be opened.  A negative frame count makes `resize` fail. -/
def readFramesFromFile (W H : Nat) (file : Option (List Chunk)) (g : grid) : Option grid :=
  match file with
  | none => some g
  | some content => do
    let (numFrames, rest) ← readInt content
    let (fileWidth, rest) ← readInt rest
    let (fileHeight, rest) ← readInt rest
    if fileWidth ≠ (W : Int) ∨ fileHeight ≠ (H : Int) then
      pure g
    else if numFrames < 0 then
      none
    else do
      let st ← forLoop numFrames.toNat (fun f => readFrame W H f)
        (resize [] numFrames.toNat [], rest)
      pure { g with generatedFrames := st.1 }

end grid

/-- The data members of `RaylibVisualizer` that `loadFramesFromFile` sets. -/
structure RaylibVisualizer where
  frames : List (List (List Vec))
  totalFrames : Int
  gridWidth : Nat
  gridHeight : Nat
deriving DecidableEq, Repr

/-- The function `RaylibVisualizer::loadFramesFromFile`: the result is the returned `bool`
and the new state. -/
def RaylibVisualizer.loadFramesFromFile (W H : Nat) (file : Option (List Chunk))
    (v : RaylibVisualizer) : Option (Bool × RaylibVisualizer) := do
  let g ← grid.readFramesFromFile W H file grid.fresh
  if g.generatedFrames.isEmpty then
    pure (false, v)
  else do
    let frames := g.generatedFrames
    let first ← frames[0]?
    let firstRow ← first[0]?
    pure (true, { frames := frames, totalFrames := toInt32 frames.length,
                  gridHeight := first.length, gridWidth := firstRow.length })

/-- The cells of a row as the file stores them: `x` then `y` of every cell, in order. -/
def encodeRow (row : List Vec) : List Chunk :=
  row.flatMap (fun v => [Chunk.float64 v.x, Chunk.float64 v.y])

/-- The cells of a frame as the file stores them: row after row. -/
def encodeFrame (frame : List (List Vec)) : List Chunk := frame.flatMap encodeRow

/-- The frame file as the specification describes it: the frame count, the width and the
height as 32-bit integers, then the frames in order. -/
def fileLayout (W H : Nat) (frames : List (List (List Vec))) : List Chunk :=
  [Chunk.int32 frames.length, Chunk.int32 W, Chunk.int32 H] ++ frames.flatMap encodeFrame

/-- A state with two generated frames of 1 row and 2 columns. -/
def savedExample : grid :=
  { grid.fresh with
    generatedFrames := [[[Vec.mk 1 2, Vec.mk 3 4]], [[Vec.mk 5 6, Vec.mk 7 8]]] }

/-! ## `gpu_solver.cpp`: the OpenGL calls of the simulation stages -/

/-- The six texture objects that `GPUSolver::initializeTextures` creates (six different
names). -/
inductive Tex where
  | velocityTexture0
  | velocityTexture1
  | velocityBefore
  | pressureTexture0
  | pressureTexture1
  | divergenceTexture
deriving DecidableEq, Repr

/-- The compute programs that the simulation stages use. -/
inductive Program where
  | forceProgram
  | diffusionProgram
  | advectionProgram
  | projectionProgram
  | projectionGradientProgram
deriving DecidableEq, Repr

/-- The access argument of `glBindImageTexture`. -/
inductive Access where
  | readOnly
  | writeOnly
  | readWrite
deriving DecidableEq, Repr

/-- The uniform names that the stages look up. -/
inductive Uniform where
  | timeStep
  | width
  | height
  | alpha
  | mode
deriving DecidableEq, Repr

/-- The OpenGL calls of the simulation stages that touch image units, uniforms, dispatches
and barriers (`checkGLError` only reads the error flag and is left out). -/
inductive GLCall where
  | useProgram (program : Program)
  | bindImageTexture (unit : Nat) (texture : Tex) (access : Access)
  | uniform1f (program : Program) (name : Uniform) (value : ℚ)
  | uniform1i (program : Program) (name : Uniform) (value : Int)
  | dispatchCompute (x y z : Nat)
  | memoryBarrier
  | copyImageSubData (src dst : Tex) (w h : Nat)
deriving DecidableEq, Repr

/-- The state of a run: the solver object and the OpenGL calls issued so far, oldest
first. -/
structure Run where
  solver : GPUSolver
  calls : List GLCall
deriving DecidableEq, Repr

/-- The run after the calls `cs` have been issued. -/
def Run.gl (r : Run) (cs : List GLCall) : Run := { r with calls := r.calls ++ cs }

namespace GPUSolver

/-- The array member `velocityTexture[k]`. -/
def velocityTexture (k : Int) : Option Tex :=
  if k = 0 then some Tex.velocityTexture0
  else if k = 1 then some Tex.velocityTexture1
  else none

/-- The array member `pressureTexture[k]`. -/
def pressureTexture (k : Int) : Option Tex :=
  if k = 0 then some Tex.pressureTexture0
  else if k = 1 then some Tex.pressureTexture1
  else none

/-- The call `glDispatchCompute((gridWidth + 15) / 16, (gridHeight + 15) / 16, 1)`. -/
def dispatchGrid (s : GPUSolver) : GLCall :=
  GLCall.dispatchCompute ((s.gridWidth + 15) / 16) ((s.gridHeight + 15) / 16) 1

/-- The function `GPUSolver::applyForces`. -/
def applyForces (r : Run) : Option Run := do
  let field ← velocityTexture r.solver.currentBuffer
  pure (r.gl [
    GLCall.useProgram Program.forceProgram,
    GLCall.bindImageTexture 0 field Access.readWrite,
    GLCall.uniform1f Program.forceProgram Uniform.timeStep r.solver.timeStep,
    GLCall.uniform1i Program.forceProgram Uniform.width r.solver.gridWidth,
    GLCall.uniform1i Program.forceProgram Uniform.height r.solver.gridHeight,
    r.solver.dispatchGrid,
    GLCall.memoryBarrier])

/-- The body of the loop of `GPUSolver::diffuse`. -/
def diffuseIteration (r : Run) : Option Run := do
  let out ← velocityTexture (1 - r.solver.currentBuffer)
  let inp ← velocityTexture r.solver.currentBuffer
  let r := r.gl [
    GLCall.useProgram Program.diffusionProgram,
    GLCall.bindImageTexture 0 out Access.writeOnly,
    GLCall.bindImageTexture 1 inp Access.readOnly,
    GLCall.bindImageTexture 2 Tex.velocityBefore Access.readOnly,
    GLCall.uniform1f Program.diffusionProgram Uniform.alpha r.solver.alpha,
    GLCall.uniform1i Program.diffusionProgram Uniform.width r.solver.gridWidth,
    GLCall.uniform1i Program.diffusionProgram Uniform.height r.solver.gridHeight,
    r.solver.dispatchGrid,
    GLCall.memoryBarrier]
  pure { r with solver := r.solver.swapBuffers }

/-- The function `GPUSolver::diffuse`. -/
def diffuse (r : Run) : Option Run := do
  let src ← velocityTexture r.solver.currentBuffer
  let r := r.gl [GLCall.copyImageSubData src Tex.velocityBefore r.solver.gridWidth
    r.solver.gridHeight]
  forLoop 15 (fun _ => diffuseIteration) r

/-- The function `GPUSolver::advect`. -/
def advect (r : Run) : Option Run := do
  let out ← velocityTexture (1 - r.solver.currentBuffer)
  let inp ← velocityTexture r.solver.currentBuffer
  let r := r.gl [
    GLCall.useProgram Program.advectionProgram,
    GLCall.bindImageTexture 0 out Access.writeOnly,
    GLCall.bindImageTexture 1 inp Access.readOnly,
    GLCall.uniform1f Program.advectionProgram Uniform.timeStep r.solver.timeStep,
    GLCall.uniform1i Program.advectionProgram Uniform.width r.solver.gridWidth,
    GLCall.uniform1i Program.advectionProgram Uniform.height r.solver.gridHeight,
    r.solver.dispatchGrid,
    GLCall.memoryBarrier]
  pure { r with solver := r.solver.swapBuffers }

/-- The body of the pressure loop of `GPUSolver::project`: the red phase, then the black
phase; the state is the run and the local variable `pressureBuffer`. -/
def projectIteration (st : Run × Int) : Option (Run × Int) := do
  let r := st.1
  let pressureBuffer := st.2
  let out ← pressureTexture (1 - pressureBuffer)
  let inp ← pressureTexture pressureBuffer
  let r := r.gl [
    GLCall.uniform1i Program.projectionProgram Uniform.mode 1,
    GLCall.bindImageTexture 1 out Access.writeOnly,
    GLCall.bindImageTexture 2 inp Access.readOnly,
    r.solver.dispatchGrid,
    GLCall.memoryBarrier]
  let pressureBuffer := 1 - pressureBuffer
  let out ← pressureTexture (1 - pressureBuffer)
  let inp ← pressureTexture pressureBuffer
  let r := r.gl [
    GLCall.uniform1i Program.projectionProgram Uniform.mode 2,
    GLCall.bindImageTexture 1 out Access.writeOnly,
    GLCall.bindImageTexture 2 inp Access.readOnly,
    r.solver.dispatchGrid,
    GLCall.memoryBarrier]
  let pressureBuffer := 1 - pressureBuffer
  pure (r, pressureBuffer)

/-- The function `GPUSolver::project`. -/
def project (r : Run) : Option Run := do
  let field ← velocityTexture r.solver.currentBuffer
  let p0 ← pressureTexture 0
  let r := r.gl [
    GLCall.useProgram Program.projectionProgram,
    GLCall.bindImageTexture 0 field Access.readOnly,
    GLCall.bindImageTexture 1 p0 Access.writeOnly,
    GLCall.bindImageTexture 2 p0 Access.readOnly,
    GLCall.bindImageTexture 3 Tex.divergenceTexture Access.writeOnly,
    GLCall.uniform1i Program.projectionProgram Uniform.mode 0,
    GLCall.uniform1i Program.projectionProgram Uniform.width r.solver.gridWidth,
    GLCall.uniform1i Program.projectionProgram Uniform.height r.solver.gridHeight,
    GLCall.uniform1f Program.projectionProgram Uniform.timeStep r.solver.timeStep,
    r.solver.dispatchGrid,
    GLCall.memoryBarrier]
  let st ← forLoop 20 (fun _ => projectIteration) (r, 0)
  let r := st.1
  let pressureBuffer := st.2
  let field ← velocityTexture r.solver.currentBuffer
  let pressure ← pressureTexture pressureBuffer
  pure (r.gl [
    GLCall.useProgram Program.projectionGradientProgram,
    GLCall.bindImageTexture 0 field Access.readWrite,
    GLCall.bindImageTexture 1 pressure Access.readOnly,
    GLCall.uniform1i Program.projectionGradientProgram Uniform.width r.solver.gridWidth,
    GLCall.uniform1i Program.projectionGradientProgram Uniform.height r.solver.gridHeight,
    GLCall.uniform1f Program.projectionGradientProgram Uniform.timeStep r.solver.timeStep,
    r.solver.dispatchGrid,
    GLCall.memoryBarrier])

/-- The simulation steps of one pass of the main loop of `main_gpu.cpp`:
`applyForces`, `diffuse`, `advect`, `project`. -/
def step (r : Run) : Option Run := do
  let r ← applyForces r
  let r ← diffuse r
  let r ← advect r
  project r

end GPUSolver

/-! ## Reading a sequence of OpenGL calls -/

/-- The access allows image loads. -/
def Access.reads : Access → Bool
  | Access.readOnly => true
  | Access.writeOnly => false
  | Access.readWrite => true

/-- The access allows image stores. -/
def Access.writes : Access → Bool
  | Access.readOnly => false
  | Access.writeOnly => true
  | Access.readWrite => true

/-- The image units that the compute shader of a program declares
(`layout(..., binding = k) uniform image2D`). -/
def Program.imageUnits : Program → List Nat
  | Program.forceProgram => [0]
  | Program.diffusionProgram => [0, 1, 2]
  | Program.advectionProgram => [0, 1]
  | Program.projectionProgram => [0, 1, 2, 3]
  | Program.projectionGradientProgram => [0, 1]

/-- The part of the OpenGL state that a dispatch depends on: the program in use, the value
of the uniform `mode`, and the image bindings, the latest binding of a unit first. -/
structure GLBindings where
  program : Option Program
  mode : Int
  units : List (Nat × Tex × Access)
deriving DecidableEq, Repr

/-- The state before any call. -/
def GLBindings.initial : GLBindings := { program := none, mode := 0, units := [] }

/-- The state after one more call. -/
def GLBindings.after (b : GLBindings) : GLCall → GLBindings
  | GLCall.useProgram p => { b with program := some p }
  | GLCall.bindImageTexture u t a => { b with units := (u, t, a) :: b.units }
  | GLCall.uniform1i _ Uniform.mode v => { b with mode := v }
  | _ => b

/-- The texture and access bound to an image unit. -/
def GLBindings.unit (b : GLBindings) (u : Nat) : Option (Tex × Access) :=
  (b.units.find? (fun e => e.1 = u)).map (fun e => e.2)

/-- The bindings of the image units that the program in use declares. -/
def GLBindings.used (b : GLBindings) : List (Tex × Access) :=
  match b.program with
  | none => []
  | some p => p.imageUnits.filterMap b.unit

/-- The textures bound for writing (write targets) to units of the program in use. -/
def GLBindings.writeTargets (b : GLBindings) : List Tex :=
  (b.used.filter (fun e => e.2.writes)).map (fun e => e.1)

/-- The textures bound for reading (read sources) to units of the program in use. -/
def GLBindings.readSources (b : GLBindings) : List Tex :=
  (b.used.filter (fun e => e.2.reads)).map (fun e => e.1)

/-- No texture is bound both as a write target and as a read source. -/
def GLBindings.disjoint (b : GLBindings) : Bool :=
  b.writeTargets.all (fun t => !b.readSources.contains t)

/-- The dispatches of a sequence of calls, each with the state in which it is issued. -/
def dispatches : GLBindings → List GLCall → List GLBindings
  | _, [] => []
  | b, GLCall.dispatchCompute _ _ _ :: rest => b :: dispatches b rest
  | b, c :: rest => dispatches (b.after c) rest

/-- Every dispatch of the sequence is followed by a memory barrier before the next dispatch
and before the end of the sequence; `pending` tells that a dispatch is waiting for its
barrier. -/
def barriered : Bool → List GLCall → Bool
  | pending, [] => !pending
  | pending, GLCall.dispatchCompute _ _ _ :: rest => !pending && barriered true rest
  | _, GLCall.memoryBarrier :: rest => barriered false rest
  | pending, _ :: rest => barriered pending rest

/-- A call is a compute dispatch. -/
def GLCall.isDispatch : GLCall → Bool
  | GLCall.dispatchCompute _ _ _ => true
  | _ => false

/-- A run that starts with a freshly constructed solver and no call issued. -/
def Run.start (width height : Nat) : Run := { solver := GPUSolver.new width height, calls := [] }

/-- A call without the values that do not matter for bindings, dispatch order and barriers:
the `float` uniforms, the extent uniforms, the numbers of work groups and the extent of a
copy are replaced by zero. -/
def GLCall.erase : GLCall → GLCall
  | GLCall.uniform1f p n _ => GLCall.uniform1f p n 0
  | GLCall.uniform1i p Uniform.mode v => GLCall.uniform1i p Uniform.mode v
  | GLCall.uniform1i p n _ => GLCall.uniform1i p n 0
  | GLCall.dispatchCompute _ _ z => GLCall.dispatchCompute 0 0 z
  | GLCall.copyImageSubData src dst _ _ => GLCall.copyImageSubData src dst 0 0
  | c => c

/-- A run without the values that do not matter for bindings, dispatch order and barriers:
only the buffer index of the solver is kept. -/
def Run.erase (r : Run) : Run :=
  { solver := { gridWidth := 0, gridHeight := 0, timeStep := 0, viscosity := 0, alpha := 0,
                currentBuffer := r.solver.currentBuffer }
    calls := r.calls.map GLCall.erase }

/-! ## `gpu_solver.cpp`: texture contents, the force kernel, `addForce` -/

/-- Checked write `data[idx] = v`. -/
def setAt {α : Type} (data : List α) (idx : Nat) (v : α) : Option (List α) :=
  if idx < data.length then some (data.set idx v) else none

/-- The global invocation IDs `(x, y)` of a dispatch of `gx` by `gy` work groups of 16 by 16
invocations (`layout(local_size_x = 16, local_size_y = 16)`), in a fixed order. -/
def invocations (gx gy : Nat) : List (Nat × Nat) :=
  (List.range gy).flatMap (fun wy => (List.range gx).flatMap (fun wx =>
    (List.range 16).flatMap (fun ly => (List.range 16).map (fun lx =>
      (16 * wx + lx, 16 * wy + ly)))))

/-- The effect of `glDispatchCompute(gx, gy, 1)` with a kernel `main` on the images it
accesses: `main` runs once for every invocation.  The invocations run one after the other in
the order of `invocations`. -/
def dispatchCompute {σ : Type} (gx gy : Nat) (main : Nat × Nat → σ → σ) (images : σ) : σ :=
  (invocations gx gy).foldl (fun s pos => main pos s) images

/-- The function `main` of `ShaderManager::FORCE_SHADER_SOURCE` for the invocation `pos`; the
image `velocityField` (binding 0) is a flat array of `float`s, two per texel, row after row.
The body of `main` is empty. -/
def forceMain (_timeStep : ℚ) (_width _height : Int) (_pos : Nat × Nat)
    (velocityField : List ℚ) : List ℚ :=
  velocityField

namespace GPUSolver

/-- The effect of the dispatch of `GPUSolver::applyForces` on the content of the texture
`velocityTexture[currentBuffer]`, bound to image unit 0. -/
def applyForcesImage (s : GPUSolver) (velocityField : List ℚ) : List ℚ :=
  dispatchCompute ((s.gridWidth + 15) / 16) ((s.gridHeight + 15) / 16)
    (forceMain s.timeStep s.gridWidth s.gridHeight) velocityField

/-- The call `glGetTexImage(GL_TEXTURE_2D, 0, GL_RG, GL_FLOAT, data.data())` into a vector
of `size` floats: the content of the texture, which must fit the vector. -/
def glGetTexImage (texture : List ℚ) (size : Nat) : Option (List ℚ) :=
  if texture.length = size then some texture else none

/-- The body of the cell loops of `GPUSolver::downloadVelocityData` at `(x, y)`. -/
def downloadCell (s : GPUSolver) (data : List ℚ) (y x : Nat) (velocities : List (List Vec)) :
    Option (List (List Vec)) := do
  let idx := (y * s.gridWidth + x) * 2
  let vx ← data[idx]?
  let vy ← data[idx + 1]?
  set2 velocities y x (Vec.mk vx vy)

/-- The body of the loop over `y` of `GPUSolver::downloadVelocityData`:
`velocities[y].resize(gridWidth)`, then the loop over `x`. -/
def downloadRow (s : GPUSolver) (data : List ℚ) (y : Nat) (velocities : List (List Vec)) :
    Option (List (List Vec)) := do
  let row ← velocities[y]?
  forLoop s.gridWidth (fun x => downloadCell s data y x)
    (velocities.set y (resize row s.gridWidth Vec.zero))

/-- The function `GPUSolver::downloadVelocityData`; `texture` is the content of
`velocityTexture[currentBuffer]`, and the result is the new value of `velocities`. -/
def downloadVelocityData (s : GPUSolver) (texture : List ℚ) (velocities : List (List Vec)) :
    Option (List (List Vec)) := do
  let data ← glGetTexImage texture (s.gridWidth * s.gridHeight * 2)
  forLoop s.gridHeight (fun y => downloadRow s data y) (resize velocities s.gridHeight [])

/-- The body of the cell loops of `GPUSolver::uploadVelocityData` at `(x, y)`. -/
def uploadCell (s : GPUSolver) (velocities : List (List Vec)) (y x : Nat) (data : List ℚ) :
    Option (List ℚ) := do
  let idx := (y * s.gridWidth + x) * 2
  let vx ← at2 velocities y x
  let data ← setAt data idx vx.x
  let vy ← at2 velocities y x
  setAt data (idx + 1) vy.y

/-- The function `GPUSolver::uploadVelocityData`: the result is the vector `data`, which
`glTexSubImage2D` makes the new content of `velocityTexture[currentBuffer]`. -/
def uploadVelocityData (s : GPUSolver) (velocities : List (List Vec)) : Option (List ℚ) :=
  forLoop s.gridHeight (fun y => forLoop s.gridWidth (fun x => uploadCell s velocities y x))
    (List.replicate (s.gridWidth * s.gridHeight * 2) 0)

/-- The body of the two loops of `GPUSolver::addForce` for the offset `(dx, dy)` from the
clamped target `(x, y)`; `sqrt` stands for `std::sqrt`. -/
def addForceCell (s : GPUSolver) (sqrt : ℚ → ℚ) (x y : Int) (fx fy : ℚ) (dy dx : Int)
    (velocities : List (List Vec)) : Option (List (List Vec)) :=
  let radius : Int := 5
  let maxForce : ℚ := 2
  let px : Int := x + dx
  let py : Int := y + dy
  if px ≥ 0 ∧ px < s.gridWidth ∧ py ≥ 0 ∧ py < s.gridHeight then
    let dist : ℚ := sqrt ((dx * dx + dy * dy : Int) : ℚ)
    if dist ≤ (radius : ℚ) then
      let factor : ℚ := (1 - dist / (radius : ℚ)) * maxForce
      (modify2 velocities py.toNat px.toNat (fun v => { v with x := v.x + fx * factor })).bind
        (fun velocities =>
          modify2 velocities py.toNat px.toNat (fun v => { v with y := v.y + fy * factor }))
    else some velocities
  else some velocities

/-- The function `GPUSolver::addForce`; `texture` is the content of
`velocityTexture[currentBuffer]` before the call and the result its content after the call.
The loops over `dy` and `dx` run from `-radius` to `radius`. -/
def addForce (s : GPUSolver) (sqrt : ℚ → ℚ) (x y : Int) (fx fy : ℚ) (texture : List ℚ) :
    Option (List ℚ) := do
  let x : Int := max 0 (min x ((s.gridWidth : Int) - 1))
  let y : Int := max 0 (min y ((s.gridHeight : Int) - 1))
  let velocities ← downloadVelocityData s texture []
  let velocities ← forLoop 11 (fun a => forLoop 11 (fun b =>
    addForceCell s sqrt x y fx fy ((a : Int) - 5) ((b : Int) - 5))) velocities
  uploadVelocityData s velocities

end GPUSolver

/-- The texel `(x, y)` of a two-channel image of width `W` stored as a flat array. -/
def texel (W : Nat) (data : List ℚ) (x y : Nat) : Option Vec := do
  let vx ← data[(y * W + x) * 2]?
  let vy ← data[(y * W + x) * 2 + 1]?
  pure (Vec.mk vx vy)

/-- A solver for a grid of 3 by 2 cells. -/
def smallSolver : GPUSolver := GPUSolver.new 3 2

/-- The content of a velocity texture of 3 by 2 texels. -/
def smallTexture : List ℚ := [1, 2, 3, 4, 5, 6, 7, 8, 9, 10, 11, 12]

/-- The velocity of cell `(c, r)` (column `c`, row `r`) after `addForce` with the clamped
target `(cx, cy)`, as the specification describes it: with `d` the distance from the target,
the force `(fx, fy)` scaled by `2·(1 − d/5)` is added when `d ≤ 5`. -/
def forcedVelocity (sqrt : ℚ → ℚ) (cx cy : Int) (fx fy : ℚ) (r c : Nat) (v : Vec) : Vec :=
  let d : ℚ := sqrt (((((c : Int) - cx) * ((c : Int) - cx)
    + ((r : Int) - cy) * ((r : Int) - cy) : Int)) : ℚ)
  if d ≤ 5 then Vec.mk (v.x + fx * (2 * (1 - d / 5))) (v.y + fy * (2 * (1 - d / 5))) else v

/-- In the loops of `addForce`, the offset of cell `(c, r)` from the target `(cx, cy)` lies
in the square of offsets `-5..5` and comes before the offset with loop counters `(a, b)`. -/
def offsetVisited (cx cy : Int) (a b r c : Nat) : Prop :=
  0 ≤ (r : Int) - cy + 5 ∧ 0 ≤ (c : Int) - cx + 5 ∧ (c : Int) - cx + 5 < 11 ∧
    ((r : Int) - cy + 5 < a ∨ ((r : Int) - cy + 5 = a ∧ (c : Int) - cx + 5 < b))

instance (cx cy : Int) (a b r c : Nat) : Decidable (offsetVisited cx cy a b r c) := by
  unfold offsetVisited; infer_instance

/-! ## Bounds on a velocity field -/

/-- Every entry `v` of the field has its component `comp v` in `[m, M]`. -/
def fieldWithin (comp : Vec → ℚ) (m M : ℚ) (F : List (List Vec)) : Prop :=
  ∀ row ∈ F, ∀ v ∈ row, m ≤ comp v ∧ comp v ≤ M

instance (comp : Vec → ℚ) (m M : ℚ) (F : List (List Vec)) :
    Decidable (fieldWithin comp m M F) := by
  unfold fieldWithin; infer_instance

/-- A grid of 2 by 2 cells after `init`, at rest, whose pressure array still holds the value
1 in cell `[0][0]` from an earlier step. -/
def leftoverExample : grid :=
  { grid.init 2 2 grid.fresh with pressureForces := [[1, 0], [0, 0]] }

/-! ## The cells of `grid::advection` in closed form -/

/-- The clamped backtraced position `x_new` of `grid::advection` for a cell of column `j` and
velocity `v`. -/
def backtraceX (W : Nat) (dt : ℚ) (v : Vec) (j : Nat) : ℚ :=
  max (min ((((j : Int)) : ℚ) - v.x * dt) ((W : ℚ) - 1)) 0

/-- The clamped backtraced position `y_new` of `grid::advection` for a cell of row `i` and
velocity `v`. -/
def backtraceY (H : Nat) (dt : ℚ) (v : Vec) (i : Nat) : ℚ :=
  max (min ((((H : Int) - i - 1 : Int) : ℚ) - v.y * dt) ((H : ℚ) - 1)) 0

/-- The first index `lowX` (after the exchange of `lowX` and `lowY`) that `grid::advection`
uses for the cell `[i][j]` of the field `F`. -/
def advectionLowX (H : Nat) (dt : ℚ) (F : List (List Vec)) (i j : Nat) : Int :=
  (H : Int) - 1 - ⌊backtraceY H dt ((at2 F i j).getD Vec.zero) i⌋

/-- The second index `lowY` (after the exchange) that `grid::advection` uses for the cell
`[i][j]` of the field `F`. -/
def advectionLowY (W : Nat) (dt : ℚ) (F : List (List Vec)) (i j : Nat) : Int :=
  ⌊backtraceX W dt ((at2 F i j).getD Vec.zero) j⌋

/-- The weight `s` of `grid::advection` for the cell `[i][j]`. -/
def advectionS (W : Nat) (dt : ℚ) (F : List (List Vec)) (i j : Nat) : ℚ :=
  backtraceX W dt ((at2 F i j).getD Vec.zero) j
    - (⌊backtraceX W dt ((at2 F i j).getD Vec.zero) j⌋ : Int)

/-- The weight `t` of `grid::advection` for the cell `[i][j]`. -/
def advectionT (H : Nat) (dt : ℚ) (F : List (List Vec)) (i j : Nat) : ℚ :=
  backtraceY H dt ((at2 F i j).getD Vec.zero) i
    - (⌊backtraceY H dt ((at2 F i j).getD Vec.zero) i⌋ : Int)

/-- The value that `grid::advection` stores in `nextVelocities[i][j]`, as a function of the
input field `F`: the sum of the four entries it reads, weighted with `(1-s)(1-t)`, `s(1-t)`,
`(1-s)t` and `st`. -/
def advectedCell (W H : Nat) (dt : ℚ) (F : List (List Vec)) (i j : Nat) : Vec :=
  let s := advectionS W dt F i j
  let t := advectionT H dt F i j
  let lowX := advectionLowX H dt F i j
  let lowY := advectionLowY W dt F i j
  let c00 := (atI F lowX lowY).getD Vec.zero
  let c10 := (atI F (min (lowX + 1) ((W : Int) - 1)) lowY).getD Vec.zero
  let c01 := (atI F lowX (min (lowY + 1) ((H : Int) - 1))).getD Vec.zero
  let c11 := (atI F (min (lowX + 1) ((W : Int) - 1)) (min (lowY + 1) ((H : Int) - 1))).getD
    Vec.zero
  Vec.mk
    ((1 - s) * (1 - t) * c00.x + s * (1 - t) * c10.x + (1 - s) * t * c01.x + s * t * c11.x)
    ((1 - s) * (1 - t) * c00.y + s * (1 - t) * c10.y + (1 - s) * t * c01.y + s * t * c11.y)

/-- A grid of 3 by 3 cells after `init` (`dt = 0.5`) whose middle row `[1]` holds the
velocities `(0, 0)`, `(4, 0)`, `(2, 0)`; the other cells are at rest. -/
def shiftExample : grid :=
  { grid.init 3 3 grid.fresh with
    currentVelocities := [[Vec.mk 0 0, Vec.mk 0 0, Vec.mk 0 0],
      [Vec.mk 0 0, Vec.mk 4 0, Vec.mk 2 0], [Vec.mk 0 0, Vec.mk 0 0, Vec.mk 0 0]] }

/-! ## `shader_manager.cpp`: the compute kernels on texture contents -/

/-- The contents of the six textures, each a flat array of `float`s, row after row: two per
texel for the `GL_RG32F` velocity textures, one per texel for the `GL_R32F` pressure and
divergence textures. -/
abbrev Images := Tex → List ℚ

/-- The number of `float`s per texel of a texture (`createTexture` with `GL_RG32F` or
`GL_R32F` in `GPUSolver::initializeTextures`). -/
def Tex.channels : Tex → Nat
  | Tex.velocityTexture0 => 2
  | Tex.velocityTexture1 => 2
  | Tex.velocityBefore => 2
  | Tex.pressureTexture0 => 1
  | Tex.pressureTexture1 => 1
  | Tex.divergenceTexture => 1

/-- The call `imageLoad(image, p).xy` on an `rg32f` image of `texW` by `texH` texels; a load
outside the image returns zero. -/
def imageLoadRG (texW texH : Nat) (T : Images) (image : Tex) (p : Int × Int) : Vec :=
  if 0 ≤ p.1 ∧ p.1 < texW ∧ 0 ≤ p.2 ∧ p.2 < texH then
    Vec.mk ((T image).getD ((p.2.toNat * texW + p.1.toNat) * 2) 0)
      ((T image).getD ((p.2.toNat * texW + p.1.toNat) * 2 + 1) 0)
  else Vec.mk 0 0

/-- The call `imageStore(image, p, vec4(v, 0.0, 1.0))` on an `rg32f` image of `texW` by `texH`
texels; a store outside the image has no effect. -/
def imageStoreRG (texW texH : Nat) (T : Images) (image : Tex) (p : Int × Int) (v : Vec) :
    Images :=
  if 0 ≤ p.1 ∧ p.1 < texW ∧ 0 ≤ p.2 ∧ p.2 < texH then
    Function.update T image
      (((T image).set ((p.2.toNat * texW + p.1.toNat) * 2) v.x).set
        ((p.2.toNat * texW + p.1.toNat) * 2 + 1) v.y)
  else T

/-- The call `imageLoad(image, p).x` on an `r32f` image of `texW` by `texH` texels; a load
outside the image returns zero. -/
def imageLoadR (texW texH : Nat) (T : Images) (image : Tex) (p : Int × Int) : ℚ :=
  if 0 ≤ p.1 ∧ p.1 < texW ∧ 0 ≤ p.2 ∧ p.2 < texH then
    (T image).getD (p.2.toNat * texW + p.1.toNat) 0
  else 0

/-- The call `imageStore(image, p, vec4(v, 0.0, 0.0, 1.0))` on an `r32f` image of `texW` by
`texH` texels; a store outside the image has no effect. -/
def imageStoreR (texW texH : Nat) (T : Images) (image : Tex) (p : Int × Int) (v : ℚ) :
    Images :=
  if 0 ≤ p.1 ∧ p.1 < texW ∧ 0 ≤ p.2 ∧ p.2 < texH then
    Function.update T image ((T image).set (p.2.toNat * texW + p.1.toNat) v)
  else T

/-- The first two statements of `main` in the diffusion, advection, projection and gradient
kernels, `ivec2 pos = ivec2(gl_GlobalInvocationID.xy);` and
`if (pos.x >= width || pos.y >= height) return;`, followed by the rest of the kernel,
`body`. -/
def guardedMain {σ : Type} (width height : Int) (body : Int × Int → σ → σ) (gid : Nat × Nat)
    (images : σ) : σ :=
  let pos : Int × Int := ((gid.1 : Int), (gid.2 : Int))
  if pos.1 ≥ width ∨ pos.2 ≥ height then images else body pos images

/-- The function `main` of `ShaderManager::DIFFUSION_SHADER_SOURCE` after its guard;
`velocityOut`, `velocityIn` and `beforeImage` are the textures bound to the image units
0, 1 and 2 (the images `velocityOut`, `velocityIn` and `velocityBefore` of the kernel). -/
def diffusionBody (texW texH : Nat) (width height : Int) (alpha : ℚ)
    (velocityOut velocityIn beforeImage : Tex) (pos : Int × Int) (T : Images) : Images :=
  let left : Int × Int := (max (pos.1 - 1) 0, pos.2)
  let right : Int × Int := (min (pos.1 + 1) (width - 1), pos.2)
  let up : Int × Int := (pos.1, max (pos.2 - 1) 0)
  let down : Int × Int := (pos.1, min (pos.2 + 1) (height - 1))
  let vL := imageLoadRG texW texH T velocityIn left
  let vR := imageLoadRG texW texH T velocityIn right
  let vU := imageLoadRG texW texH T velocityIn up
  let vD := imageLoadRG texW texH T velocityIn down
  let vC := imageLoadRG texW texH T beforeImage pos
  let result : Vec :=
    Vec.mk ((vC.x + alpha * (vL.x + vR.x + vU.x + vD.x)) / (1 + 4 * alpha))
      ((vC.y + alpha * (vL.y + vR.y + vU.y + vD.y)) / (1 + 4 * alpha))
  imageStoreRG texW texH T velocityOut pos result

/-- The GLSL function `mix(a, b, t)` on `vec2`. -/
def mix (a b : Vec) (t : ℚ) : Vec := Vec.mk (a.x * (1 - t) + b.x * t) (a.y * (1 - t) + b.y * t)

/-- The value `result` that `main` of `ShaderManager::ADVECTION_SHADER_SOURCE` computes for
the position `pos`; `velocityIn` is the texture bound to the image unit 1. -/
def advectionResult (texW texH : Nat) (width height : Int) (timeStep : ℚ) (velocityIn : Tex)
    (pos : Int × Int) (T : Images) : Vec :=
  let vel := imageLoadRG texW texH T velocityIn pos
  let prevPosX : ℚ := (pos.1 : ℚ) - vel.x * timeStep
  let prevPosY : ℚ := (pos.2 : ℚ) - vel.y * timeStep
  let prevPosX : ℚ := min (max prevPosX 0) (((width - 1 : Int)) : ℚ)
  let prevPosY : ℚ := min (max prevPosY 0) (((height - 1 : Int)) : ℚ)
  let i0 : Int × Int := (⌊prevPosX⌋, ⌊prevPosY⌋)
  let i1 : Int × Int := (min (i0.1 + 1) (width - 1), min (i0.2 + 1) (height - 1))
  let fx : ℚ := prevPosX - (⌊prevPosX⌋ : Int)
  let fy : ℚ := prevPosY - (⌊prevPosY⌋ : Int)
  let v00 := imageLoadRG texW texH T velocityIn i0
  let v10 := imageLoadRG texW texH T velocityIn (i1.1, i0.2)
  let v01 := imageLoadRG texW texH T velocityIn (i0.1, i1.2)
  let v11 := imageLoadRG texW texH T velocityIn i1
  mix (mix v00 v10 fx) (mix v01 v11 fx) fy

/-- The function `main` of `ShaderManager::ADVECTION_SHADER_SOURCE` after its guard;
`velocityOut` and `velocityIn` are the textures bound to the image units 0 and 1. -/
def advectionBody (texW texH : Nat) (width height : Int) (timeStep : ℚ)
    (velocityOut velocityIn : Tex) (pos : Int × Int) (T : Images) : Images :=
  imageStoreRG texW texH T velocityOut pos
    (advectionResult texW texH width height timeStep velocityIn pos T)

/-- The function `main` of `ShaderManager::PROJECTION_SHADER_SOURCE` after its guard;
`velocityField`, `pressureOut`, `pressureIn` and `divergenceField` are the textures bound to
the image units 0 to 3. -/
def projectionBody (texW texH : Nat) (width height mode : Int)
    (velocityField pressureOut pressureIn divergenceField : Tex) (pos : Int × Int)
    (T : Images) : Images :=
  if mode = 0 then
    let left : Int × Int := (max (pos.1 - 1) 0, pos.2)
    let right : Int × Int := (min (pos.1 + 1) (width - 1), pos.2)
    let up : Int × Int := (pos.1, max (pos.2 - 1) 0)
    let down : Int × Int := (pos.1, min (pos.2 + 1) (height - 1))
    let vL := imageLoadRG texW texH T velocityField left
    let vR := imageLoadRG texW texH T velocityField right
    let vU := imageLoadRG texW texH T velocityField up
    let vD := imageLoadRG texW texH T velocityField down
    let div : ℚ := -(1 / 2) * ((vR.x - vL.x) + (vD.y - vU.y))
    imageStoreR texW texH T divergenceField pos div
  else
    let isRed : Bool := decide ((pos.1 + pos.2) % 2 = 0)
    if decide (mode = 1) != isRed then
      let p := imageLoadR texW texH T pressureIn pos
      imageStoreR texW texH T pressureOut pos p
    else
      let left : Int × Int := (max (pos.1 - 1) 0, pos.2)
      let right : Int × Int := (min (pos.1 + 1) (width - 1), pos.2)
      let up : Int × Int := (pos.1, max (pos.2 - 1) 0)
      let down : Int × Int := (pos.1, min (pos.2 + 1) (height - 1))
      let pL := imageLoadR texW texH T pressureIn left
      let pR := imageLoadR texW texH T pressureIn right
      let pU := imageLoadR texW texH T pressureIn up
      let pD := imageLoadR texW texH T pressureIn down
      let div := imageLoadR texW texH T divergenceField pos
      let p : ℚ := (div + pL + pR + pU + pD) / 4
      imageStoreR texW texH T pressureOut pos p

/-- The function `main` of `ShaderManager::PROJECTION_GRADIENT_SHADER_SOURCE` after its
guard; `velocityField` and `pressureField` are the textures bound to the image units 0
and 1. -/
def projectionGradientBody (texW texH : Nat) (width height : Int)
    (velocityField pressureField : Tex) (pos : Int × Int) (T : Images) : Images :=
  let left : Int × Int := (max (pos.1 - 1) 0, pos.2)
  let right : Int × Int := (min (pos.1 + 1) (width - 1), pos.2)
  let up : Int × Int := (pos.1, max (pos.2 - 1) 0)
  let down : Int × Int := (pos.1, min (pos.2 + 1) (height - 1))
  let pL := imageLoadR texW texH T pressureField left
  let pR := imageLoadR texW texH T pressureField right
  let pU := imageLoadR texW texH T pressureField up
  let pD := imageLoadR texW texH T pressureField down
  let gradient : Vec := Vec.mk ((pR - pL) * (1 / 2)) ((pD - pU) * (1 / 2))
  let old := imageLoadRG texW texH T velocityField pos
  let velocity : Vec := Vec.mk (old.x - gradient.x) (old.y - gradient.y)
  imageStoreRG texW texH T velocityField pos velocity
/-! ## The effect of the OpenGL calls on the texture contents -/

/-- The OpenGL state that the simulation stages read and write: the extent of the textures
(`createTexture(gridWidth, gridHeight, ...)`), their contents, the program in use with the
image bindings, and the values of the uniforms of each program. -/
structure GLState where
  texWidth : Nat
  texHeight : Nat
  images : Images
  bindings : GLBindings
  floats : Program → Uniform → ℚ
  ints : Program → Uniform → Int

/-- The texture bound to an image unit. -/
def GLState.image (st : GLState) (u : Nat) : Option Tex := (st.bindings.unit u).map (fun e => e.1)

/-- The function `main` of the compute shader of a program, with the images and uniforms of
the state; `none` when an image unit of the program has no texture bound.  An image load
returns the content of the bound texture and an image store changes it, whatever the access
argument of the binding. -/
def GLState.kernel (st : GLState) : Program → Option (Nat × Nat → Images → Images)
  | Program.forceProgram => do
    let velocityField ← st.image 0
    pure (fun gid T => Function.update T velocityField
      (forceMain (st.floats Program.forceProgram Uniform.timeStep)
        (st.ints Program.forceProgram Uniform.width)
        (st.ints Program.forceProgram Uniform.height) gid (T velocityField)))
  | Program.diffusionProgram => do
    let velocityOut ← st.image 0
    let velocityIn ← st.image 1
    let beforeImage ← st.image 2
    pure (guardedMain (st.ints Program.diffusionProgram Uniform.width)
      (st.ints Program.diffusionProgram Uniform.height)
      (diffusionBody st.texWidth st.texHeight (st.ints Program.diffusionProgram Uniform.width)
        (st.ints Program.diffusionProgram Uniform.height)
        (st.floats Program.diffusionProgram Uniform.alpha) velocityOut velocityIn beforeImage))
  | Program.advectionProgram => do
    let velocityOut ← st.image 0
    let velocityIn ← st.image 1
    pure (guardedMain (st.ints Program.advectionProgram Uniform.width)
      (st.ints Program.advectionProgram Uniform.height)
      (advectionBody st.texWidth st.texHeight (st.ints Program.advectionProgram Uniform.width)
        (st.ints Program.advectionProgram Uniform.height)
        (st.floats Program.advectionProgram Uniform.timeStep) velocityOut velocityIn))
  | Program.projectionProgram => do
    let velocityField ← st.image 0
    let pressureOut ← st.image 1
    let pressureIn ← st.image 2
    let divergenceField ← st.image 3
    pure (guardedMain (st.ints Program.projectionProgram Uniform.width)
      (st.ints Program.projectionProgram Uniform.height)
      (projectionBody st.texWidth st.texHeight
        (st.ints Program.projectionProgram Uniform.width)
        (st.ints Program.projectionProgram Uniform.height)
        (st.ints Program.projectionProgram Uniform.mode)
        velocityField pressureOut pressureIn divergenceField))
  | Program.projectionGradientProgram => do
    let velocityField ← st.image 0
    let pressureField ← st.image 1
    pure (guardedMain (st.ints Program.projectionGradientProgram Uniform.width)
      (st.ints Program.projectionGradientProgram Uniform.height)
      (projectionGradientBody st.texWidth st.texHeight
        (st.ints Program.projectionGradientProgram Uniform.width)
        (st.ints Program.projectionGradientProgram Uniform.height)
        velocityField pressureField))

/-- The region of `w` by `h` texels at the origin copied from `src` into `dst`, two textures
of the same format with `channels` floats per texel and `texW` texels per row. -/
def copyRegion (texW channels w h : Nat) (src dst : List ℚ) : List ℚ :=
  (List.range dst.length).map (fun k =>
    if (k / channels) % texW < w ∧ (k / channels) / texW < h then src.getD k 0
    else dst.getD k 0)

/-- The effect of one OpenGL call on the state; `none` when a dispatch finds no program in
use or an image unit of the program without texture.  `glUniform*` sets a uniform of the
program in use (the stages always look the location up in that program); a call with a
location of another program is left without effect.  Writes of a dispatch are visible to
every later call, so `glMemoryBarrier` changes nothing. -/
def GLState.exec (st : GLState) : GLCall → Option GLState
  | GLCall.useProgram p => some { st with bindings := st.bindings.after (GLCall.useProgram p) }
  | GLCall.bindImageTexture u t a =>
    some { st with bindings := st.bindings.after (GLCall.bindImageTexture u t a) }
  | GLCall.uniform1f p n v =>
    if st.bindings.program = some p then
      some { st with floats := Function.update st.floats p (Function.update (st.floats p) n v) }
    else some st
  | GLCall.uniform1i p n v =>
    if st.bindings.program = some p then
      some { st with
        bindings := st.bindings.after (GLCall.uniform1i p n v)
        ints := Function.update st.ints p (Function.update (st.ints p) n v) }
    else some st
  | GLCall.dispatchCompute x y z => do
    let p ← st.bindings.program
    let main ← st.kernel p
    pure { st with
      images := (List.range z).foldl (fun T _ => dispatchCompute x y main T) st.images }
  | GLCall.memoryBarrier => some st
  | GLCall.copyImageSubData src dst w h =>
    some { st with
      images := Function.update st.images dst
        (copyRegion st.texWidth src.channels w h (st.images src) (st.images dst)) }

/-- The effect of a sequence of OpenGL calls, oldest first. -/
def GLState.execAll (st : GLState) : List GLCall → Option GLState
  | [] => some st
  | c :: cs => (st.exec c).bind (fun st => st.execAll cs)

/-- The state after `GPUSolver::initializeTextures` for a solver, with the given texture
contents: no program in use, no image bound, all uniforms zero. -/
def GLState.start (s : GPUSolver) (images : Images) : GLState :=
  { texWidth := s.gridWidth, texHeight := s.gridHeight, images := images,
    bindings := GLBindings.initial, floats := fun _ _ => 0, ints := fun _ _ => 0 }

/-- The texel `(x, y)` of a one-channel image of width `W` stored as a flat array. -/
def texelR (W : Nat) (data : List ℚ) (x y : Nat) : Option ℚ := data[y * W + x]?

/-- The velocity texture `data` of `W` by `H` texels holds the field `V`: texel `(x, y)` is
the array entry `V[y][x]`, as `uploadVelocityData` and `downloadVelocityData` have it. -/
def holdsField (W H : Nat) (data : List ℚ) (V : List (List Vec)) : Prop :=
  data.length = W * H * 2 ∧ hasDims V H W ∧
    ∀ y, y < H → ∀ x, x < W → texel W data x y = at2 V y x

instance (W H : Nat) (data : List ℚ) (V : List (List Vec)) :
    Decidable (holdsField W H data V) := by
  unfold holdsField; infer_instance

/-- The one-channel texture `data` of `W` by `H` texels holds the scalar field `P`: texel
`(x, y)` is the array entry `P[y][x]`. -/
def holdsScalar (W H : Nat) (data : List ℚ) (P : List (List ℚ)) : Prop :=
  data.length = W * H ∧ hasDims P H W ∧
    ∀ y, y < H → ∀ x, x < W → texelR W data x y = at2 P y x

instance (W H : Nat) (data : List ℚ) (P : List (List ℚ)) :
    Decidable (holdsScalar W H data P) := by
  unfold holdsScalar; infer_instance
/-- Texture contents for `smallSolver`: `velocityTexture[0]` holds `smallTexture`, the other
textures are zero. -/
def smallImages : Images := fun t =>
  if t = Tex.velocityTexture0 then smallTexture else List.replicate (3 * 2 * t.channels) 0

/-- The field of 2 rows and 3 columns that `smallTexture` holds. -/
def smallField : List (List Vec) :=
  [[Vec.mk 1 2, Vec.mk 3 4, Vec.mk 5 6], [Vec.mk 7 8, Vec.mk 9 10, Vec.mk 11 12]]

/-- An OpenGL state as `GPUSolver::project` has it on a grid of 2 by 2 texels when its
pressure loop starts: the projection program in use with its four image units bound and the
extent uniforms set; `pressureTexture[0]` holds the pressure 1 in texel `(0, 0)`, the other
textures are zero. -/
def sweepState : GLState :=
  { texWidth := 2, texHeight := 2,
    images := fun t =>
      if t = Tex.pressureTexture0 then [1, 0, 0, 0] else List.replicate (2 * 2 * t.channels) 0,
    bindings :=
      { program := some Program.projectionProgram, mode := 0,
        units := [(3, Tex.divergenceTexture, Access.writeOnly),
          (2, Tex.pressureTexture0, Access.readOnly),
          (1, Tex.pressureTexture0, Access.writeOnly),
          (0, Tex.velocityTexture0, Access.readOnly)] },
    floats := fun _ _ => 0,
    ints := fun _ u => if u = Uniform.width ∨ u = Uniform.height then 2 else 0 }
/-- The velocity texture `data` of `W` by `H` texels holds the field `V` upside down: texel
`(x, y)` is the array entry `V[H - 1 - y][x]`, so that the texel coordinates of a cell are the
position `(j, H - 1 - i)` that `grid::advection` gives to the cell `[i][j]`. -/
def holdsFlipped (W H : Nat) (data : List ℚ) (V : List (List Vec)) : Prop :=
  data.length = W * H * 2 ∧ hasDims V H W ∧
    ∀ y, y < H → ∀ x, x < W → texel W data x y = at2 V (H - 1 - y) x

instance (W H : Nat) (data : List ℚ) (V : List (List Vec)) :
    Decidable (holdsFlipped W H data V) := by
  unfold holdsFlipped; infer_instance

/-- A grid of 2 by 2 cells after `init` (`dt = 0.5`) whose only moving cell is `[1][0]`, with
velocity `(0, 2)`. -/
def fallExample : grid :=
  { grid.init 2 2 grid.fresh with
    currentVelocities := [[Vec.mk 0 0, Vec.mk 0 0], [Vec.mk 0 2, Vec.mk 0 0]] }

/-- Texture contents of 2 by 2 texels: `velocityTexture[0]` holds the field of `fallExample`
as `uploadVelocityData` stores it, the other textures are zero. -/
def fallImages : Images := fun t =>
  if t = Tex.velocityTexture0 then [0, 0, 0, 0, 0, 2, 0, 0]
  else List.replicate (2 * 2 * t.channels) 0

/-- Texture contents of 2 by 2 texels: `velocityTexture[0]` holds the field of `fallExample`
upside down (texel `(x, y)` is the array entry `[1 - y][x]`), the other textures are zero. -/
def fallFlippedImages : Images := fun t =>
  if t = Tex.velocityTexture0 then [0, 2, 0, 0, 0, 0, 0, 0]
  else List.replicate (2 * 2 * t.channels) 0

/-! ## Lemmas on arrays and loops -/

theorem forLoop_inv {σ : Type} (n : Nat) (body : Nat → σ → Option σ) (Inv : Nat → σ → Prop)
    (s : σ) (h0 : Inv 0 s)
    (hstep : ∀ k t, k < n → Inv k t → ∃ t', body k t = some t' ∧ Inv (k + 1) t') :
    ∃ t, forLoop n body s = some t ∧ Inv n t := by
  induction n with
  | zero => exact ⟨s, rfl, h0⟩
  | succ k ih =>
    obtain ⟨t, ht, hInv⟩ := ih (fun m u hm hu => hstep m u (Nat.lt_succ_of_lt hm) hu)
    obtain ⟨t', ht', hInv'⟩ := hstep k t (Nat.lt_succ_self k) hInv
    exact ⟨t', by simp [forLoop, ht, ht'], hInv'⟩

/-- Invariant rule for a loop nest over the cells of a grid, visited row by row. -/
theorem forLoop2_inv {σ : Type} (R C : Nat) (cell : Nat → Nat → σ → Option σ)
    (Inv : Nat → Nat → σ → Prop) (s : σ) (h0 : Inv 0 0 s)
    (hcell : ∀ i j t, i < R → j < C → Inv i j t → ∃ t', cell i j t = some t' ∧ Inv i (j + 1) t')
    (hrow : ∀ i t, i < R → Inv i C t → Inv (i + 1) 0 t) :
    ∃ t, forLoop R (fun i => forLoop C (fun j => cell i j)) s = some t ∧ Inv R 0 t := by
  apply forLoop_inv R _ (fun i t => Inv i 0 t) s h0
  intro i t hi hInv
  obtain ⟨t', ht', hInv'⟩ :=
    forLoop_inv C (fun j => cell i j) (fun j u => Inv i j u) t hInv
      (fun j u hj hu => hcell i j u hi hj hu)
  exact ⟨t', ht', hrow i t' hi hInv'⟩

theorem at2_of_hasDims {α : Type} {F : List (List α)} {R C : Nat} (h : hasDims F R C)
    {i j : Nat} (hi : i < R) (hj : j < C) : ∃ v, at2 F i j = some v := by
  obtain ⟨hl, hrows⟩ := h
  have hi' : i < F.length := hl ▸ hi
  have hrow : (F[i]).length = C := hrows _ (List.getElem_mem hi')
  have hj' : j < (F[i]).length := hrow ▸ hj
  exact ⟨(F[i])[j], by simp [at2, List.getElem?_eq_getElem hi', List.getElem?_eq_getElem hj']⟩

theorem at2_some_lt {α : Type} {F : List (List α)} {R C : Nat} (h : hasDims F R C)
    {i j : Nat} {v : α} (hv : at2 F i j = some v) : i < R ∧ j < C := by
  obtain ⟨hl, hrows⟩ := h
  unfold at2 at hv
  cases hrow : F[i]? with
  | none => simp [hrow] at hv
  | some row =>
    simp only [hrow, Option.bind_some] at hv
    obtain ⟨hi, hri⟩ := List.getElem?_eq_some_iff.mp hrow
    obtain ⟨hj, _⟩ := List.getElem?_eq_some_iff.mp hv
    have hm : row ∈ F := hri ▸ List.getElem_mem hi
    exact ⟨hl ▸ hi, hrows row hm ▸ hj⟩

theorem set2_some {α : Type} {F : List (List α)} {i j : Nat} {w : α} (h : at2 F i j = some w)
    (v : α) : ∃ F', set2 F i j v = some F' := by
  unfold at2 at h
  cases hrow : F[i]? with
  | none => simp [hrow] at h
  | some row =>
    simp only [hrow, Option.bind_some] at h
    obtain ⟨hj, _⟩ := List.getElem?_eq_some_iff.mp h
    exact ⟨F.set i (row.set j v), by simp [set2, hrow, hj]⟩

theorem at2_set2 {α : Type} {F F' : List (List α)} {i j : Nat} {v : α}
    (h : set2 F i j v = some F') (r c : Nat) :
    at2 F' r c = if r = i ∧ c = j then some v else at2 F r c := by
  unfold set2 at h
  cases hrow : F[i]? with
  | none => simp [hrow] at h
  | some row =>
    simp only [hrow] at h
    by_cases hj : j < row.length
    · simp only [hj, if_true, Option.some.injEq] at h
      subst h
      obtain ⟨hi, hri⟩ := List.getElem?_eq_some_iff.mp hrow
      by_cases hr : r = i
      · subst hr
        by_cases hc : c = j
        · subst hc
          simp [at2, List.getElem?_set, hi, hj]
        · have hc' : ¬ j = c := fun e => hc e.symm
          simp [at2, List.getElem?_set, hi, hc, hc', hrow]
      · have hr' : ¬ i = r := fun e => hr e.symm
        simp [at2, List.getElem?_set, hr, hr']
    · simp [hj] at h

theorem hasDims_set2 {α : Type} {F F' : List (List α)} {R C i j : Nat} {v : α}
    (hd : hasDims F R C) (h : set2 F i j v = some F') : hasDims F' R C := by
  unfold set2 at h
  cases hrow : F[i]? with
  | none => simp [hrow] at h
  | some row =>
    simp only [hrow] at h
    by_cases hj : j < row.length
    · simp only [hj, if_true, Option.some.injEq] at h
      subst h
      obtain ⟨hl, hrows⟩ := hd
      obtain ⟨hi, hri⟩ := List.getElem?_eq_some_iff.mp hrow
      refine ⟨by simpa using hl, ?_⟩
      intro r hr
      rcases List.mem_or_eq_of_mem_set hr with hr | hr
      · exact hrows r hr
      · subst hr
        simpa using hrows row (hri ▸ List.getElem_mem hi)
    · simp [hj] at h

/-- Two arrays of the same extent with the same entries are equal. -/
theorem ext_of_hasDims {α : Type} {F G : List (List α)} {R C : Nat} (hF : hasDims F R C)
    (hG : hasDims G R C) (h : ∀ i j, i < R → j < C → at2 F i j = at2 G i j) : F = G := by
  obtain ⟨hlF, hrF⟩ := hF
  obtain ⟨hlG, hrG⟩ := hG
  apply List.ext_getElem (hlF.trans hlG.symm)
  intro i hi hi'
  have hFi : (F[i]).length = C := hrF _ (List.getElem_mem hi)
  have hGi : (G[i]).length = C := hrG _ (List.getElem_mem hi')
  apply List.ext_getElem (hFi.trans hGi.symm)
  intro j hj hj'
  have := h i j (hlF ▸ hi) (hFi ▸ hj)
  simpa [at2, List.getElem?_eq_getElem hi, List.getElem?_eq_getElem hi',
    List.getElem?_eq_getElem hj, List.getElem?_eq_getElem hj'] using this

theorem hasDims_replicate {α : Type} (R C : Nat) (a : α) :
    hasDims (List.replicate R (List.replicate C a)) R C := by
  refine ⟨by simp, ?_⟩
  intro row hrow
  rw [(List.mem_replicate.mp hrow).2]
  simp

theorem hasDims_tabulate {α : Type} (R C : Nat) (f : Nat → Nat → α) :
    hasDims (tabulate R C f) R C := by
  refine ⟨by simp [tabulate], ?_⟩
  intro row hrow
  simp only [tabulate, List.mem_map] at hrow
  obtain ⟨i, _, rfl⟩ := hrow
  simp

theorem at2_tabulate {α : Type} {R C : Nat} (f : Nat → Nat → α) {i j : Nat} (hi : i < R)
    (hj : j < C) : at2 (tabulate R C f) i j = some (f i j) := by
  simp [at2, tabulate, List.getElem?_map, List.getElem?_range hi, List.getElem?_range hj]

theorem at2_replicate {α : Type} {R C : Nat} (a : α) {i j : Nat} (hi : i < R) (hj : j < C) :
    at2 (List.replicate R (List.replicate C a)) i j = some a := by
  simp [at2, List.getElem?_replicate, hi, hj]

theorem modify2_spec {α : Type} {F : List (List α)} {R C i j : Nat} (hd : hasDims F R C)
    (hi : i < R) (hj : j < C) (f : α → α) :
    ∃ F' old, at2 F i j = some old ∧ modify2 F i j f = some F' ∧ hasDims F' R C ∧
      ∀ r c, at2 F' r c = if r = i ∧ c = j then some (f old) else at2 F r c := by
  obtain ⟨old, hold⟩ := at2_of_hasDims hd hi hj
  obtain ⟨F', hF'⟩ := set2_some hold (f old)
  exact ⟨F', old, hold, by simp [modify2, hold, hF'], hasDims_set2 hd hF', at2_set2 hF'⟩

/-- A loop nest that updates the cells of an array in place, row by row: when the update of
cell `(i, j)` stores `f i j`, given that the cells before it hold their new values and the
others their initial values, the loop nest ends with the array `tabulate R C f`. -/
theorem inplace_loop {σ α : Type} (R C : Nat) (cell : Nat → Nat → σ → Option σ)
    (tgt : σ → List (List α)) (P : σ → Prop) (f : Nat → Nat → α) (s0 : σ)
    (hP : P s0) (hd : hasDims (tgt s0) R C)
    (hcell : ∀ i j s, i < R → j < C → P s → hasDims (tgt s) R C →
      (∀ r c, r < R → c < C →
        at2 (tgt s) r c = if cellBefore i j r c then some (f r c) else at2 (tgt s0) r c) →
      ∃ s', cell i j s = some s' ∧ P s' ∧ hasDims (tgt s') R C ∧
        ∀ r c, at2 (tgt s') r c = if r = i ∧ c = j then some (f i j) else at2 (tgt s) r c) :
    ∃ s', forLoop R (fun i => forLoop C (fun j => cell i j)) s0 = some s' ∧ P s' ∧
      tgt s' = tabulate R C f := by
  obtain ⟨t, ht, hPt, hdt, hcells⟩ := forLoop2_inv R C cell
    (fun i j s => P s ∧ hasDims (tgt s) R C ∧ ∀ r c, r < R → c < C →
      at2 (tgt s) r c = if cellBefore i j r c then some (f r c) else at2 (tgt s0) r c)
    s0 ⟨hP, hd, fun r c _ _ => by simp [cellBefore]⟩
    (by
      intro i j s hi hj ⟨hPs, hds, hinv⟩
      obtain ⟨s', hs', hPs', hds', hnew⟩ := hcell i j s hi hj hPs hds hinv
      refine ⟨s', hs', hPs', hds', ?_⟩
      intro r c hr hc
      rw [hnew r c]
      by_cases h : r = i ∧ c = j
      · obtain ⟨rfl, rfl⟩ := h
        simp [cellBefore]
      · rw [if_neg h, hinv r c hr hc]
        have hiff : cellBefore i (j + 1) r c ↔ cellBefore i j r c := by
          unfold cellBefore
          constructor
          · rintro (h1 | ⟨h1, h2⟩)
            · exact Or.inl h1
            · exact Or.inr ⟨h1, lt_of_le_of_ne (Nat.lt_succ_iff.mp h2) (fun e => h ⟨h1, e⟩)⟩
          · rintro (h1 | ⟨h1, h2⟩)
            · exact Or.inl h1
            · exact Or.inr ⟨h1, Nat.lt_succ_of_lt h2⟩
        simp only [hiff])
    (by
      intro i s _ ⟨hPs, hds, hinv⟩
      refine ⟨hPs, hds, ?_⟩
      intro r c hr hc
      rw [hinv r c hr hc]
      have hiff : cellBefore (i + 1) 0 r c ↔ cellBefore i C r c := by
        unfold cellBefore
        constructor
        · rintro (h1 | ⟨_, h2⟩)
          · rcases Nat.lt_succ_iff_lt_or_eq.mp h1 with h | h
            · exact Or.inl h
            · exact Or.inr ⟨h, hc⟩
          · exact absurd h2 (Nat.not_lt_zero c)
        · rintro (h1 | ⟨h1, _⟩)
          · exact Or.inl (Nat.lt_succ_of_lt h1)
          · exact Or.inl (h1 ▸ Nat.lt_succ_self i)
      simp only [hiff])
  refine ⟨t, ht, hPt, ?_⟩
  apply ext_of_hasDims hdt (hasDims_tabulate R C f)
  intro r c hr hc
  rw [hcells r c hr hc, at2_tabulate f hr hc]
  simp [cellBefore, hr]

/-! ## Clamped sampling -/

theorem clampIdx_lt {n : Nat} (hn : 1 ≤ n) (i : Int) : clampIdx n i < n := by
  unfold clampIdx
  omega

theorem clampIdx_of_lt {n : Nat} {k : Nat} (hk : k < n) : clampIdx n (k : Int) = k := by
  unfold clampIdx
  omega

theorem clampIdx_pred {n : Nat} {k : Nat} (hk : k < n) :
    clampIdx n ((k : Int) - 1) = k - 1 := by
  unfold clampIdx
  omega

theorem clampIdx_succ {n : Nat} {k : Nat} (hk : k < n) :
    clampIdx n ((k : Int) + 1) = if k + 1 < n then k + 1 else k := by
  unfold clampIdx
  split <;> omega

theorem atI_clamp {α : Type} (W H : Nat) (F : List (List α)) (i j : Int) :
    atI F (max 0 (min ((W : Int) - 1) i)) (max 0 (min ((H : Int) - 1) j))
      = at2 F (clampIdx W i) (clampIdx H j) := by
  have h1 : (0 : Int) ≤ max 0 (min ((W : Int) - 1) i) := le_max_left _ _
  have h2 : (0 : Int) ≤ max 0 (min ((H : Int) - 1) j) := le_max_left _ _
  simp only [atI, h1, h2, and_self, if_true, clampIdx]

theorem getBoundaryVelocity_eq (W H : Nat) (i j : Int) (F : List (List Vec)) :
    grid.getBoundaryVelocity W H i j F = at2 F (clampIdx W i) (clampIdx H j) := by
  simp only [grid.getBoundaryVelocity, atI_clamp]

theorem getBoundaryPressure_eq (W H : Nat) (i j : Int) (F : List (List ℚ)) :
    grid.getBoundaryPressure W H i j F = at2 F (clampIdx W i) (clampIdx H j) := by
  simp only [grid.getBoundaryPressure, atI_clamp]

theorem getBoundaryVelocity_sample {W H : Nat} (hW : 1 ≤ W) (hH : 1 ≤ H) {F : List (List Vec)}
    (hF : hasDims F W H) (i j : Int) :
    grid.getBoundaryVelocity W H i j F = some (sampleV W H F i j) := by
  obtain ⟨v, hv⟩ := at2_of_hasDims hF (clampIdx_lt hW i) (clampIdx_lt hH j)
  simp [getBoundaryVelocity_eq, sampleV, hv]

theorem getBoundaryPressure_sample {W H : Nat} (hW : 1 ≤ W) (hH : 1 ≤ H) {F : List (List ℚ)}
    (hF : hasDims F W H) (i j : Int) :
    grid.getBoundaryPressure W H i j F = some (sampleP W H F i j) := by
  obtain ⟨v, hv⟩ := at2_of_hasDims hF (clampIdx_lt hW i) (clampIdx_lt hH j)
  simp [getBoundaryPressure_eq, sampleP, hv]

/-! ## Boundary sampling (C1) -/

/-- C1: on a field of `W` by `H` entries (`W, H ≥ 1`), for all integers `i`, `j`, the functions
`getBoundaryVelocity` and `getBoundaryPressure` return (without fault) the entry stored at
`[max(0, min(W-1, i))][max(0, min(H-1, j))]`; hence an in-range `(i, j)` returns `F[i][j]`,
and an index below `0` or above the extent gives the result of the nearest in-range index. -/
theorem getBoundary_clamped (W H : Nat) (hW : 1 ≤ W) (hH : 1 ≤ H) (F : List (List Vec))
    (P : List (List ℚ)) (hF : hasDims F W H) (hP : hasDims P W H) (i j : Int) :
    (∃ row v, F[(max 0 (min ((W : Int) - 1) i)).toNat]? = some row ∧
        row[(max 0 (min ((H : Int) - 1) j)).toNat]? = some v ∧
        grid.getBoundaryVelocity W H i j F = some v) ∧
    (∃ row p, P[(max 0 (min ((W : Int) - 1) i)).toNat]? = some row ∧
        row[(max 0 (min ((H : Int) - 1) j)).toNat]? = some p ∧
        grid.getBoundaryPressure W H i j P = some p) ∧
    (0 ≤ i → i < W → 0 ≤ j → j < H →
        grid.getBoundaryVelocity W H i j F = at2 F i.toNat j.toNat ∧
        grid.getBoundaryPressure W H i j P = at2 P i.toNat j.toNat) ∧
    (i < 0 → grid.getBoundaryVelocity W H i j F = grid.getBoundaryVelocity W H 0 j F ∧
        grid.getBoundaryPressure W H i j P = grid.getBoundaryPressure W H 0 j P) ∧
    ((W : Int) ≤ i →
        grid.getBoundaryVelocity W H i j F = grid.getBoundaryVelocity W H ((W : Int) - 1) j F ∧
        grid.getBoundaryPressure W H i j P = grid.getBoundaryPressure W H ((W : Int) - 1) j P) ∧
    (j < 0 → grid.getBoundaryVelocity W H i j F = grid.getBoundaryVelocity W H i 0 F ∧
        grid.getBoundaryPressure W H i j P = grid.getBoundaryPressure W H i 0 P) ∧
    ((H : Int) ≤ j →
        grid.getBoundaryVelocity W H i j F = grid.getBoundaryVelocity W H i ((H : Int) - 1) F ∧
        grid.getBoundaryPressure W H i j P = grid.getBoundaryPressure W H i ((H : Int) - 1) P) := by
  have key : ∀ {α : Type} (G : List (List α)), hasDims G W H →
      ∃ row v, G[clampIdx W i]? = some row ∧ row[clampIdx H j]? = some v ∧
        at2 G (clampIdx W i) (clampIdx H j) = some v := by
    intro α G hG
    obtain ⟨v, hv⟩ := at2_of_hasDims hG (clampIdx_lt hW i) (clampIdx_lt hH j)
    cases hrow : G[clampIdx W i]? with
    | none => simp [at2, hrow] at hv
    | some row => exact ⟨row, v, rfl, by simpa [at2, hrow] using hv, hv⟩
  refine ⟨?_, ?_, ?_, ?_, ?_, ?_, ?_⟩
  · obtain ⟨row, v, h1, h2, h3⟩ := key F hF
    exact ⟨row, v, h1, h2, by rw [getBoundaryVelocity_eq, h3]⟩
  · obtain ⟨row, v, h1, h2, h3⟩ := key P hP
    exact ⟨row, v, h1, h2, by rw [getBoundaryPressure_eq, h3]⟩
  · intro h1 h2 h3 h4
    have e1 : clampIdx W i = i.toNat := by unfold clampIdx; omega
    have e2 : clampIdx H j = j.toNat := by unfold clampIdx; omega
    simp only [getBoundaryVelocity_eq, getBoundaryPressure_eq, e1, e2, and_self]
  · intro h
    have e : clampIdx W i = clampIdx W 0 := by unfold clampIdx; omega
    simp only [getBoundaryVelocity_eq, getBoundaryPressure_eq, e, and_self]
  · intro h
    have e : clampIdx W i = clampIdx W ((W : Int) - 1) := by unfold clampIdx; omega
    simp only [getBoundaryVelocity_eq, getBoundaryPressure_eq, e, and_self]
  · intro h
    have e : clampIdx H j = clampIdx H 0 := by unfold clampIdx; omega
    simp only [getBoundaryVelocity_eq, getBoundaryPressure_eq, e, and_self]
  · intro h
    have e : clampIdx H j = clampIdx H ((H : Int) - 1) := by unfold clampIdx; omega
    simp only [getBoundaryVelocity_eq, getBoundaryPressure_eq, e, and_self]

/-- Witness of C1 on a 2 by 2 field, sampled at `(-3, 5)`. -/
theorem getBoundary_clamped_witness :
    (∃ row v, [[Vec.mk 1 2, Vec.mk 3 4], [Vec.mk 5 6, Vec.mk 7 8]][
          (max 0 (min (((2 : Nat) : Int) - 1) (-3))).toNat]? = some row ∧
        row[(max 0 (min (((2 : Nat) : Int) - 1) 5)).toNat]? = some v ∧
        grid.getBoundaryVelocity 2 2 (-3) 5
          [[Vec.mk 1 2, Vec.mk 3 4], [Vec.mk 5 6, Vec.mk 7 8]] = some v) :=
  (getBoundary_clamped 2 2 (by decide) (by decide)
    [[Vec.mk 1 2, Vec.mk 3 4], [Vec.mk 5 6, Vec.mk 7 8]] [[1, 2], [3, 4]]
    (by decide) (by decide) (-3) 5).1

/-! ## Forces (C2) -/

theorem forces_eq (W H : Nat) (g : grid) (hd : hasDims g.currentVelocities W H) :
    grid.forces W H g = some { g with currentVelocities := tabulate W H (fun i j =>
      Vec.add ((at2 g.currentVelocities i j).getD Vec.zero)
        (if i < 140 ∧ i ≥ 116 then Vec.mk (2 * g.timeStep) (0 * g.timeStep)
          else Vec.mk (0 * g.timeStep) (0 * g.timeStep))) } := by
  obtain ⟨t, ht, hP, htab⟩ := inplace_loop W H (fun i j => grid.forcesCell i j)
    (fun s => s.currentVelocities) (fun s => s = { g with currentVelocities := s.currentVelocities })
    (fun i j => Vec.add ((at2 g.currentVelocities i j).getD Vec.zero)
        (if i < 140 ∧ i ≥ 116 then Vec.mk (2 * g.timeStep) (0 * g.timeStep)
          else Vec.mk (0 * g.timeStep) (0 * g.timeStep)))
    g rfl hd
    (by
      intro i j s hi hj hPs hds hinv
      obtain ⟨old, hold⟩ := at2_of_hasDims hds hi hj
      obtain ⟨cv, hcv⟩ := set2_some hold
        (Vec.add old (Vec.mk ((if i < 140 ∧ i ≥ 116 then Vec.mk 2 0 else Vec.mk 0 0).x * s.timeStep)
          ((if i < 140 ∧ i ≥ 116 then Vec.mk 2 0 else Vec.mk 0 0).y * s.timeStep)))
      refine ⟨{ s with currentVelocities := cv }, ?_, ?_, hasDims_set2 hds hcv, ?_⟩
      · simp [grid.forcesCell, hold, hcv]
      · rw [hPs]
      · intro r c
        rw [at2_set2 hcv r c]
        have hold0 : at2 g.currentVelocities i j = some old := by
          have := hinv i j hi hj
          simpa [cellBefore, hold] using this.symm
        have hts : s.timeStep = g.timeStep := by rw [hPs]
        by_cases hb : i < 140 ∧ i ≥ 116 <;> simp [hb, hold0, hts])
  unfold grid.forces
  rw [ht, hP, htab]

/-- C2: one call of `grid::forces` changes cell `[i][j]` to its old value plus `(2 * dt, 0)`
when `116 ≤ i < 140` and leaves every other cell equal to its old value; from the all-zero
field with `dt = 0.5` the result is `(1, 0)` in the band and `(0, 0)` elsewhere. -/
theorem forces_band (W H : Nat) (g : grid) (hd : hasDims g.currentVelocities W H) :
    ∃ cv, grid.forces W H g = some { g with currentVelocities := cv } ∧ hasDims cv W H ∧
      (∀ i j old, at2 g.currentVelocities i j = some old →
        at2 cv i j = some (if 116 ≤ i ∧ i < 140 then Vec.add old (Vec.mk (2 * g.timeStep) 0)
          else old)) ∧
      (g.timeStep = 1 / 2 → g.currentVelocities = List.replicate W (List.replicate H (Vec.mk 0 0)) →
        cv = tabulate W H (fun i _ => if 116 ≤ i ∧ i < 140 then Vec.mk 1 0 else Vec.mk 0 0)) := by
  refine ⟨_, forces_eq W H g hd, hasDims_tabulate _ _ _, ?_, ?_⟩
  · intro i j old hold
    obtain ⟨hi, hj⟩ := at2_some_lt hd hold
    rw [at2_tabulate _ hi hj]
    by_cases hb : 116 ≤ i ∧ i < 140
    · have hb' : i < 140 ∧ i ≥ 116 := ⟨hb.2, hb.1⟩
      simp [hb, hb', hold, Vec.add]
    · have hb' : ¬ (i < 140 ∧ i ≥ 116) := fun h => hb ⟨h.2, h.1⟩
      simp [hb, hb', hold, Vec.add]
  · intro hdt hzero
    apply ext_of_hasDims (hasDims_tabulate _ _ _) (hasDims_tabulate _ _ _)
    intro i j hi hj
    rw [at2_tabulate _ hi hj, at2_tabulate _ hi hj, hzero, at2_replicate _ hi hj, hdt]
    by_cases hb : 116 ≤ i ∧ i < 140
    · have hb' : i < 140 ∧ i ≥ 116 := ⟨hb.2, hb.1⟩
      simp [hb, hb', Vec.add]
    · have hb' : ¬ (i < 140 ∧ i ≥ 116) := fun h => hb ⟨h.2, h.1⟩
      simp [hb, hb', Vec.add]

/-- Witness of C2: a grid of 120 by 1 cells after `init` (all zero, `dt = 0.5`); the cells
`[116][0]` to `[119][0]` of the band become `(1, 0)`. -/
theorem forces_band_witness :
    ∃ cv, grid.forces 120 1 (grid.init 120 1 grid.fresh)
        = some { grid.init 120 1 grid.fresh with currentVelocities := cv } ∧
      cv = tabulate 120 1 (fun i _ => if 116 ≤ i ∧ i < 140 then Vec.mk 1 0 else Vec.mk 0 0) :=
  (forces_band 120 1 (grid.init 120 1 grid.fresh) (hasDims_replicate 120 1 (Vec.mk 0 0))).imp
    (fun _ h => ⟨h.1, h.2.2.2 rfl rfl⟩)

/-! ## Diffusion (C3, C4) -/

theorem diffusionPass_eq (W H : Nat) (before : List (List Vec)) (g : grid)
    (hb : hasDims before W H) (hc : hasDims g.currentVelocities W H)
    (hn : hasDims g.nextVelocities W H) :
    forLoop W (fun i => forLoop H (fun j => grid.diffusionCell W H before i j)) g
      = some { g with
          nextVelocities := jacobiPass W H g.alpha before g.currentVelocities } := by
  obtain ⟨t, ht, hP, htab⟩ := inplace_loop W H (fun i j => grid.diffusionCell W H before i j)
    (fun s => s.nextVelocities) (fun s => s = { g with nextVelocities := s.nextVelocities })
    (fun i j =>
      Vec.mk
        ((((at2 before i j).getD Vec.zero).x + g.alpha *
          ((sampleV W H g.currentVelocities ((i : Int) - 1) j).x
            + (sampleV W H g.currentVelocities ((i : Int) + 1) j).x
            + (sampleV W H g.currentVelocities i ((j : Int) - 1)).x
            + (sampleV W H g.currentVelocities i ((j : Int) + 1)).x)) / (1 + 4 * g.alpha))
        ((((at2 before i j).getD Vec.zero).y + g.alpha *
          ((sampleV W H g.currentVelocities ((i : Int) - 1) j).y
            + (sampleV W H g.currentVelocities ((i : Int) + 1) j).y
            + (sampleV W H g.currentVelocities i ((j : Int) - 1)).y
            + (sampleV W H g.currentVelocities i ((j : Int) + 1)).y)) / (1 + 4 * g.alpha)))
    g rfl hn
    (by
      intro i j s hi hj hPs hds _
      have hW : 1 ≤ W := by omega
      have hH : 1 ≤ H := by omega
      have hcur : s.currentVelocities = g.currentVelocities := by rw [hPs]
      have halpha : s.alpha = g.alpha := by rw [hPs]
      obtain ⟨b, hbv⟩ := at2_of_hasDims hb hi hj
      obtain ⟨nv1, old1, _, hm1, hd1, hat1⟩ := modify2_spec hds hi hj (fun n =>
        { n with x := (b.x + g.alpha *
          ((sampleV W H g.currentVelocities ((i : Int) - 1) j).x
            + (sampleV W H g.currentVelocities ((i : Int) + 1) j).x
            + (sampleV W H g.currentVelocities i ((j : Int) - 1)).x
            + (sampleV W H g.currentVelocities i ((j : Int) + 1)).x)) / (1 + 4 * g.alpha) })
      obtain ⟨nv2, old2, hold2, hm2, hd2, hat2⟩ := modify2_spec hd1 hi hj (fun n =>
        { n with y := (b.y + g.alpha *
          ((sampleV W H g.currentVelocities ((i : Int) - 1) j).y
            + (sampleV W H g.currentVelocities ((i : Int) + 1) j).y
            + (sampleV W H g.currentVelocities i ((j : Int) - 1)).y
            + (sampleV W H g.currentVelocities i ((j : Int) + 1)).y)) / (1 + 4 * g.alpha) })
      refine ⟨{ s with nextVelocities := nv2 }, ?_, ?_, hd2, ?_⟩
      · simp [grid.diffusionCell, hcur, halpha, getBoundaryVelocity_sample hW hH hc, hbv, hm1, hm2]
      · rw [hPs]
      · intro r c
        have ho : old2 = { old1 with x := (b.x + g.alpha *
          ((sampleV W H g.currentVelocities ((i : Int) - 1) j).x
            + (sampleV W H g.currentVelocities ((i : Int) + 1) j).x
            + (sampleV W H g.currentVelocities i ((j : Int) - 1)).x
            + (sampleV W H g.currentVelocities i ((j : Int) + 1)).x)) / (1 + 4 * g.alpha) } := by
          have := hat1 i j
          simp only [and_self, if_true, hold2, Option.some.injEq] at this
          exact this
        rw [hat2 r c]
        by_cases h : r = i ∧ c = j
        · simp [h, ho, hbv]
        · simp only [h, if_false]
          rw [hat1 r c]
          simp only [h, if_false])
  rw [ht, hP, htab]
  rfl

theorem diffusionIteration_eq (W H : Nat) (before : List (List Vec)) (g : grid)
    (hb : hasDims before W H) (hc : hasDims g.currentVelocities W H)
    (hn : hasDims g.nextVelocities W H) :
    grid.diffusionIteration W H before g
      = some { g with
          currentVelocities := jacobiPass W H g.alpha before g.currentVelocities
          nextVelocities := jacobiPass W H g.alpha before g.currentVelocities } := by
  simp [grid.diffusionIteration, diffusionPass_eq W H before g hb hc hn]

theorem hasDims_jacobiPass (W H : Nat) (alpha : ℚ) (before cur : List (List Vec)) :
    hasDims (jacobiPass W H alpha before cur) W H :=
  hasDims_tabulate _ _ _

theorem hasDims_iterate {α : Type} {R C : Nat} (J : List (List α) → List (List α))
    (hJ : ∀ F, hasDims (J F) R C) {F : List (List α)} (hF : hasDims F R C) (n : Nat) :
    hasDims (J^[n] F) R C := by
  cases n with
  | zero => exact hF
  | succ k => rw [Function.iterate_succ_apply']; exact hJ _

theorem diffusionLoop_eq (W H : Nat) (before : List (List Vec)) (g : grid)
    (hb : hasDims before W H) (hc : hasDims g.currentVelocities W H)
    (hn : hasDims g.nextVelocities W H) (n : Nat) :
    forLoop (n + 1) (fun _ => grid.diffusionIteration W H before) g
      = some { g with
          currentVelocities := (jacobiPass W H g.alpha before)^[n + 1] g.currentVelocities
          nextVelocities := (jacobiPass W H g.alpha before)^[n + 1] g.currentVelocities } := by
  induction n with
  | zero =>
    simp [forLoop, diffusionIteration_eq W H before g hb hc hn]
  | succ k ih =>
    rw [forLoop, ih, Option.some_bind]
    rw [diffusionIteration_eq W H before _ hb
      (hasDims_iterate _ (hasDims_jacobiPass W H g.alpha before) hc (k + 1))
      (hasDims_iterate _ (hasDims_jacobiPass W H g.alpha before) hc (k + 1))]
    simp only [Function.iterate_succ_apply']

theorem diffusion_eq (W H : Nat) (g : grid) (hc : hasDims g.currentVelocities W H)
    (hn : hasDims g.nextVelocities W H) :
    grid.diffusion W H g = some { g with
      currentVelocities :=
        (jacobiPass W H g.alpha g.currentVelocities)^[diffusionIterations] g.currentVelocities
      nextVelocities :=
        (jacobiPass W H g.alpha g.currentVelocities)^[diffusionIterations] g.currentVelocities } :=
  diffusionLoop_eq W H g.currentVelocities g hc hc hn 49

theorem at2_jacobiPass (W H : Nat) (alpha : ℚ) (before cur : List (List Vec)) {i j : Nat}
    (hi : i < W) (hj : j < H) :
    at2 (jacobiPass W H alpha before cur) i j = some (Vec.mk
      ((((at2 before i j).getD Vec.zero).x + alpha *
        ((sampleV W H cur ((i : Int) - 1) j).x + (sampleV W H cur ((i : Int) + 1) j).x
          + (sampleV W H cur i ((j : Int) - 1)).x + (sampleV W H cur i ((j : Int) + 1)).x))
        / (1 + 4 * alpha))
      ((((at2 before i j).getD Vec.zero).y + alpha *
        ((sampleV W H cur ((i : Int) - 1) j).y + (sampleV W H cur ((i : Int) + 1) j).y
          + (sampleV W H cur i ((j : Int) - 1)).y + (sampleV W H cur i ((j : Int) + 1)).y))
        / (1 + 4 * alpha))) :=
  at2_tabulate _ hi hj

/-- C3: `grid::diffusion` is the 50-fold iteration of one Jacobi pass.  Every iteration of its
loop replaces the current buffer (and the next buffer) by `jacobiPass`, computed from the
field `before` and from the current buffer as it stood when the pass began; in cell `(i, j)`
the pass gives `(before[i][j] + α·(cur(i-1,j) + cur(i+1,j) + cur(i,j-1) + cur(i,j+1))) /
(1 + 4α)` componentwise with clamped sampling `cur`; and `before` is the field at entry in all
50 passes. -/
theorem diffusion_is_jacobi (W H : Nat) (g : grid) (hc : hasDims g.currentVelocities W H)
    (hn : hasDims g.nextVelocities W H) :
    (∀ (before : List (List Vec)) (s : grid), hasDims before W H →
      hasDims s.currentVelocities W H → hasDims s.nextVelocities W H →
      grid.diffusionIteration W H before s = some { s with
        currentVelocities := jacobiPass W H s.alpha before s.currentVelocities
        nextVelocities := jacobiPass W H s.alpha before s.currentVelocities }) ∧
    (∀ (alpha : ℚ) (before cur : List (List Vec)) (i j : Nat), i < W → j < H →
      hasDims before W H → hasDims cur W H →
      ∃ b l r u d, at2 before i j = some b ∧
        grid.getBoundaryVelocity W H ((i : Int) - 1) j cur = some l ∧
        grid.getBoundaryVelocity W H ((i : Int) + 1) j cur = some r ∧
        grid.getBoundaryVelocity W H i ((j : Int) - 1) cur = some u ∧
        grid.getBoundaryVelocity W H i ((j : Int) + 1) cur = some d ∧
        at2 (jacobiPass W H alpha before cur) i j = some (Vec.mk
          ((b.x + alpha * (l.x + r.x + u.x + d.x)) / (1 + 4 * alpha))
          ((b.y + alpha * (l.y + r.y + u.y + d.y)) / (1 + 4 * alpha)))) ∧
    grid.diffusion W H g = some { g with
      currentVelocities := (jacobiPass W H g.alpha g.currentVelocities)^[50] g.currentVelocities
      nextVelocities := (jacobiPass W H g.alpha g.currentVelocities)^[50] g.currentVelocities } := by
  refine ⟨fun before s hb hsc hsn => diffusionIteration_eq W H before s hb hsc hsn, ?_,
    diffusion_eq W H g hc hn⟩
  intro alpha before cur i j hi hj hb hcur
  have hW : 1 ≤ W := by omega
  have hH : 1 ≤ H := by omega
  obtain ⟨b, hbv⟩ := at2_of_hasDims hb hi hj
  refine ⟨b, _, _, _, _, hbv, getBoundaryVelocity_sample hW hH hcur _ _,
    getBoundaryVelocity_sample hW hH hcur _ _, getBoundaryVelocity_sample hW hH hcur _ _,
    getBoundaryVelocity_sample hW hH hcur _ _, ?_⟩
  rw [at2_jacobiPass W H alpha before cur hi hj, hbv]
  rfl

/-- Witness of C3 on the grid of 2 by 2 cells used for advection. -/
theorem diffusion_is_jacobi_witness :
    grid.diffusion 2 2 advectionExample = some { advectionExample with
      currentVelocities := (jacobiPass 2 2 advectionExample.alpha
        advectionExample.currentVelocities)^[50] advectionExample.currentVelocities
      nextVelocities := (jacobiPass 2 2 advectionExample.alpha
        advectionExample.currentVelocities)^[50] advectionExample.currentVelocities } :=
  (diffusion_is_jacobi 2 2 advectionExample (by decide) (by decide)).2.2

theorem sampleV_replicate {W H : Nat} (hW : 1 ≤ W) (hH : 1 ≤ H) (c : Vec) (i j : Int) :
    sampleV W H (List.replicate W (List.replicate H c)) i j = c := by
  simp [sampleV, at2_replicate c (clampIdx_lt hW i) (clampIdx_lt hH j)]

theorem jacobiPass_uniform (W H : Nat) (alpha : ℚ) (hα : 1 + 4 * alpha ≠ 0) (c : Vec) :
    jacobiPass W H alpha (List.replicate W (List.replicate H c))
      (List.replicate W (List.replicate H c)) = List.replicate W (List.replicate H c) := by
  apply ext_of_hasDims (hasDims_jacobiPass _ _ _ _ _) (hasDims_replicate W H c)
  intro i j hi hj
  have hW : 1 ≤ W := by omega
  have hH : 1 ≤ H := by omega
  rw [at2_jacobiPass W H alpha _ _ hi hj, at2_replicate c hi hj]
  simp only [sampleV_replicate hW hH, Option.getD_some, Option.some.injEq]
  have hx : (c.x + alpha * (c.x + c.x + c.x + c.x)) / (1 + 4 * alpha) = c.x := by
    field_simp
    ring
  have hy : (c.y + alpha * (c.y + c.y + c.y + c.y)) / (1 + 4 * alpha) = c.y := by
    field_simp
    ring
  rw [hx, hy]

/-- C5, evaluation of the code at the failing input: on the grid `advectionExample`, cell
`[0][0]` (position `(0, 1)`, velocity `(-1, 0)`) is traced back to `(0.5, 1)`.
`grid::advection` stores `(-0.5, 0)` there, the mean of the cell and of the cell below it,
while the bilinear interpolant of the specification is `(1.5, 0)`, the mean of the cell and of
its right neighbour. -/
theorem advection_not_bilinear :
    (grid.advection 2 2 advectionExample).bind (fun g => at2 g.currentVelocities 0 0)
      = some (Vec.mk (-1 / 2) 0) ∧
    bilinearBacktrace 2 2 advectionExample.timeStep advectionExample.currentVelocities 0 0
      = Vec.mk (3 / 2) 0 := by
  constructor <;> decide!

/-! ## Projection (C6, C7, C8) -/

theorem divergencePass_eq (W H : Nat) (velocities : List (List Vec))
    (hv : hasDims velocities W H) :
    grid.divergencePass W H velocities = some (divergenceSpec W H velocities) := by
  obtain ⟨t, ht, _, htab⟩ := inplace_loop H W
    (fun i j => grid.divergenceCell W H velocities i j) (fun d => d) (fun _ => True)
    (fun i j =>
      -(1 / 2) * (((sampleV W H velocities i ((j : Int) + 1)).x
          - (sampleV W H velocities i ((j : Int) - 1)).x)
        + ((sampleV W H velocities ((i : Int) - 1) j).y
          - (sampleV W H velocities ((i : Int) + 1) j).y)))
    (List.replicate H (List.replicate W (0 : ℚ))) trivial (hasDims_replicate H W 0)
    (by
      intro i j d hi hj _ hd _
      have hW : 1 ≤ W := by omega
      have hH : 1 ≤ H := by omega
      obtain ⟨old, hold⟩ := at2_of_hasDims hd hi hj
      obtain ⟨d', hd'⟩ := set2_some hold
        (-(1 / 2) * (((sampleV W H velocities i ((j : Int) + 1)).x
            - (sampleV W H velocities i ((j : Int) - 1)).x)
          + ((sampleV W H velocities ((i : Int) - 1) j).y
            - (sampleV W H velocities ((i : Int) + 1) j).y)))
      refine ⟨d', ?_, trivial, hasDims_set2 hd hd', at2_set2 hd'⟩
      simp only [grid.divergenceCell, getBoundaryVelocity_sample hW hH hv, Option.bind_eq_bind,
        Option.some_bind]
      exact hd')
  unfold grid.divergencePass
  rw [ht, htab]
  rfl

/-- A clamped neighbour of a cell of the parity being updated is the cell itself or a cell of
the other parity. -/
theorem neighbour_untouched {n i j par : Nat} (hi : i < n) (hj : j < n)
    (hpar : (i + j) % 2 = par) (x y : Int)
    (hxy : (x = i ∧ (y = (j : Int) - 1 ∨ y = (j : Int) + 1))
      ∨ ((x = (i : Int) - 1 ∨ x = (i : Int) + 1) ∧ y = j)) :
    (clampIdx n x + clampIdx n y) % 2 ≠ par
      ∨ ¬ cellBefore i j (clampIdx n x) (clampIdx n y) := by
  unfold clampIdx cellBefore
  omega

theorem halfSweep_eq (n par : Nat) (divergence : List (List ℚ)) (g : grid)
    (hdiv : hasDims divergence n n) (hp : hasDims g.pressureForces n n) :
    forLoop n (fun i => forLoop n (fun j => grid.pressureCell n n divergence par i j)) g
      = some { g with pressureForces := halfSweepSpec n par divergence g.pressureForces } := by
  obtain ⟨t, ht, hP, htab⟩ := inplace_loop n n
    (fun i j => grid.pressureCell n n divergence par i j)
    (fun s => s.pressureForces) (fun s => s = { g with pressureForces := s.pressureForces })
    (fun i j =>
      if (i + j) % 2 = par then
        ((at2 divergence i j).getD 0
          + (sampleP n n g.pressureForces i ((j : Int) - 1)
            + sampleP n n g.pressureForces i ((j : Int) + 1)
            + sampleP n n g.pressureForces ((i : Int) - 1) j
            + sampleP n n g.pressureForces ((i : Int) + 1) j)) / 4
      else (at2 g.pressureForces i j).getD 0)
    g rfl hp
    (by
      intro i j s hi hj hPs hds hinv
      have hn : 1 ≤ n := by omega
      have hsame : ∀ r c, r < n → c < n → ((r + c) % 2 ≠ par ∨ ¬ cellBefore i j r c) →
          at2 s.pressureForces r c = at2 g.pressureForces r c := by
        intro r c hr hc h
        rw [hinv r c hr hc]
        by_cases hb : cellBefore i j r c
        · have hne : (r + c) % 2 ≠ par := by
            rcases h with h | h
            · exact h
            · exact absurd hb h
          obtain ⟨v, hv⟩ := at2_of_hasDims hp hr hc
          simp [hb, hne, hv]
        · simp [hb]
      have hself : at2 s.pressureForces i j = at2 g.pressureForces i j :=
        hsame i j hi hj (Or.inr (by unfold cellBefore; omega))
      by_cases hpar : (i + j) % 2 = par
      · have hread : ∀ x y : Int, ((x = i ∧ (y = (j : Int) - 1 ∨ y = (j : Int) + 1))
              ∨ ((x = (i : Int) - 1 ∨ x = (i : Int) + 1) ∧ y = j)) →
            grid.getBoundaryPressure n n x y s.pressureForces
              = some (sampleP n n g.pressureForces x y) := by
          intro x y hxy
          rw [getBoundaryPressure_eq,
            hsame _ _ (clampIdx_lt hn x) (clampIdx_lt hn y) (neighbour_untouched hi hj hpar x y hxy),
            ← getBoundaryPressure_eq, getBoundaryPressure_sample hn hn hp]
        obtain ⟨d, hd⟩ := at2_of_hasDims hdiv hi hj
        obtain ⟨old, hold⟩ := at2_of_hasDims hds hi hj
        obtain ⟨p', hp'⟩ := set2_some hold
          ((d + sampleP n n g.pressureForces i ((j : Int) + 1)
            + sampleP n n g.pressureForces i ((j : Int) - 1)
            + sampleP n n g.pressureForces ((i : Int) - 1) j
            + sampleP n n g.pressureForces ((i : Int) + 1) j) / 4)
        refine ⟨{ s with pressureForces := p' }, ?_, ?_, hasDims_set2 hds hp', ?_⟩
        · simp [grid.pressureCell, hpar, hd, hp',
            hread i ((j : Int) - 1) (Or.inl ⟨rfl, Or.inl rfl⟩),
            hread i ((j : Int) + 1) (Or.inl ⟨rfl, Or.inr rfl⟩),
            hread ((i : Int) - 1) j (Or.inr ⟨Or.inl rfl, rfl⟩),
            hread ((i : Int) + 1) j (Or.inr ⟨Or.inr rfl, rfl⟩)]
        · rw [hPs]
        · intro r c
          rw [at2_set2 hp' r c]
          by_cases h : r = i ∧ c = j
          · simp only [h, and_self, if_true, hpar, hd, Option.getD_some, Option.some.injEq]
            ring
          · simp only [h, if_false]
      · obtain ⟨v, hv⟩ := at2_of_hasDims hp hi hj
        refine ⟨s, by simp [grid.pressureCell, hpar], hPs, hds, ?_⟩
        intro r c
        by_cases h : r = i ∧ c = j
        · obtain ⟨rfl, rfl⟩ := h
          simp [hpar, hself, hv]
        · simp only [h, if_false])
  rw [ht, hP, htab]
  rfl

theorem hasDims_halfSweepSpec (n par : Nat) (divergence p : List (List ℚ)) :
    hasDims (halfSweepSpec n par divergence p) n n :=
  hasDims_tabulate _ _ _

theorem pressureSweep_eq (n : Nat) (divergence : List (List ℚ)) (g : grid)
    (hdiv : hasDims divergence n n) (hp : hasDims g.pressureForces n n) :
    grid.pressureSweep n n divergence g
      = some { g with pressureForces := sweepSpec n divergence g.pressureForces } := by
  unfold grid.pressureSweep grid.evenHalfSweep grid.oddHalfSweep
  rw [halfSweep_eq n 0 divergence g hdiv hp, Option.some_bind,
    halfSweep_eq n 1 divergence _ hdiv (hasDims_halfSweepSpec n 0 divergence _)]
  rfl

theorem pressureSolve_eq (n : Nat) (divergence : List (List ℚ)) (hdiv : hasDims divergence n n)
    (k : Nat) (g : grid) (hp : hasDims g.pressureForces n n) :
    grid.pressureSolve n n divergence k g
      = some { g with pressureForces := (sweepSpec n divergence)^[k] g.pressureForces } := by
  induction k generalizing g with
  | zero => rfl
  | succ k ih =>
    rw [grid.pressureSolve, pressureSweep_eq n divergence g hdiv hp, Option.some_bind,
      ih _ (hasDims_halfSweepSpec n 1 divergence _)]
    rfl

theorem hasDims_sweeps (n : Nat) (divergence : List (List ℚ)) {p : List (List ℚ)}
    (hp : hasDims p n n) (k : Nat) : hasDims ((sweepSpec n divergence)^[k] p) n n :=
  hasDims_iterate _ (fun _ => hasDims_halfSweepSpec n 1 divergence _) hp k

theorem subtractGradient_eq (n : Nat) (g : grid) (hc : hasDims g.currentVelocities n n)
    (hp : hasDims g.pressureForces n n) :
    grid.subtractGradient n n g
      = some { g with
          currentVelocities := gradientSpec n g.pressureForces g.currentVelocities } := by
  obtain ⟨t, ht, hP, htab⟩ := inplace_loop n n (fun i j => grid.gradientCell n n i j)
    (fun s => s.currentVelocities) (fun s => s = { g with currentVelocities := s.currentVelocities })
    (fun i j =>
      Vec.mk
        (((at2 g.currentVelocities i j).getD Vec.zero).x
          - (sampleP n n g.pressureForces i ((j : Int) + 1)
            - sampleP n n g.pressureForces i ((j : Int) - 1)) / 2)
        (((at2 g.currentVelocities i j).getD Vec.zero).y
          - (sampleP n n g.pressureForces ((i : Int) - 1) j
            - sampleP n n g.pressureForces ((i : Int) + 1) j) / 2))
    g rfl hc
    (by
      intro i j s hi hj hPs hds hinv
      have hn : 1 ≤ n := by omega
      have hpr : s.pressureForces = g.pressureForces := by rw [hPs]
      obtain ⟨cv1, old1, hold1, hm1, hd1, hat1⟩ := modify2_spec hds hi hj (fun v =>
        { v with x := v.x - (sampleP n n g.pressureForces i ((j : Int) + 1)
            - sampleP n n g.pressureForces i ((j : Int) - 1)) / 2 })
      obtain ⟨cv2, old2, hold2, hm2, hd2, hat2⟩ := modify2_spec hd1 hi hj (fun v =>
        { v with y := v.y - (sampleP n n g.pressureForces ((i : Int) - 1) j
            - sampleP n n g.pressureForces ((i : Int) + 1) j) / 2 })
      have hold0 : at2 g.currentVelocities i j = some old1 := by
        have := hinv i j hi hj
        simpa [cellBefore, hold1] using this.symm
      refine ⟨{ s with currentVelocities := cv2 }, ?_, ?_, hd2, ?_⟩
      · simp [grid.gradientCell, hpr, getBoundaryPressure_sample hn hn hp, hm1, hm2]
      · rw [hPs]
      · intro r c
        have ho : old2 = { old1 with x := old1.x
            - (sampleP n n g.pressureForces i ((j : Int) + 1)
              - sampleP n n g.pressureForces i ((j : Int) - 1)) / 2 } := by
          have := hat1 i j
          simp only [and_self, if_true, hold2, Option.some.injEq] at this
          exact this
        rw [hat2 r c]
        by_cases h : r = i ∧ c = j
        · simp [h, ho, hold0]
        · simp only [h, if_false]
          rw [hat1 r c]
          simp only [h, if_false])
  unfold grid.subtractGradient
  rw [ht, hP, htab]
  rfl

theorem projection_eq (n : Nat) (g : grid) (hc : hasDims g.currentVelocities n n)
    (hp : hasDims g.pressureForces n n) :
    grid.projection n n g = some { g with
      pressureForces :=
        (sweepSpec n (divergenceSpec n n g.currentVelocities))^[20] g.pressureForces
      currentVelocities := gradientSpec n
        ((sweepSpec n (divergenceSpec n n g.currentVelocities))^[20] g.pressureForces)
        g.currentVelocities } := by
  have hdiv : hasDims (divergenceSpec n n g.currentVelocities) n n := hasDims_tabulate _ _ _
  simp only [grid.projection, divergencePass_eq n n g.currentVelocities hc, projectionIterations,
    Option.bind_eq_bind, Option.some_bind,
    pressureSolve_eq n (divergenceSpec n n g.currentVelocities) hdiv 20 g hp]
  exact subtractGradient_eq n { g with pressureForces :=
    (sweepSpec n (divergenceSpec n n g.currentVelocities))^[20] g.pressureForces } hc
    (hasDims_sweeps n _ hp 20)

/-- C6: the divergence computed at the start of `grid::projection` is, in every cell `(i, j)`,
`-0.5 * ((u(i, j+1) - u(i, j-1)) + (v(i-1, j) - v(i+1, j)))`, where `u` and `v` are the `x` and
`y` components of the clamped samples `getBoundaryVelocity` of the current velocity field; the
rest of `projection` runs on this array. -/
theorem projection_divergence (W H : Nat) (g : grid) (hv : hasDims g.currentVelocities W H) :
    ∃ div, grid.divergencePass W H g.currentVelocities = some div ∧ hasDims div H W ∧
      grid.projection W H g
        = (grid.pressureSolve W H div projectionIterations g).bind (grid.subtractGradient W H) ∧
      ∀ i j, i < H → j < W → ∃ u_right u_left v_up v_down,
        grid.getBoundaryVelocity W H i ((j : Int) + 1) g.currentVelocities = some u_right ∧
        grid.getBoundaryVelocity W H i ((j : Int) - 1) g.currentVelocities = some u_left ∧
        grid.getBoundaryVelocity W H ((i : Int) - 1) j g.currentVelocities = some v_up ∧
        grid.getBoundaryVelocity W H ((i : Int) + 1) j g.currentVelocities = some v_down ∧
        at2 div i j = some (-(1 / 2) * ((u_right.x - u_left.x) + (v_up.y - v_down.y))) := by
  refine ⟨divergenceSpec W H g.currentVelocities, divergencePass_eq W H _ hv,
    hasDims_tabulate _ _ _, ?_, ?_⟩
  · simp [grid.projection, divergencePass_eq W H _ hv]
  · intro i j hi hj
    have hW : 1 ≤ W := by omega
    have hH : 1 ≤ H := by omega
    exact ⟨_, _, _, _, getBoundaryVelocity_sample hW hH hv _ _,
      getBoundaryVelocity_sample hW hH hv _ _, getBoundaryVelocity_sample hW hH hv _ _,
      getBoundaryVelocity_sample hW hH hv _ _, at2_tabulate _ hi hj⟩

/-- Witness of C6 on the grid `edgeExample`: the divergence pass returns an array. -/
theorem projection_divergence_witness :
    ∃ div, grid.divergencePass 3 3 edgeExample.currentVelocities = some div ∧ hasDims div 3 3 :=
  (projection_divergence 3 3 edgeExample (by decide)).imp (fun _ h => ⟨h.1, h.2.1⟩)

/-- C7: the pressure solve of `grid::projection` is 20 sweeps, each an even half-sweep followed
by an odd half-sweep.  A half-sweep for a parity leaves the cells of the other parity
unchanged and sets a cell of its parity to `(div[i][j] + the four clamped neighbour pressures
as they stood before the half-sweep) / 4`; the odd half-sweep runs on the pressures left by
the even one. -/
theorem pressure_red_black (n : Nat) (divergence : List (List ℚ)) (g : grid)
    (hdiv : hasDims divergence n n) (hp : hasDims g.pressureForces n n) :
    (∀ s : grid, hasDims s.pressureForces n n →
      grid.evenHalfSweep n n divergence s
        = some { s with pressureForces := halfSweepSpec n 0 divergence s.pressureForces } ∧
      grid.oddHalfSweep n n divergence s
        = some { s with pressureForces := halfSweepSpec n 1 divergence s.pressureForces } ∧
      grid.pressureSweep n n divergence s
        = (grid.evenHalfSweep n n divergence s).bind (grid.oddHalfSweep n n divergence)) ∧
    (∀ (parity : Nat) (p : List (List ℚ)) (i j : Nat), hasDims p n n → i < n → j < n →
      ∃ d old p_left p_right p_up p_down, at2 divergence i j = some d ∧ at2 p i j = some old ∧
        grid.getBoundaryPressure n n i ((j : Int) - 1) p = some p_left ∧
        grid.getBoundaryPressure n n i ((j : Int) + 1) p = some p_right ∧
        grid.getBoundaryPressure n n ((i : Int) - 1) j p = some p_up ∧
        grid.getBoundaryPressure n n ((i : Int) + 1) j p = some p_down ∧
        at2 (halfSweepSpec n parity divergence p) i j
          = some (if (i + j) % 2 = parity then (d + (p_left + p_right + p_up + p_down)) / 4
              else old)) ∧
    grid.pressureSolve n n divergence projectionIterations g = some { g with
      pressureForces := (fun p => halfSweepSpec n 1 divergence (halfSweepSpec n 0 divergence p))^[20]
        g.pressureForces } := by
  refine ⟨fun s hs => ⟨halfSweep_eq n 0 divergence s hdiv hs, halfSweep_eq n 1 divergence s hdiv hs,
    rfl⟩, ?_, pressureSolve_eq n divergence hdiv 20 g hp⟩
  intro parity p i j hpd hi hj
  have hn : 1 ≤ n := by omega
  obtain ⟨d, hd⟩ := at2_of_hasDims hdiv hi hj
  obtain ⟨old, hold⟩ := at2_of_hasDims hpd hi hj
  refine ⟨d, old, _, _, _, _, hd, hold, getBoundaryPressure_sample hn hn hpd _ _,
    getBoundaryPressure_sample hn hn hpd _ _, getBoundaryPressure_sample hn hn hpd _ _,
    getBoundaryPressure_sample hn hn hpd _ _, ?_⟩
  unfold halfSweepSpec
  rw [at2_tabulate _ hi hj, hd, hold]
  simp

/-- Witness of C7 on the grid `edgeExample` with a zero divergence array. -/
theorem pressure_red_black_witness :
    grid.pressureSolve 3 3 (List.replicate 3 (List.replicate 3 0)) projectionIterations edgeExample
      = some { edgeExample with
        pressureForces := (fun p => halfSweepSpec 3 1 (List.replicate 3 (List.replicate 3 0))
          (halfSweepSpec 3 0 (List.replicate 3 (List.replicate 3 0)) p))^[20]
          edgeExample.pressureForces } :=
  (pressure_red_black 3 (List.replicate 3 (List.replicate 3 0)) edgeExample
    (hasDims_replicate 3 3 0) (hasDims_replicate 3 3 0)).2.2

/-- C8: after the 20 sweeps, `grid::projection` subtracts the centred pressure gradient from
every cell: the new `x` is `x - (p(i, j+1) - p(i, j-1)) / 2` and the new `y` is
`y - (p(i-1, j) - p(i+1, j)) / 2`, with `p` the clamped samples of the final pressure field;
no other member changes in this step. -/
theorem projection_gradient (n : Nat) (g : grid) (hc : hasDims g.currentVelocities n n)
    (hp : hasDims g.pressureForces n n) :
    ∃ div p cv, grid.divergencePass n n g.currentVelocities = some div ∧
      grid.pressureSolve n n div projectionIterations g = some { g with pressureForces := p } ∧
      grid.subtractGradient n n { g with pressureForces := p }
        = some { g with pressureForces := p, currentVelocities := cv } ∧
      grid.projection n n g = some { g with pressureForces := p, currentVelocities := cv } ∧
      hasDims cv n n ∧
      ∀ i j, i < n → j < n → ∃ v p_left p_right p_up p_down,
        at2 g.currentVelocities i j = some v ∧
        grid.getBoundaryPressure n n i ((j : Int) - 1) p = some p_left ∧
        grid.getBoundaryPressure n n i ((j : Int) + 1) p = some p_right ∧
        grid.getBoundaryPressure n n ((i : Int) - 1) j p = some p_up ∧
        grid.getBoundaryPressure n n ((i : Int) + 1) j p = some p_down ∧
        at2 cv i j = some (Vec.mk (v.x - (p_right - p_left) / 2) (v.y - (p_up - p_down) / 2)) := by
  have hdiv : hasDims (divergenceSpec n n g.currentVelocities) n n := hasDims_tabulate _ _ _
  have hpf := hasDims_sweeps n (divergenceSpec n n g.currentVelocities) hp 20
  refine ⟨_, _, _, divergencePass_eq n n _ hc, pressureSolve_eq n _ hdiv 20 g hp,
    subtractGradient_eq n { g with pressureForces :=
      (sweepSpec n (divergenceSpec n n g.currentVelocities))^[20] g.pressureForces } hc hpf,
    projection_eq n g hc hp, hasDims_tabulate _ _ _, ?_⟩
  intro i j hi hj
  have hn : 1 ≤ n := by omega
  obtain ⟨v, hv⟩ := at2_of_hasDims hc hi hj
  refine ⟨v, _, _, _, _, hv, getBoundaryPressure_sample hn hn hpf _ _,
    getBoundaryPressure_sample hn hn hpf _ _, getBoundaryPressure_sample hn hn hpf _ _,
    getBoundaryPressure_sample hn hn hpf _ _, ?_⟩
  unfold gradientSpec
  rw [at2_tabulate _ hi hj]
  simp [hv]

/-- Witness of C8 on the grid `edgeExample`: `projection` returns a state whose velocity
field has the extent of the grid. -/
theorem projection_gradient_witness :
    ∃ p cv, grid.projection 3 3 edgeExample
        = some { edgeExample with pressureForces := p, currentVelocities := cv } ∧
      hasDims cv 3 3 :=
  (projection_gradient 3 edgeExample (by decide) (by decide)).elim
    (fun _ h => h.imp (fun _ h2 => h2.imp (fun _ h3 => ⟨h3.2.2.2.1, h3.2.2.2.2.1⟩)))

/-! ## Divergence after projection (C9) -/

theorem genFrame_eq (n : Nat) (frames : List (List (List Vec))) (i j : Nat)
    (A B : List (List Vec)) (hA : frames[i]? = some A) (hB : frames[i + 1]? = some B)
    (hdA : hasDims A n n) (hdB : hasDims B n n) :
    forLoop n (fun r => forLoop n (fun c => grid.genCell frames i j r c))
        (List.replicate n (List.replicate n Vec.zero))
      = some (interpolatedFrame n A B j) := by
  obtain ⟨t, ht, _, htab⟩ := inplace_loop n n (fun r c => grid.genCell frames i j r c)
    (fun gen => gen) (fun _ => True)
    (fun r c =>
      Vec.mk
        ((((at2 A r c).getD Vec.zero).x * (10 - (j : ℚ))
          + ((at2 B r c).getD Vec.zero).x * ((j : ℚ) + 1)) / 11)
        ((((at2 A r c).getD Vec.zero).y * (10 - (j : ℚ))
          + ((at2 B r c).getD Vec.zero).y * ((j : ℚ) + 1)) / 11))
    (List.replicate n (List.replicate n Vec.zero)) trivial (hasDims_replicate n n Vec.zero)
    (by
      intro r c gen hr hc _ hd _
      obtain ⟨a, ha⟩ := at2_of_hasDims hdA hr hc
      obtain ⟨b, hb⟩ := at2_of_hasDims hdB hr hc
      have h3a : grid.at3 frames i r c = some a := by simp [grid.at3, hA, ha]
      have h3b : grid.at3 frames (i + 1) r c = some b := by simp [grid.at3, hB, hb]
      obtain ⟨g1, old1, _, hm1, hd1, hat1⟩ := modify2_spec hd hr hc (fun v =>
        { v with x := (a.x * ((10 - (j : Int) : Int) : ℚ)
          + b.x * (((j : Int) + 1 : Int) : ℚ)) / 11 })
      obtain ⟨g2, old2, hold2, hm2, hd2, hat2⟩ := modify2_spec hd1 hr hc (fun v =>
        { v with y := (a.y * ((10 - (j : Int) : Int) : ℚ)
          + b.y * (((j : Int) + 1 : Int) : ℚ)) / 11 })
      refine ⟨g2, ?_, trivial, hd2, ?_⟩
      · simp only [grid.genCell, h3a, h3b, Option.bind_eq_bind, Option.some_bind, hm1]
        exact hm2
      · intro r' c'
        have ho : old2 = { old1 with x := (a.x * ((10 - (j : Int) : Int) : ℚ)
            + b.x * (((j : Int) + 1 : Int) : ℚ)) / 11 } := by
          have := hat1 r c
          simp only [and_self, if_true, hold2, Option.some.injEq] at this
          exact this
        rw [hat2 r' c']
        by_cases h : r' = r ∧ c' = c
        · obtain ⟨rfl, rfl⟩ := h
          simp [ho, ha, hb]
        · simp only [h, if_false]
          rw [hat1 r' c']
          simp only [h, if_false])
  rw [ht, htab]
  rfl

theorem frameGenStep_eq (n : Nat) (g : grid) (i j : Nat) (A B : List (List Vec))
    (hA : g.frames[i]? = some A) (hB : g.frames[i + 1]? = some B)
    (hdA : hasDims A n n) (hdB : hasDims B n n) :
    grid.frameGenStep n n i j g
      = some { g with generatedFrames := g.generatedFrames ++ [interpolatedFrame n A B j] } := by
  simp [grid.frameGenStep, genFrame_eq n g.frames i j A B hA hB hdA hdB]

theorem frameGenSteps_eq (n : Nat) (g : grid) (i : Nat) (A B : List (List Vec))
    (hA : g.frames[i]? = some A) (hB : g.frames[i + 1]? = some B)
    (hdA : hasDims A n n) (hdB : hasDims B n n) (k : Nat) :
    forLoop k (fun j => grid.frameGenStep n n i j) g
      = some { g with generatedFrames :=
          g.generatedFrames ++ (List.range k).map (interpolatedFrame n A B) } := by
  induction k with
  | zero => simp [forLoop]
  | succ k ih =>
    rw [forLoop, ih, Option.some_bind]
    rw [frameGenStep_eq n { g with generatedFrames :=
      g.generatedFrames ++ (List.range k).map (interpolatedFrame n A B) } i k A B hA hB hdA hdB]
    simp [List.range_succ]

theorem frameGenPair_eq (n : Nat) (g : grid) (i : Nat) (hi : i + 1 < g.frames.length)
    (hd : ∀ F ∈ g.frames, hasDims F n n) :
    grid.frameGenPair n n i g
      = some { g with generatedFrames := g.generatedFrames ++ frameBlock n g.frames i } := by
  have hi0 : i < g.frames.length := by omega
  have hA : g.frames[i]? = some (g.frames[i]) := List.getElem?_eq_getElem hi0
  have hB : g.frames[i + 1]? = some (g.frames[i + 1]) := List.getElem?_eq_getElem hi
  have hdA : hasDims (g.frames[i]) n n := hd _ (List.getElem_mem hi0)
  have hdB : hasDims (g.frames[i + 1]) n n := hd _ (List.getElem_mem hi)
  have hsteps := frameGenSteps_eq n { g with generatedFrames := g.generatedFrames ++ [g.frames[i]] }
    i _ _ hA hB hdA hdB 10
  simp only [grid.frameGenPair, hA, Option.bind_eq_bind, Option.some_bind, hsteps]
  simp [frameBlock, hA, hB]

theorem frameGenPairs_eq (n : Nat) (g : grid) (hd : ∀ F ∈ g.frames, hasDims F n n) (K : Nat)
    (hK : K + 1 ≤ g.frames.length) :
    forLoop K (fun i => grid.frameGenPair n n i) g
      = some { g with generatedFrames := g.generatedFrames ++ expandedFrames n g.frames K } := by
  induction K with
  | zero => simp [forLoop, expandedFrames]
  | succ K ih =>
    rw [forLoop, ih (by omega), Option.some_bind,
      frameGenPair_eq n _ K (by simpa using hK) (by simpa using hd)]
    simp [expandedFrames]

theorem frameGen_eq (n : Nat) (g : grid) (hm : 1 ≤ g.frames.length)
    (hlt : g.frames.length < 2 ^ 31) (hd : ∀ F ∈ g.frames, hasDims F n n) :
    grid.frameGen n n g = some { g with generatedFrames :=
      g.generatedFrames ++ expandedFrames n g.frames (g.frames.length - 1)
        ++ [g.frames.getD (g.frames.length - 1) []] } := by
  have hbound : (g.frames.length + 2 ^ 64 - 1) % 2 ^ 64 = g.frames.length - 1 := by omega
  have hlast : g.frames.getLast? = some (g.frames.getD (g.frames.length - 1) []) := by
    rw [List.getLast?_eq_getElem?, List.getD_eq_getElem?_getD,
      List.getElem?_eq_getElem (by omega : g.frames.length - 1 < g.frames.length)]
    rfl
  simp only [grid.frameGen, hbound, Option.bind_eq_bind,
    frameGenPairs_eq n g hd (g.frames.length - 1) (by omega), Option.some_bind, hlast]
  rfl

theorem length_expandedFrames (n : Nat) (frames : List (List (List Vec))) (K : Nat) :
    (expandedFrames n frames K).length = 11 * K := by
  induction K with
  | zero => rfl
  | succ K ih => simp [expandedFrames, frameBlock, ih]; omega

theorem expandedFrames_interpolated (n : Nat) (frames : List (List (List Vec))) (K k j : Nat)
    (hk : k < K) (hj : j < 10) :
    (expandedFrames n frames K)[11 * k + 1 + j]?
      = some (interpolatedFrame n (frames.getD k []) (frames.getD (k + 1) []) j) := by
  induction K with
  | zero => omega
  | succ K ih =>
    rw [expandedFrames]
    by_cases h : k < K
    · rw [List.getElem?_append_left (by rw [length_expandedFrames]; omega)]
      exact ih h
    · have hkK : k = K := by omega
      subst hkK
      rw [List.getElem?_append_right (by rw [length_expandedFrames]; omega), length_expandedFrames]
      have e : 11 * k + 1 + j - 11 * k = j + 1 := by omega
      rw [e, frameBlock, List.getElem?_cons_succ, List.getElem?_map, List.getElem?_range hj]
      rfl

/-- C10: for two consecutive recorded frames `A = frames[k]`, `B = frames[k+1]` and `j` in
`0..9`, the `j`-th frame that `grid::frameGen` inserts between them (the entry `11k + 1 + j`
of what it appends to `generatedFrames`) has in every cell `[r][c]`, in each component, the
value `(A[r][c]·(10 − j) + B[r][c]·(j + 1)) / 11`. -/
theorem frameGen_interpolates (n : Nat) (g : grid) (hm : 1 ≤ g.frames.length)
    (hlt : g.frames.length < 2 ^ 31) (hd : ∀ F ∈ g.frames, hasDims F n n) :
    ∃ gen, grid.frameGen n n g = some { g with generatedFrames := gen } ∧
      ∀ k j r c A B, g.frames[k]? = some A → g.frames[k + 1]? = some B → j < 10 → r < n →
        c < n → ∃ F a b, gen[g.generatedFrames.length + 11 * k + 1 + j]? = some F ∧
          at2 A r c = some a ∧ at2 B r c = some b ∧
          at2 F r c = some (Vec.mk ((a.x * (10 - (j : ℚ)) + b.x * ((j : ℚ) + 1)) / 11)
            ((a.y * (10 - (j : ℚ)) + b.y * ((j : ℚ) + 1)) / 11)) := by
  refine ⟨_, frameGen_eq n g hm hlt hd, ?_⟩
  intro k j r c A B hA hB hj hr hc
  obtain ⟨hk1, hB'⟩ := List.getElem?_eq_some_iff.mp hB
  have hdA : hasDims A n n := hd A (List.getElem?_mem hA)
  have hdB : hasDims B n n := hd B (List.getElem?_mem hB)
  obtain ⟨a, ha⟩ := at2_of_hasDims hdA hr hc
  obtain ⟨b, hb⟩ := at2_of_hasDims hdB hr hc
  refine ⟨interpolatedFrame n A B j, a, b, ?_, ha, hb, ?_⟩
  · have hlen : (expandedFrames n g.frames (g.frames.length - 1)).length
        = 11 * (g.frames.length - 1) := length_expandedFrames _ _ _
    have e : g.generatedFrames.length + 11 * k + 1 + j - g.generatedFrames.length
        = 11 * k + 1 + j := by omega
    rw [List.append_assoc, List.getElem?_append_right (by omega), e,
      List.getElem?_append_left (by rw [hlen]; omega),
      expandedFrames_interpolated n g.frames _ k j (by omega) hj]
    simp [hA, hB]
  · unfold interpolatedFrame
    rw [at2_tabulate _ hr hc]
    simp [ha, hb]

/-- Witness of C10: the two one-cell frames of `twoFrames`. -/
theorem frameGen_interpolates_witness :
    ∃ gen, grid.frameGen 1 1 twoFrames = some { twoFrames with generatedFrames := gen } ∧
      ∀ k j r c A B, twoFrames.frames[k]? = some A → twoFrames.frames[k + 1]? = some B →
        j < 10 → r < 1 → c < 1 →
        ∃ F a b, gen[twoFrames.generatedFrames.length + 11 * k + 1 + j]? = some F ∧
          at2 A r c = some a ∧ at2 B r c = some b ∧
          at2 F r c = some (Vec.mk ((a.x * (10 - (j : ℚ)) + b.x * ((j : ℚ) + 1)) / 11)
            ((a.y * (10 - (j : ℚ)) + b.y * ((j : ℚ) + 1)) / 11)) :=
  frameGen_interpolates 1 twoFrames (by decide) (by decide) (by decide)

/-! ## The generated sequence (C11) -/

theorem expandedFrames_original (n : Nat) (frames : List (List (List Vec))) (K k : Nat)
    (hk : k < K) : (expandedFrames n frames K)[11 * k]? = some (frames.getD k []) := by
  induction K with
  | zero => omega
  | succ K ih =>
    rw [expandedFrames]
    by_cases h : k < K
    · rw [List.getElem?_append_left (by rw [length_expandedFrames]; omega)]
      exact ih h
    · have hkK : k = K := by omega
      subst hkK
      rw [List.getElem?_append_right (by rw [length_expandedFrames]),
        length_expandedFrames, Nat.sub_self, frameBlock]
      rfl

/-- C11: for a recorded sequence of `n ≥ 1` frames and an empty generated sequence,
`grid::frameGen` produces exactly `11·(n − 1) + 1` frames; `generated[11k] = frames[k]` for
every `k < n`, the entries `generated[11k + 1 + j]`, `j < 10`, are the interpolated frames
between `frames[k]` and `frames[k + 1]`, the last entry is `frames[n − 1]`, and the recorded
sequence (as every other member) is unchanged. -/
theorem frameGen_sequence (n : Nat) (g : grid) (hm : 1 ≤ g.frames.length)
    (hlt : g.frames.length < 2 ^ 31) (hd : ∀ F ∈ g.frames, hasDims F n n)
    (he : g.generatedFrames = []) :
    ∃ gen, grid.frameGen n n g = some { g with generatedFrames := gen } ∧
      gen.length = 11 * (g.frames.length - 1) + 1 ∧
      (∀ k, k < g.frames.length → gen[11 * k]? = g.frames[k]?) ∧
      (∀ k j, k + 1 < g.frames.length → j < 10 →
        ∃ A B, g.frames[k]? = some A ∧ g.frames[k + 1]? = some B ∧
          gen[11 * k + 1 + j]? = some (interpolatedFrame n A B j)) ∧
      gen.getLast? = g.frames.getLast? := by
  have hlen : (expandedFrames n g.frames (g.frames.length - 1)).length
      = 11 * (g.frames.length - 1) := length_expandedFrames _ _ _
  have hlastIdx : g.frames.length - 1 < g.frames.length := by omega
  have hgetD : ∀ k, k < g.frames.length → g.frames.getD k [] = g.frames[k]?.getD [] :=
    fun k _ => List.getD_eq_getElem?_getD _ _ _
  refine ⟨_, frameGen_eq n g hm hlt hd, ?_, ?_, ?_, ?_⟩
  · simp [he, hlen]
  · intro k hk
    rw [he, List.nil_append]
    by_cases h : k < g.frames.length - 1
    · rw [List.getElem?_append_left (by rw [hlen]; omega),
        expandedFrames_original n g.frames _ k h, List.getD_eq_getElem?_getD,
        List.getElem?_eq_getElem hk]
      rfl
    · have hk' : k = g.frames.length - 1 := by omega
      rw [List.getElem?_append_right (by rw [hlen]; omega), hlen, hk', Nat.sub_self,
        List.getD_eq_getElem?_getD, List.getElem?_eq_getElem hlastIdx]
      rfl
  · intro k j hk hj
    have hk0 : k < g.frames.length := by omega
    refine ⟨g.frames[k], g.frames[k + 1], List.getElem?_eq_getElem hk0,
      List.getElem?_eq_getElem hk, ?_⟩
    rw [he, List.nil_append, List.getElem?_append_left (by rw [hlen]; omega),
      expandedFrames_interpolated n g.frames _ k j (by omega) hj]
    simp [List.getElem?_eq_getElem hk0, List.getElem?_eq_getElem hk]
  · rw [List.getLast?_append, List.getLast?_eq_getElem? g.frames,
      List.getD_eq_getElem?_getD, List.getElem?_eq_getElem hlastIdx]
    rfl

/-- Witness of C11: the two one-cell frames of `twoFrames` give 12 frames. -/
theorem frameGen_sequence_witness :
    ∃ gen, grid.frameGen 1 1 twoFrames = some { twoFrames with generatedFrames := gen } ∧
      gen.length = 11 * (twoFrames.frames.length - 1) + 1 :=
  (frameGen_sequence 1 twoFrames (by decide) (by decide) (by decide) rfl).imp
    (fun _ h => ⟨h.1, h.2.1⟩)

/-! ## Buffer swap and vector operations (C19, C20) -/

/-- C19: `GPUSolver::swapBuffers` toggles the buffer index: from `currentBuffer` in `{0, 1}`
it maps `0` to `1` and `1` to `0`, the new index is the former write index
`1 - currentBuffer`, it stays in `{0, 1}`, and two swaps restore the index; the constructor
starts with index `0`; no other member changes. -/
theorem swapBuffers_toggles (s : GPUSolver) (h : s.currentBuffer = 0 ∨ s.currentBuffer = 1) :
    (s.currentBuffer = 0 → s.swapBuffers.currentBuffer = 1) ∧
    (s.currentBuffer = 1 → s.swapBuffers.currentBuffer = 0) ∧
    s.swapBuffers.currentBuffer = 1 - s.currentBuffer ∧
    (s.swapBuffers.currentBuffer = 0 ∨ s.swapBuffers.currentBuffer = 1) ∧
    s.swapBuffers.swapBuffers = s ∧
    s.swapBuffers = { s with currentBuffer := s.swapBuffers.currentBuffer } ∧
    ∀ w h', (GPUSolver.new w h').currentBuffer = 0 := by
  have hcb : s.swapBuffers.currentBuffer = 1 - s.currentBuffer := rfl
  refine ⟨fun e => by omega, fun e => by omega, hcb, by omega, ?_, rfl, fun _ _ => rfl⟩
  cases s
  simp [GPUSolver.swapBuffers]

/-- Witness of C19 on a freshly constructed solver. -/
theorem swapBuffers_toggles_witness :
    (GPUSolver.new 256 256).swapBuffers.currentBuffer = 1
      ∧ (GPUSolver.new 256 256).swapBuffers.swapBuffers = GPUSolver.new 256 256 :=
  ⟨(swapBuffers_toggles (GPUSolver.new 256 256) (Or.inl rfl)).1 rfl,
    (swapBuffers_toggles (GPUSolver.new 256 256) (Or.inl rfl)).2.2.2.2.1⟩

theorem sq_add_sq_eq_zero_iff (x y : ℚ) : x ^ 2 + y ^ 2 = 0 ↔ x = 0 ∧ y = 0 := by
  constructor
  · intro h
    have hx : x ^ 2 = 0 := by nlinarith [sq_nonneg x, sq_nonneg y]
    have hy : y ^ 2 = 0 := by nlinarith [sq_nonneg x, sq_nonneg y]
    exact ⟨pow_eq_zero_iff (two_ne_zero) |>.mp hx, pow_eq_zero_iff (two_ne_zero) |>.mp hy⟩
  · rintro ⟨rfl, rfl⟩
    norm_num

theorem sqrtApprox_natCast (n : Nat) :
    sqrtApprox (n : ℚ) = ((Nat.sqrt (n * 10000) : Nat) : ℚ) / 100 := by
  have h : ⌊(n : ℚ) * 10000⌋ = ((n * 10000 : Nat) : Int) := by
    have e : (n : ℚ) * 10000 = ((n * 10000 : Nat) : ℚ) := by push_cast; ring
    rw [e, Int.floor_natCast]
  rw [sqrtApprox, h, Int.toNat_natCast]

theorem sqrtApprox_25 : sqrtApprox 25 = 5 := by
  have h : Nat.sqrt (25 * 10000) = 500 := by
    rw [show 25 * 10000 = 500 * 500 by norm_num]
    exact Nat.sqrt_eq 500
  have e := sqrtApprox_natCast 25
  rw [h] at e
  rw [show (25 : ℚ) = ((25 : Nat) : ℚ) by norm_num, e]
  norm_num

/-- A loop whose `k`-th body appends the encoding of the `k`-th entry of `xs` appends the
encoding of `xs`. -/
theorem forLoop_append {α β : Type} (xs : List α) (enc : α → List β)
    (body : Nat → List β → Option (List β))
    (hbody : ∀ k (hk : k < xs.length) out, body k out = some (out ++ enc (xs.get ⟨k, hk⟩)))
    (out : List β) :
    forLoop xs.length body out = some (out ++ xs.flatMap enc) := by
  have key : ∀ n, n ≤ xs.length →
      forLoop n body out = some (out ++ (xs.take n).flatMap enc) := by
    intro n
    induction n with
    | zero => intro _; simp [forLoop]
    | succ n ih =>
      intro hn
      have hlt : n < xs.length := by omega
      have htake : xs.take (n + 1) = xs.take n ++ [xs.get ⟨n, hlt⟩] := by
        rw [List.take_succ, List.getElem?_eq_getElem hlt]
        rfl
      rw [forLoop, ih (by omega), Option.some_bind, hbody n hlt, htake, List.flatMap_append,
        List.flatMap_singleton, List.append_assoc]
  have := key xs.length (Nat.le_refl _)
  rwa [List.take_length] at this

theorem set_take_drop {α : Type} (xs ys : List α) (k : Nat) (hk : k < xs.length)
    (hlen : ys.length = xs.length) :
    (xs.take k ++ ys.drop k).set k (xs.get ⟨k, hk⟩) = xs.take (k + 1) ++ ys.drop (k + 1) := by
  have hk' : k < ys.length := by omega
  have htl : (xs.take k).length = k := by simp; omega
  have htake : xs.take (k + 1) = xs.take k ++ [xs.get ⟨k, hk⟩] := by
    rw [List.take_succ, List.getElem?_eq_getElem hk]
    rfl
  rw [List.set_append, if_neg (by omega), htl, Nat.sub_self,
    List.drop_eq_getElem_cons hk', List.set_cons_zero, htake, List.append_assoc]
  rfl

/-- A loop that reads the encodings of the entries of `xs` one after the other from the
file and stores the `k`-th entry at position `k` of a list of the same length ends with the
list `xs` and with the rest of the file. -/
theorem forLoop_fill {S α β : Type} (put : List α → S)
    (body : Nat → S × List β → Option (S × List β)) (xs ys : List α) (enc : α → List β)
    (hlen : ys.length = xs.length)
    (hbody : ∀ k (hk : k < xs.length) (Y : List α) (rest : List β), Y.length = xs.length →
      body k (put Y, enc (xs.get ⟨k, hk⟩) ++ rest) = some (put (Y.set k (xs.get ⟨k, hk⟩)), rest))
    (rest : List β) :
    forLoop xs.length body (put ys, xs.flatMap enc ++ rest) = some (put xs, rest) := by
  have key : ∀ n, n ≤ xs.length → forLoop n body (put ys, xs.flatMap enc ++ rest)
      = some (put (xs.take n ++ ys.drop n), (xs.drop n).flatMap enc ++ rest) := by
    intro n
    induction n with
    | zero => intro _; simp [forLoop]
    | succ n ih =>
      intro hn
      have hlt : n < xs.length := by omega
      rw [forLoop, ih (by omega), Option.some_bind, List.drop_eq_getElem_cons hlt,
        List.flatMap_cons, List.append_assoc]
      have := hbody n hlt (xs.take n ++ ys.drop n) ((xs.drop (n + 1)).flatMap enc ++ rest)
        (by simp; omega)
      rw [set_take_drop xs ys n hlt hlen] at this
      exact this
  have := key xs.length (Nat.le_refl _)
  simpa [hlen.symm ▸ List.drop_length ys] using this

theorem length_resize {α : Type} (xs : List α) (n : Nat) (x : α) : (resize xs n x).length = n := by
  simp [resize]
  omega

theorem writeRow_eq (g : grid) (f i : Nat) (frame : List (List Vec)) (row : List Vec)
    (hf : g.generatedFrames[f]? = some frame) (hi : frame[i]? = some row) (out : List Chunk) :
    forLoop row.length (fun j => grid.writeCell f i j g) out = some (out ++ encodeRow row) := by
  apply forLoop_append row (fun v => [Chunk.float64 v.x, Chunk.float64 v.y])
  intro k hk out'
  have h3 : grid.at3 g.generatedFrames f i k = some (row.get ⟨k, hk⟩) := by
    simp [grid.at3, hf, at2, hi, List.getElem?_eq_getElem hk]
  simp [grid.writeCell, h3]

theorem writeFrame_eq (W H : Nat) (g : grid) (f : Nat) (frame : List (List Vec))
    (hf : g.generatedFrames[f]? = some frame) (hd : hasDims frame H W) (out : List Chunk) :
    forLoop H (fun i => forLoop W (fun j => grid.writeCell f i j g)) out
      = some (out ++ encodeFrame frame) := by
  obtain ⟨hl, hrows⟩ := hd
  rw [← hl]
  apply forLoop_append frame encodeRow
  intro i hi out'
  have hrow : (frame.get ⟨i, hi⟩).length = W := hrows _ (List.get_mem _ _ _)
  rw [← hrow]
  exact writeRow_eq g f i frame _ hf (List.getElem?_eq_getElem hi) out'

theorem writeFrames_eq (W H : Nat) (g : grid) (hd : ∀ F ∈ g.generatedFrames, hasDims F H W)
    (out : List Chunk) :
    forLoop g.generatedFrames.length
        (fun f => forLoop H (fun i => forLoop W (fun j => grid.writeCell f i j g))) out
      = some (out ++ g.generatedFrames.flatMap encodeFrame) := by
  apply forLoop_append g.generatedFrames encodeFrame
  intro f hf out'
  exact writeFrame_eq W H g f _ (List.getElem?_eq_getElem hf) (hd _ (List.get_mem _ _ _)) out'

theorem toInt32_of_lt {n : Nat} (h : n < 2 ^ 31) : toInt32 (n : Int) = n := by
  unfold toInt32
  omega

theorem writeFramesToFile_eq (W H : Nat) (g : grid) (hN : g.generatedFrames.length < 2 ^ 31)
    (hd : ∀ F ∈ g.generatedFrames, hasDims F H W) :
    grid.writeFramesToFile W H true g = some (some (fileLayout W H g.generatedFrames)) := by
  simp only [grid.writeFramesToFile, toInt32_of_lt hN, Int.toNat_natCast, Bool.true_eq_false,
    if_false, Option.bind_eq_bind]
  rw [writeFrames_eq W H g hd]
  rfl

theorem fileSize_append (a b : List Chunk) : fileSize (a ++ b) = fileSize a + fileSize b := by
  simp [fileSize]

theorem fileSize_encodeRow (row : List Vec) : fileSize (encodeRow row) = 16 * row.length := by
  induction row with
  | nil => rfl
  | cons v row ih =>
    have e : encodeRow (v :: row)
        = [Chunk.float64 v.x, Chunk.float64 v.y] ++ encodeRow row := by
      simp [encodeRow]
    rw [e, fileSize_append, ih]
    simp [fileSize, Chunk.size]
    omega

theorem fileSize_rows (W : Nat) (rows : List (List Vec)) (h : ∀ row ∈ rows, row.length = W) :
    fileSize (rows.flatMap encodeRow) = 16 * rows.length * W := by
  induction rows with
  | nil => simp [fileSize]
  | cons r rows ih =>
    rw [List.flatMap_cons, fileSize_append, fileSize_encodeRow,
      ih (fun row hrow => h row (List.mem_cons_of_mem _ hrow)), h r (List.mem_cons_self _ _)]
    simp only [List.length_cons]
    ring

theorem fileSize_frames (W H : Nat) (frames : List (List (List Vec)))
    (hd : ∀ F ∈ frames, hasDims F H W) :
    fileSize (frames.flatMap encodeFrame) = 16 * frames.length * H * W := by
  induction frames with
  | nil => simp [fileSize]
  | cons F frames ih =>
    obtain ⟨hl, hrows⟩ := hd F (List.mem_cons_self _ _)
    rw [List.flatMap_cons, fileSize_append, ih (fun G hG => hd G (List.mem_cons_of_mem _ hG)),
      encodeFrame, fileSize_rows W F hrows, hl]
    simp only [List.length_cons]
    ring

theorem fileSize_fileLayout (W H : Nat) (frames : List (List (List Vec)))
    (hd : ∀ F ∈ frames, hasDims F H W) :
    fileSize (fileLayout W H frames) = 12 + 16 * frames.length * H * W := by
  rw [fileLayout, fileSize_append, fileSize_frames W H frames hd]
  rfl

theorem readCells_eq (gf : List (List (List Vec))) (f i : Nat) (Y : List (List Vec))
    (r0 R : List Vec) (hf : f < gf.length) (hi : i < Y.length) (hlen : r0.length = R.length)
    (rest : List Chunk) :
    forLoop R.length (fun j => grid.readCell f i j) (gf.set f (Y.set i r0), encodeRow R ++ rest)
      = some (gf.set f (Y.set i R), rest) := by
  apply forLoop_fill (fun X => gf.set f (Y.set i X)) (fun j => grid.readCell f i j) R r0
    (fun v => [Chunk.float64 v.x, Chunk.float64 v.y]) hlen
  intro k hk X rest' hX
  have hkX : k < X.length := by omega
  have h1 : (gf.set f (Y.set i X))[f]? = some (Y.set i X) := by
    simp [List.getElem?_set, hf]
  have h2 : (Y.set i X)[i]? = some X := by simp [List.getElem?_set, hi]
  simp [grid.readCell, readDouble, set3, h1, set2, h2, hkX]

theorem readRows_eq (W : Nat) (gf : List (List (List Vec))) (f : Nat) (fr0 F : List (List Vec))
    (hf : f < gf.length) (hlen : fr0.length = F.length) (hrows : ∀ row ∈ F, row.length = W)
    (rest : List Chunk) :
    forLoop F.length (fun i => grid.readRow W f i) (gf.set f fr0, encodeFrame F ++ rest)
      = some (gf.set f F, rest) := by
  apply forLoop_fill (fun Y => gf.set f Y) (fun i => grid.readRow W f i) F fr0 encodeRow hlen
  intro i hi Y rest' hY
  have hiY : i < Y.length := by omega
  have h1 : (gf.set f Y)[f]? = some Y := by simp [List.getElem?_set, hf]
  have hW : (F.get ⟨i, hi⟩).length = W := hrows _ (List.get_mem _ _ _)
  have hcells := readCells_eq gf f i Y (resize (Y.get ⟨i, hiY⟩) W Vec.zero) (F.get ⟨i, hi⟩) hf hiY
    (by rw [length_resize, hW]) rest'
  rw [hW] at hcells
  simp only [grid.readRow, h1, List.getElem?_eq_getElem hiY, Option.bind_eq_bind,
    Option.some_bind, List.set_set]
  exact hcells

theorem readFrames_eq (W H : Nat) (gen Z0 : List (List (List Vec)))
    (hlen : Z0.length = gen.length) (hd : ∀ F ∈ gen, hasDims F H W) (rest : List Chunk) :
    forLoop gen.length (fun f => grid.readFrame W H f) (Z0, gen.flatMap encodeFrame ++ rest)
      = some (gen, rest) := by
  apply forLoop_fill (fun Z => Z) (fun f => grid.readFrame W H f) gen Z0 encodeFrame hlen
  intro f hf Z rest' hZ
  have hfZ : f < Z.length := by omega
  obtain ⟨hl, hrows⟩ := hd _ (List.get_mem gen f hf)
  have hrowsEq := readRows_eq W Z f (resize (Z.get ⟨f, hfZ⟩) H []) (gen.get ⟨f, hf⟩) hfZ
    (by rw [length_resize, hl]) hrows rest'
  rw [hl] at hrowsEq
  simp only [grid.readFrame, List.getElem?_eq_getElem hfZ, Option.bind_eq_bind,
    Option.some_bind]
  exact hrowsEq

theorem readFramesFromFile_eq (W H : Nat) (gen : List (List (List Vec))) (g : grid)
    (hd : ∀ F ∈ gen, hasDims F H W) :
    grid.readFramesFromFile W H (some (fileLayout W H gen)) g
      = some { g with generatedFrames := gen } := by
  have hread := readFrames_eq W H gen (resize [] gen.length []) (length_resize _ _ _) hd []
  rw [List.append_nil] at hread
  simp [grid.readFramesFromFile, fileLayout, readInt, hread]

/-- C13: for a generated sequence of `N` frames (each of `H` rows and `W` columns,
`N < 2^31`), the file that `grid::writeFramesToFile` produces is the three 32-bit integers
`N`, `width`, `height` followed, frame after frame, row after row and cell after cell, by the
`x` and the `y` value of each cell as 64-bit floats; its length is `12 + 16·N·H·W` bytes. -/
theorem writeFramesToFile_layout (W H : Nat) (g : grid)
    (hN : g.generatedFrames.length < 2 ^ 31)
    (hd : ∀ F ∈ g.generatedFrames, hasDims F H W) :
    ∃ file, grid.writeFramesToFile W H true g = some (some file) ∧
      file = [Chunk.int32 g.generatedFrames.length, Chunk.int32 W, Chunk.int32 H]
        ++ g.generatedFrames.flatMap (fun frame => frame.flatMap (fun row =>
            row.flatMap (fun v => [Chunk.float64 v.x, Chunk.float64 v.y]))) ∧
      fileSize file = 12 + 16 * g.generatedFrames.length * H * W :=
  ⟨_, writeFramesToFile_eq W H g hN hd, rfl, fileSize_fileLayout W H _ hd⟩

/-- Witness of C13: the two frames of `savedExample` give a file of 76 bytes. -/
theorem writeFramesToFile_layout_witness :
    ∃ file, grid.writeFramesToFile 2 1 true savedExample = some (some file) ∧
      fileSize file = 12 + 16 * savedExample.generatedFrames.length * 1 * 2 :=
  (writeFramesToFile_layout 2 1 savedExample (by decide) (by decide)).imp
    (fun _ h => ⟨h.1, h.2.2⟩)

/-- C12: round trip.  For a sequence of `N < 2^31` frames of `H` rows and `W` columns,
`grid::writeFramesToFile` produces a file, and `grid::readFramesFromFile` on that file sets
`generatedFrames` to the original sequence, every stored value being the value written. -/
theorem write_read_roundtrip (W H : Nat) (g reader : grid)
    (hN : g.generatedFrames.length < 2 ^ 31)
    (hd : ∀ F ∈ g.generatedFrames, hasDims F H W) :
    ∃ file, grid.writeFramesToFile W H true g = some (some file) ∧
      grid.readFramesFromFile W H (some file) reader
        = some { reader with generatedFrames := g.generatedFrames } :=
  ⟨_, writeFramesToFile_eq W H g hN hd, readFramesFromFile_eq W H _ reader hd⟩

/-- Witness of C12: the two frames of `savedExample`, read back into a fresh object. -/
theorem write_read_roundtrip_witness :
    ∃ file, grid.writeFramesToFile 2 1 true savedExample = some (some file) ∧
      grid.readFramesFromFile 2 1 (some file) grid.fresh
        = some { grid.fresh with generatedFrames := savedExample.generatedFrames } :=
  write_read_roundtrip 2 1 savedExample grid.fresh (by decide) (by decide)

/-- C14: when the file cannot be opened, or when the width or the height stored in its header
differs from the configured grid, `grid::readFramesFromFile` returns with the object (and so
`generatedFrames`) exactly as it was, and `RaylibVisualizer::loadFramesFromFile`, which reads
into a fresh `grid`, returns `false` and keeps its state. -/
theorem readFramesFromFile_atomic (W H : Nat) (g : grid) (v : RaylibVisualizer)
    (numFrames fileWidth fileHeight : Int) (rest : List Chunk)
    (hmis : fileWidth ≠ (W : Int) ∨ fileHeight ≠ (H : Int)) :
    grid.readFramesFromFile W H none g = some g ∧
    grid.readFramesFromFile W H (some (Chunk.int32 numFrames :: Chunk.int32 fileWidth
      :: Chunk.int32 fileHeight :: rest)) g = some g ∧
    RaylibVisualizer.loadFramesFromFile W H none v = some (false, v) ∧
    RaylibVisualizer.loadFramesFromFile W H (some (Chunk.int32 numFrames
      :: Chunk.int32 fileWidth :: Chunk.int32 fileHeight :: rest)) v = some (false, v) := by
  have h1 : ∀ g' : grid, grid.readFramesFromFile W H none g' = some g' := fun _ => rfl
  have h2 : ∀ g' : grid, grid.readFramesFromFile W H (some (Chunk.int32 numFrames
      :: Chunk.int32 fileWidth :: Chunk.int32 fileHeight :: rest)) g' = some g' := by
    intro g'
    simp [grid.readFramesFromFile, readInt, hmis]
  refine ⟨h1 g, h2 g, ?_, ?_⟩
  · simp [RaylibVisualizer.loadFramesFromFile, h1, grid.fresh]
  · simp [RaylibVisualizer.loadFramesFromFile, h2, grid.fresh]

/-- Witness of C14: a file written for a grid of width 3, loaded on a grid of width 2, with a
sequence already in memory. -/
theorem readFramesFromFile_atomic_witness :
    grid.readFramesFromFile 2 1 (some (Chunk.int32 1 :: Chunk.int32 3 :: Chunk.int32 1
      :: [Chunk.float64 0, Chunk.float64 0])) savedExample = some savedExample :=
  (readFramesFromFile_atomic 2 1 savedExample ⟨[], 0, 0, 0⟩ 1 3 1
    [Chunk.float64 0, Chunk.float64 0] (Or.inl (by decide))).2.1

/-! ## The parallel solver: force stage, bindings and barriers (C15, C16, C17) -/

set_option maxRecDepth 100000

theorem dispatchCompute_forceMain (gx gy : Nat) (timeStep : ℚ) (width height : Int)
    (velocityField : List ℚ) :
    dispatchCompute gx gy (forceMain timeStep width height) velocityField = velocityField := by
  unfold dispatchCompute
  induction invocations gx gy with
  | nil => rfl
  | cons p ps ih => simp [forceMain]

theorem applyForcesImage_eq (s : GPUSolver) (velocityField : List ℚ) :
    s.applyForcesImage velocityField = velocityField :=
  dispatchCompute_forceMain _ _ _ _ _ _

/-- C15, evaluation of the code at the failing input: on the zero field of 117 rows by 1
column with `dt = 0.5`, the sequential `grid::forces` changes the cell `[116][0]` of the
forcing band to `(1, 0)`; the same field uploaded to the parallel solver is unchanged by the
dispatch of `GPUSolver::applyForces` (the force kernel has an empty body, for every content
of the texture) and downloads again as `(0, 0)` in that cell. -/
theorem applyForces_adds_nothing :
    (grid.forces 117 1 (grid.init 117 1 grid.fresh)).bind
        (fun g => at2 g.currentVelocities 116 0) = some (Vec.mk 1 0) ∧
    (((GPUSolver.new 1 117).uploadVelocityData
        (grid.init 117 1 grid.fresh).currentVelocities).bind
      (fun texture => (GPUSolver.new 1 117).downloadVelocityData
        ((GPUSolver.new 1 117).applyForcesImage texture) [])).bind
        (fun velocities => at2 velocities 116 0) = some (Vec.mk 0 0) ∧
    ∀ (s : GPUSolver) (texture : List ℚ), s.applyForcesImage texture = texture := by
  refine ⟨?_, ?_, applyForcesImage_eq⟩
  · rw [forces_eq 117 1 _ (hasDims_replicate 117 1 (Vec.mk 0 0))]
    simp only [Option.some_bind]
    rw [at2_tabulate _ (by decide) (by decide)]
    decide!
  · simp only [applyForcesImage_eq]
    decide!


theorem forLoop_map {σ τ : Type} (E : σ → τ) (body : Nat → σ → Option σ)
    (body2 : Nat → τ → Option τ) (h : ∀ k s, (body k s).map E = body2 k (E s)) (n : Nat)
    (s : σ) : (forLoop n body s).map E = forLoop n body2 (E s) := by
  induction n with
  | zero => rfl
  | succ n ih =>
    rw [forLoop, forLoop, ← ih]
    cases forLoop n body s with
    | none => rfl
    | some t => simpa using h n t

theorem applyForces_erase (r : Run) :
    (GPUSolver.applyForces r).map Run.erase = GPUSolver.applyForces r.erase := by
  unfold GPUSolver.applyForces
  cases h : GPUSolver.velocityTexture r.solver.currentBuffer <;>
    simp [Run.erase, h, Run.gl, GLCall.erase, GPUSolver.dispatchGrid]

theorem diffuseIteration_erase (r : Run) :
    (GPUSolver.diffuseIteration r).map Run.erase = GPUSolver.diffuseIteration r.erase := by
  unfold GPUSolver.diffuseIteration
  cases h1 : GPUSolver.velocityTexture (1 - r.solver.currentBuffer) <;>
  cases h2 : GPUSolver.velocityTexture r.solver.currentBuffer <;>
    simp [Run.erase, h1, h2, Run.gl, GLCall.erase, GPUSolver.dispatchGrid,
      GPUSolver.swapBuffers]

theorem diffuse_erase (r : Run) :
    (GPUSolver.diffuse r).map Run.erase = GPUSolver.diffuse r.erase := by
  unfold GPUSolver.diffuse
  cases h : GPUSolver.velocityTexture r.solver.currentBuffer with
  | none => simp [Run.erase, h]
  | some t =>
    have e : (Run.erase r).solver.currentBuffer = r.solver.currentBuffer := rfl
    simp only [Option.bind_eq_bind, e, h, Option.some_bind]
    rw [forLoop_map Run.erase _ _ (fun _ s => diffuseIteration_erase s)]
    simp [Run.erase, Run.gl, GLCall.erase]

theorem advect_erase (r : Run) :
    (GPUSolver.advect r).map Run.erase = GPUSolver.advect r.erase := by
  unfold GPUSolver.advect
  cases h1 : GPUSolver.velocityTexture (1 - r.solver.currentBuffer) <;>
  cases h2 : GPUSolver.velocityTexture r.solver.currentBuffer <;>
    simp [Run.erase, h1, h2, Run.gl, GLCall.erase, GPUSolver.dispatchGrid,
      GPUSolver.swapBuffers]

theorem projectIteration_erase (st : Run × Int) :
    (GPUSolver.projectIteration st).map (fun t => (t.1.erase, t.2))
      = GPUSolver.projectIteration (st.1.erase, st.2) := by
  unfold GPUSolver.projectIteration
  cases h1 : GPUSolver.pressureTexture (1 - st.2) <;>
  cases h2 : GPUSolver.pressureTexture st.2 <;>
  cases h3 : GPUSolver.pressureTexture (1 - (1 - st.2)) <;>
    simp [Run.erase, h1, h2, h3, Run.gl, GLCall.erase, GPUSolver.dispatchGrid]

theorem project_erase (r : Run) :
    (GPUSolver.project r).map Run.erase = GPUSolver.project r.erase := by
  unfold GPUSolver.project
  have e : (Run.erase r).solver.currentBuffer = r.solver.currentBuffer := rfl
  cases h : GPUSolver.velocityTexture r.solver.currentBuffer with
  | none => simp [e, h]
  | some t =>
    have hp : GPUSolver.pressureTexture 0 = some Tex.pressureTexture0 := rfl
    simp only [Option.bind_eq_bind, e, h, hp, Option.some_bind]
    have hloop := forLoop_map (fun t : Run × Int => (t.1.erase, t.2))
      (fun _ => GPUSolver.projectIteration) (fun _ => GPUSolver.projectIteration)
      (fun _ s => projectIteration_erase s) 20
    have hw : (Run.erase r).solver.gridWidth = 0 := rfl
    have hh : (Run.erase r).solver.gridHeight = 0 := rfl
    have hts : (Run.erase r).solver.timeStep = 0 := rfl
    have hstart := hloop (r.gl [
      GLCall.useProgram Program.projectionProgram,
      GLCall.bindImageTexture 0 t Access.readOnly,
      GLCall.bindImageTexture 1 Tex.pressureTexture0 Access.writeOnly,
      GLCall.bindImageTexture 2 Tex.pressureTexture0 Access.readOnly,
      GLCall.bindImageTexture 3 Tex.divergenceTexture Access.writeOnly,
      GLCall.uniform1i Program.projectionProgram Uniform.mode 0,
      GLCall.uniform1i Program.projectionProgram Uniform.width r.solver.gridWidth,
      GLCall.uniform1i Program.projectionProgram Uniform.height r.solver.gridHeight,
      GLCall.uniform1f Program.projectionProgram Uniform.timeStep r.solver.timeStep,
      r.solver.dispatchGrid,
      GLCall.memoryBarrier], 0)
    simp only [Run.erase, Run.gl, List.map_append, List.map_cons, List.map_nil, GLCall.erase,
      GPUSolver.dispatchGrid] at hstart
    simp only [Run.gl, GPUSolver.dispatchGrid, hw, hh, hts]
    simp only [Run.erase]
    norm_num at hstart ⊢
    rw [← hstart]
    cases forLoop 20 (fun _ => GPUSolver.projectIteration)
        ({ solver := r.solver, calls := r.calls ++ [
          GLCall.useProgram Program.projectionProgram,
          GLCall.bindImageTexture 0 t Access.readOnly,
          GLCall.bindImageTexture 1 Tex.pressureTexture0 Access.writeOnly,
          GLCall.bindImageTexture 2 Tex.pressureTexture0 Access.readOnly,
          GLCall.bindImageTexture 3 Tex.divergenceTexture Access.writeOnly,
          GLCall.uniform1i Program.projectionProgram Uniform.mode 0,
          GLCall.uniform1i Program.projectionProgram Uniform.width r.solver.gridWidth,
          GLCall.uniform1i Program.projectionProgram Uniform.height r.solver.gridHeight,
          GLCall.uniform1f Program.projectionProgram Uniform.timeStep r.solver.timeStep,
          GLCall.dispatchCompute ((r.solver.gridWidth + 15) / 16)
            ((r.solver.gridHeight + 15) / 16) 1,
          GLCall.memoryBarrier] }, 0) with
    | none => rfl
    | some st =>
      obtain ⟨r2, pb⟩ := st
      simp only [Option.map_some', Option.some_bind]
      cases h1 : GPUSolver.velocityTexture r2.solver.currentBuffer <;>
      cases h2 : GPUSolver.pressureTexture pb <;>
        simp [h1, h2, GLCall.erase, Run.erase]

theorem step_erase (r : Run) : (GPUSolver.step r).map Run.erase = GPUSolver.step r.erase := by
  unfold GPUSolver.step
  simp only [Option.bind_eq_bind, ← applyForces_erase]
  cases GPUSolver.applyForces r with
  | none => rfl
  | some r1 =>
    simp only [Option.map_some', Option.some_bind, ← diffuse_erase]
    cases GPUSolver.diffuse r1 with
    | none => rfl
    | some r2 =>
      simp only [Option.map_some', Option.some_bind, ← advect_erase]
      cases GPUSolver.advect r2 with
      | none => rfl
      | some r3 =>
        simp only [Option.map_some', Option.some_bind]
        exact project_erase r3

theorem barriered_erase (pending : Bool) (cs : List GLCall) :
    barriered pending (cs.map GLCall.erase) = barriered pending cs := by
  induction cs generalizing pending with
  | nil => rfl
  | cons c cs ih =>
    cases c with
    | uniform1i p n v => cases n <;> simp [GLCall.erase, barriered, ih]
    | _ => simp [GLCall.erase, barriered, ih]

theorem dispatches_erase (b : GLBindings) (cs : List GLCall) :
    dispatches b (cs.map GLCall.erase) = dispatches b cs := by
  induction cs generalizing b with
  | nil => rfl
  | cons c cs ih =>
    cases c with
    | uniform1i p n v => cases n <;> simp [GLCall.erase, dispatches, GLBindings.after, ih]
    | _ => simp [GLCall.erase, dispatches, GLBindings.after, ih]

theorem isDispatch_erase (cs : List GLCall) :
    ((cs.map GLCall.erase).filter GLCall.isDispatch).length
      = (cs.filter GLCall.isDispatch).length := by
  induction cs with
  | nil => rfl
  | cons c cs ih =>
    cases c with
    | uniform1i p n v =>
      cases n <;> simpa [GLCall.erase, GLCall.isDispatch, List.filter_cons] using ih
    | _ => simp [GLCall.erase, GLCall.isDispatch, List.filter_cons, ih]

/-- What a function of the erased run gives on a step from a solver with the buffer index of
`s` and all other members zero, it gives on the step from `s`. -/
theorem step_analysis {β : Type} (s : GPUSolver) (f : Run → β) (hf : ∀ r, f r.erase = f r)
    (v : β)
    (hv : (GPUSolver.step (Run.mk (GPUSolver.mk 0 0 0 0 0 s.currentBuffer) [])).map f
      = some v) :
    ∃ r, GPUSolver.step { solver := s, calls := [] } = some r ∧ f r = v := by
  have key := step_erase { solver := s, calls := [] }
  have he : Run.erase { solver := s, calls := [] }
      = Run.mk (GPUSolver.mk 0 0 0 0 0 s.currentBuffer) [] := rfl
  rw [he] at key
  rw [← key] at hv
  cases hstep : GPUSolver.step { solver := s, calls := [] } with
  | none => simp [hstep] at hv
  | some r =>
    refine ⟨r, rfl, ?_⟩
    simpa [hstep, hf] using hv

/-- C17: in the calls of one parallel step (`applyForces`, `diffuse`, `advect`, `project`),
started with a buffer index in `{0, 1}`, every compute dispatch is followed by a memory
barrier before the next dispatch and before the end of the step; the step issues 59
dispatches (1 force, 15 diffusion, 1 advection, then 1 divergence and 40 pressure
half-sweeps of the projection program, 1 gradient). -/
theorem step_barriers (s : GPUSolver) (h : s.currentBuffer = 0 ∨ s.currentBuffer = 1) :
    ∃ r, GPUSolver.step { solver := s, calls := [] } = some r ∧
      (barriered false r.calls, (r.calls.filter GLCall.isDispatch).length,
        (dispatches GLBindings.initial r.calls).map (fun b => b.program))
      = (true, 59,
          [some Program.forceProgram] ++ List.replicate 15 (some Program.diffusionProgram)
          ++ [some Program.advectionProgram]
          ++ List.replicate 41 (some Program.projectionProgram)
          ++ [some Program.projectionGradientProgram]) := by
  apply step_analysis s (fun r => (barriered false r.calls,
    (r.calls.filter GLCall.isDispatch).length,
    (dispatches GLBindings.initial r.calls).map (fun b => b.program)))
  · intro r
    simp only [Run.erase, barriered_erase, isDispatch_erase, dispatches_erase]
  · rcases h with h | h <;> rw [h] <;> decide

/-- Witness of C17: the first step of a freshly constructed solver. -/
theorem step_barriers_witness :
    ∃ r, GPUSolver.step (Run.start 256 256) = some r ∧ barriered false r.calls = true :=
  (step_barriers (GPUSolver.new 256 256) (Or.inl rfl)).imp
    (fun _ h => ⟨h.1, congrArg Prod.fst h.2⟩)

/-- C16, counterexample: in the first step of a freshly constructed solver, the force pass
(dispatch 0) and the gradient pass (dispatch 58) bind `velocityTexture[0]` with
`GL_READ_WRITE`, so it is a write target and a read source of the same dispatch, and the
divergence pass (dispatch 17) binds `pressureTexture[0]` to the write unit 1 and to the read
unit 2. -/
theorem bindings_alias :
    (GPUSolver.step (Run.start 256 256)).map (fun r =>
      ((dispatches GLBindings.initial r.calls).map
        (fun b => (b.writeTargets, b.readSources, b.disjoint))).enum.filter
          (fun e => e.1 = 0 ∨ e.1 = 17 ∨ e.1 = 58))
      = some [
        (0, [Tex.velocityTexture0], [Tex.velocityTexture0], false),
        (17, [Tex.pressureTexture0, Tex.divergenceTexture],
          [Tex.velocityTexture0, Tex.pressureTexture0], false),
        (58, [Tex.velocityTexture0], [Tex.velocityTexture0, Tex.pressureTexture0], false)] := by
  decide

/-- C16, amended: in one parallel step started with a buffer index in `{0, 1}`, every
diffusion iteration, the advection pass and every red and black pressure half-sweep has its
write targets different from all its read sources (the two buffers of the velocity pair and
of the pressure pair are bound to different indices); the force pass, the divergence pass
(mode 0 of the projection program) and the gradient pass do not. -/
theorem bindings_disjoint (s : GPUSolver) (h : s.currentBuffer = 0 ∨ s.currentBuffer = 1) :
    ∃ r, GPUSolver.step { solver := s, calls := [] } = some r ∧
      (dispatches GLBindings.initial r.calls).map (fun b => (b.program, b.mode, b.disjoint))
        = [(some Program.forceProgram, 0, false)]
          ++ List.replicate 15 (some Program.diffusionProgram, 0, true)
          ++ [(some Program.advectionProgram, 0, true),
              (some Program.projectionProgram, 0, false)]
          ++ (List.replicate 20 [(some Program.projectionProgram, 1, true),
              (some Program.projectionProgram, 2, true)]).flatten
          ++ [(some Program.projectionGradientProgram, 2, false)] := by
  apply step_analysis s (fun r =>
    (dispatches GLBindings.initial r.calls).map (fun b => (b.program, b.mode, b.disjoint)))
  · intro r
    simp only [Run.erase, dispatches_erase]
  · rcases h with h | h <;> rw [h] <;> decide

/-- Witness of C16 (amended): the first step of a freshly constructed solver. -/
theorem bindings_disjoint_witness :
    ∃ r, GPUSolver.step (Run.start 256 256) = some r ∧
      (dispatches GLBindings.initial r.calls).map (fun b => (b.program, b.mode, b.disjoint))
        = [(some Program.forceProgram, 0, false)]
          ++ List.replicate 15 (some Program.diffusionProgram, 0, true)
          ++ [(some Program.advectionProgram, 0, true),
              (some Program.projectionProgram, 0, false)]
          ++ (List.replicate 20 [(some Program.projectionProgram, 1, true),
              (some Program.projectionProgram, 2, true)]).flatten
          ++ [(some Program.projectionGradientProgram, 2, false)] :=
  bindings_disjoint (GPUSolver.new 256 256) (Or.inl rfl)

/-! ## Interactive force injection (C18) -/

/-- A loop whose `k`-th body stores the `k`-th entry of `xs` at position `k` of a list of the
same length ends with the list `xs`. -/
theorem forLoop_store {S α : Type} (put : List α → S) (body : Nat → S → Option S)
    (xs ys : List α) (hlen : ys.length = xs.length)
    (hbody : ∀ k (hk : k < xs.length) (Y : List α), Y.length = xs.length →
      body k (put Y) = some (put (Y.set k (xs.get ⟨k, hk⟩)))) :
    forLoop xs.length body (put ys) = some (put xs) := by
  have key : ∀ n, n ≤ xs.length →
      forLoop n body (put ys) = some (put (xs.take n ++ ys.drop n)) := by
    intro n
    induction n with
    | zero => intro _; simp [forLoop]
    | succ n ih =>
      intro hn
      have hlt : n < xs.length := by omega
      rw [forLoop, ih (by omega), Option.some_bind,
        hbody n hlt (xs.take n ++ ys.drop n) (by simp; omega), set_take_drop xs ys n hlt hlen]
  have := key xs.length (Nat.le_refl _)
  simpa [hlen.symm ▸ List.drop_length ys] using this

theorem flat_index_lt {W H x y : Nat} (hx : x < W) (hy : y < H) :
    (y * W + x) * 2 + 1 < W * H * 2 := by
  have h1 : (y + 1) * W ≤ H * W := Nat.mul_le_mul_right W hy
  have h2 : (y + 1) * W = y * W + W := by ring
  have h3 : W * H = H * W := Nat.mul_comm W H
  omega

theorem flat_index_inj {W x y c r : Nat} (hx : x < W) (hc : c < W)
    (h : r * W + c = y * W + x) : r = y ∧ c = x := by
  have hr : r = y := by
    rcases Nat.lt_trichotomy r y with hlt | heq | hgt
    · have h1 : (r + 1) * W ≤ y * W := Nat.mul_le_mul_right W hlt
      have h2 : (r + 1) * W = r * W + W := by ring
      omega
    · exact heq
    · have h1 : (y + 1) * W ≤ r * W := Nat.mul_le_mul_right W hgt
      have h2 : (y + 1) * W = y * W + W := by ring
      omega
  subst hr
  exact ⟨rfl, by omega⟩

/-- The texel `(x, y)` of a two-channel image of width `W`, zero outside the array. -/
theorem texel_eq {W H : Nat} {data : List ℚ} (hlen : data.length = W * H * 2) {x y : Nat}
    (hx : x < W) (hy : y < H) :
    texel W data x y
      = some (Vec.mk (data.getD ((y * W + x) * 2) 0) (data.getD ((y * W + x) * 2 + 1) 0)) := by
  have h := flat_index_lt hx hy
  have h0 : (y * W + x) * 2 < data.length := by omega
  have h1 : (y * W + x) * 2 + 1 < data.length := by omega
  simp [texel, List.getD_eq_getElem?_getD, List.getElem?_eq_getElem h0,
    List.getElem?_eq_getElem h1]

theorem downloadRow_eq (s : GPUSolver) (data : List ℚ)
    (hlen : data.length = s.gridWidth * s.gridHeight * 2) (y : Nat) (hy : y < s.gridHeight)
    (V : List (List Vec)) (hV : y < V.length) (row0 : List Vec)
    (hrow0 : row0.length = s.gridWidth) :
    forLoop s.gridWidth (fun x => GPUSolver.downloadCell s data y x) (V.set y row0)
      = some (V.set y ((List.range s.gridWidth).map (fun x =>
          Vec.mk (data.getD ((y * s.gridWidth + x) * 2) 0)
            (data.getD ((y * s.gridWidth + x) * 2 + 1) 0)))) := by
  have hxs : ((List.range s.gridWidth).map (fun x =>
      Vec.mk (data.getD ((y * s.gridWidth + x) * 2) 0)
        (data.getD ((y * s.gridWidth + x) * 2 + 1) 0))).length = s.gridWidth := by simp
  have h := forLoop_store (fun X => V.set y X) (fun x => GPUSolver.downloadCell s data y x)
    ((List.range s.gridWidth).map (fun x =>
      Vec.mk (data.getD ((y * s.gridWidth + x) * 2) 0)
        (data.getD ((y * s.gridWidth + x) * 2 + 1) 0))) row0 (by rw [hxs, hrow0])
    (by
      intro k hk Y hY
      rw [hxs] at hk hY
      have hidx := flat_index_lt hk hy
      have h0 : (y * s.gridWidth + k) * 2 < data.length := by omega
      have h1 : (y * s.gridWidth + k) * 2 + 1 < data.length := by omega
      have hrow : (V.set y Y)[y]? = some Y := by simp [List.getElem?_set, hV]
      simp [GPUSolver.downloadCell, List.getElem?_eq_getElem h0, List.getElem?_eq_getElem h1,
        set2, hrow, hY, hk, List.getD_eq_getElem?_getD])
  rw [hxs] at h
  exact h

theorem downloadVelocityData_eq (s : GPUSolver) (texture : List ℚ)
    (hlen : texture.length = s.gridWidth * s.gridHeight * 2) :
    s.downloadVelocityData texture []
      = some (tabulate s.gridHeight s.gridWidth (fun y x =>
          Vec.mk (texture.getD ((y * s.gridWidth + x) * 2) 0)
            (texture.getD ((y * s.gridWidth + x) * 2 + 1) 0))) := by
  have hxs : (tabulate s.gridHeight s.gridWidth (fun y x =>
      Vec.mk (texture.getD ((y * s.gridWidth + x) * 2) 0)
        (texture.getD ((y * s.gridWidth + x) * 2 + 1) 0))).length = s.gridHeight := by
    simp [tabulate]
  have h := forLoop_store (fun X => X) (fun y => GPUSolver.downloadRow s texture y)
    (tabulate s.gridHeight s.gridWidth (fun y x =>
      Vec.mk (texture.getD ((y * s.gridWidth + x) * 2) 0)
        (texture.getD ((y * s.gridWidth + x) * 2 + 1) 0)))
    (resize [] s.gridHeight []) (by rw [hxs, length_resize])
    (by
      intro y hy Y hY
      rw [hxs] at hy hY
      have hyY : y < Y.length := by omega
      have hrow := downloadRow_eq s texture hlen y hy Y hyY
        (resize (Y.get ⟨y, hyY⟩) s.gridWidth Vec.zero) (length_resize _ _ _)
      simp only [GPUSolver.downloadRow, List.getElem?_eq_getElem hyY, Option.bind_eq_bind,
        Option.some_bind]
      rw [show Y[y] = Y.get ⟨y, hyY⟩ from rfl, hrow]
      simp [tabulate])
  rw [hxs] at h
  simp only [GPUSolver.downloadVelocityData, GPUSolver.glGetTexImage, hlen, if_true,
    Option.bind_eq_bind, Option.some_bind]
  exact h

theorem texel_set_other {W : Nat} (data : List ℚ) {x y c r : Nat} (hx : x < W) (hc : c < W)
    (hne : ¬ (r = y ∧ c = x)) (a b : ℚ) :
    texel W ((data.set ((y * W + x) * 2) a).set ((y * W + x) * 2 + 1) b) c r
      = texel W data c r := by
  have hk : r * W + c ≠ y * W + x := fun h => hne (flat_index_inj hx hc h)
  have h1 : (y * W + x) * 2 ≠ (r * W + c) * 2 := by omega
  have h2 : (y * W + x) * 2 + 1 ≠ (r * W + c) * 2 := by omega
  have h3 : (y * W + x) * 2 ≠ (r * W + c) * 2 + 1 := by omega
  have h4 : (y * W + x) * 2 + 1 ≠ (r * W + c) * 2 + 1 := by omega
  simp [texel, List.getElem?_set, h1, h2, h3, h4]

theorem texel_set_self {W : Nat} (data : List ℚ) {x y : Nat}
    (h : (y * W + x) * 2 + 1 < data.length) (a b : ℚ) :
    texel W ((data.set ((y * W + x) * 2) a).set ((y * W + x) * 2 + 1) b) x y
      = some (Vec.mk a b) := by
  have h0 : (y * W + x) * 2 < data.length := by omega
  simp [texel, List.getElem?_set, h0, h]

theorem uploadVelocityData_spec (s : GPUSolver) (V : List (List Vec))
    (hV : hasDims V s.gridHeight s.gridWidth) :
    ∃ data, s.uploadVelocityData V = some data ∧
      data.length = s.gridWidth * s.gridHeight * 2 ∧
      ∀ y x, y < s.gridHeight → x < s.gridWidth → texel s.gridWidth data x y = at2 V y x := by
  obtain ⟨data, hdata, hlen, hcells⟩ := forLoop2_inv s.gridHeight s.gridWidth
    (fun y x => GPUSolver.uploadCell s V y x)
    (fun y x d => d.length = s.gridWidth * s.gridHeight * 2 ∧
      ∀ r c, r < s.gridHeight → c < s.gridWidth → cellBefore y x r c →
        texel s.gridWidth d c r = at2 V r c)
    (List.replicate (s.gridWidth * s.gridHeight * 2) 0)
    ⟨by simp, fun r c _ _ hb => by simp [cellBefore] at hb⟩
    (by
      intro y x d hy hx ⟨hlen, hinv⟩
      obtain ⟨v, hv⟩ := at2_of_hasDims hV hy hx
      have hidx := flat_index_lt hx hy
      have h0 : (y * s.gridWidth + x) * 2 < d.length := by omega
      have h1 : (y * s.gridWidth + x) * 2 + 1 < (d.set ((y * s.gridWidth + x) * 2) v.x).length := by
        simp; omega
      refine ⟨(d.set ((y * s.gridWidth + x) * 2) v.x).set ((y * s.gridWidth + x) * 2 + 1) v.y,
        ?_, by simpa using hlen, ?_⟩
      · simp [GPUSolver.uploadCell, hv, setAt, h0]
        omega
      · intro r c hr hc hb
        by_cases h : r = y ∧ c = x
        · obtain ⟨rfl, rfl⟩ := h
          rw [texel_set_self d (by omega), hv]
        · rw [texel_set_other d hx hc h]
          apply hinv r c hr hc
          unfold cellBefore at hb ⊢
          rcases hb with h1 | ⟨h1, h2⟩
          · exact Or.inl h1
          · exact Or.inr ⟨h1, lt_of_le_of_ne (Nat.lt_succ_iff.mp h2) (fun e => h ⟨h1, e⟩)⟩)
    (by
      intro y d _ ⟨hlen, hinv⟩
      refine ⟨hlen, ?_⟩
      intro r c hr hc hb
      apply hinv r c hr hc
      unfold cellBefore at hb ⊢
      rcases hb with h1 | ⟨_, h2⟩
      · rcases Nat.lt_succ_iff_lt_or_eq.mp h1 with h | h
        · exact Or.inl h
        · exact Or.inr ⟨h, hc⟩
      · exact absurd h2 (Nat.not_lt_zero c))
  exact ⟨data, hdata, hlen, fun y x hy hx => hcells y x hy hx (Or.inl hy)⟩

theorem addForceLoop_spec (s : GPUSolver) (sqrt : ℚ → ℚ) (cx cy : Int) (fx fy : ℚ)
    (V0 : List (List Vec)) (hV : hasDims V0 s.gridHeight s.gridWidth) :
    ∃ V, forLoop 11 (fun a => forLoop 11 (fun b =>
        GPUSolver.addForceCell s sqrt cx cy fx fy ((a : Int) - 5) ((b : Int) - 5))) V0 = some V ∧
      hasDims V s.gridHeight s.gridWidth ∧
      ∀ r c, r < s.gridHeight → c < s.gridWidth →
        at2 V r c = (at2 V0 r c).map (fun v =>
          if offsetVisited cx cy 11 0 r c then forcedVelocity sqrt cx cy fx fy r c v else v) := by
  apply forLoop2_inv 11 11
    (fun a b => GPUSolver.addForceCell s sqrt cx cy fx fy ((a : Int) - 5) ((b : Int) - 5))
    (fun a b V => hasDims V s.gridHeight s.gridWidth ∧
      ∀ r c, r < s.gridHeight → c < s.gridWidth →
        at2 V r c = (at2 V0 r c).map (fun v =>
          if offsetVisited cx cy a b r c then forcedVelocity sqrt cx cy fx fy r c v else v))
    V0
  · refine ⟨hV, fun r c hr hc => ?_⟩
    obtain ⟨v, hv⟩ := at2_of_hasDims hV hr hc
    have hnv : ¬ offsetVisited cx cy 0 0 r c := by unfold offsetVisited; omega
    simp [hv, hnv]
  · intro a b V ha hb ⟨hd, hinv⟩
    -- the cells other than the one at offset `(a, b)` keep their status
    have hstep : ∀ r c : Nat, ¬ ((r : Int) - cy + 5 = a ∧ (c : Int) - cx + 5 = b) →
        (offsetVisited cx cy a (b + 1) r c ↔ offsetVisited cx cy a b r c) := by
      intro r c hne
      unfold offsetVisited
      constructor <;> intro h <;> omega
    by_cases hin : cx + ((b : Int) - 5) ≥ 0 ∧ cx + ((b : Int) - 5) < s.gridWidth
        ∧ cy + ((a : Int) - 5) ≥ 0 ∧ cy + ((a : Int) - 5) < s.gridHeight
    · obtain ⟨h1, h2, h3, h4⟩ := hin
      have hr0 : (cy + ((a : Int) - 5)).toNat < s.gridHeight := by omega
      have hc0 : (cx + ((b : Int) - 5)).toNat < s.gridWidth := by omega
      have hrI : (((cy + ((a : Int) - 5)).toNat : Nat) : Int) - cy + 5 = a := by omega
      have hcI : (((cx + ((b : Int) - 5)).toNat : Nat) : Int) - cx + 5 = b := by omega
      have hdx : (b : Int) - 5 = (((cx + ((b : Int) - 5)).toNat : Nat) : Int) - cx := by omega
      have hdy : (a : Int) - 5 = (((cy + ((a : Int) - 5)).toNat : Nat) : Int) - cy := by omega
      obtain ⟨v, hv⟩ := at2_of_hasDims hV hr0 hc0
      have hnot : ¬ offsetVisited cx cy a b (cy + ((a : Int) - 5)).toNat
          (cx + ((b : Int) - 5)).toNat := by unfold offsetVisited; omega
      have hnow : offsetVisited cx cy a (b + 1) (cy + ((a : Int) - 5)).toNat
          (cx + ((b : Int) - 5)).toNat := by unfold offsetVisited; omega
      have hold : at2 V (cy + ((a : Int) - 5)).toNat (cx + ((b : Int) - 5)).toNat = some v := by
        rw [hinv _ _ hr0 hc0, hv]
        simp [hnot]
      by_cases hdist : sqrt ((((b : Int) - 5) * ((b : Int) - 5)
          + ((a : Int) - 5) * ((a : Int) - 5) : Int) : ℚ) ≤ 5
      · obtain ⟨V1, old1, hold1, hm1, hd1, hat1⟩ := modify2_spec hd hr0 hc0 (fun v =>
          { v with x := v.x + fx * ((1 - sqrt ((((b : Int) - 5) * ((b : Int) - 5)
            + ((a : Int) - 5) * ((a : Int) - 5) : Int) : ℚ) / 5) * 2) })
        obtain ⟨V2, old2, hold2, hm2, hd2, hat2⟩ := modify2_spec hd1 hr0 hc0 (fun v =>
          { v with y := v.y + fy * ((1 - sqrt ((((b : Int) - 5) * ((b : Int) - 5)
            + ((a : Int) - 5) * ((a : Int) - 5) : Int) : ℚ) / 5) * 2) })
        have ho1 : old1 = v := by rw [hold] at hold1; exact (Option.some.inj hold1).symm
        have ho2 : old2 = { old1 with x := old1.x + fx * ((1
            - sqrt ((((b : Int) - 5) * ((b : Int) - 5)
              + ((a : Int) - 5) * ((a : Int) - 5) : Int) : ℚ) / 5) * 2) } := by
          have := hat1 (cy + ((a : Int) - 5)).toNat (cx + ((b : Int) - 5)).toNat
          simp only [and_self, if_true, hold2, Option.some.injEq] at this
          exact this
        refine ⟨V2, ?_, hd2, ?_⟩
        · have hguard : cx + ((b : Int) - 5) ≥ 0 ∧ cx + ((b : Int) - 5) < s.gridWidth
              ∧ cy + ((a : Int) - 5) ≥ 0 ∧ cy + ((a : Int) - 5) < s.gridHeight :=
            ⟨h1, h2, h3, h4⟩
          simp only [GPUSolver.addForceCell, hguard, and_self, if_true, Int.cast_ofNat]
          rw [if_pos hdist, hm1, Option.some_bind, hm2]
        · intro r c hr hc
          rw [hat2 r c]
          by_cases h : r = (cy + ((a : Int) - 5)).toNat ∧ c = (cx + ((b : Int) - 5)).toNat
          · obtain ⟨rfl, rfl⟩ := h
            have hdist2 : sqrt ((((((cx + ((b : Int) - 5)).toNat : Nat) : Int) - cx)
                * ((((cx + ((b : Int) - 5)).toNat : Nat) : Int) - cx)
                + ((((cy + ((a : Int) - 5)).toNat : Nat) : Int) - cy)
                * ((((cy + ((a : Int) - 5)).toNat : Nat) : Int) - cy) : Int) : ℚ) ≤ 5 := by
              rw [← hdx, ← hdy]; exact hdist
            simp only [and_self, if_true, hv, Option.map_some', hnow, forcedVelocity, hdist2,
              ho2, ho1, Option.some.injEq, Vec.mk.injEq]
            rw [← hdx, ← hdy]
            constructor <;> ring
          · rw [if_neg h, hat1 r c, if_neg h, hinv r c hr hc]
            have hne : ¬ ((r : Int) - cy + 5 = a ∧ (c : Int) - cx + 5 = b) := by
              intro he; apply h; omega
            simp only [hstep r c hne]
      · refine ⟨V, ?_, hd, ?_⟩
        · have hguard : cx + ((b : Int) - 5) ≥ 0 ∧ cx + ((b : Int) - 5) < s.gridWidth
              ∧ cy + ((a : Int) - 5) ≥ 0 ∧ cy + ((a : Int) - 5) < s.gridHeight :=
            ⟨h1, h2, h3, h4⟩
          simp only [GPUSolver.addForceCell, hguard, and_self, if_true, Int.cast_ofNat]
          rw [if_neg hdist]
        · intro r c hr hc
          rw [hinv r c hr hc]
          by_cases h : r = (cy + ((a : Int) - 5)).toNat ∧ c = (cx + ((b : Int) - 5)).toNat
          · obtain ⟨rfl, rfl⟩ := h
            have hdist2 : ¬ sqrt ((((((cx + ((b : Int) - 5)).toNat : Nat) : Int) - cx)
                * ((((cx + ((b : Int) - 5)).toNat : Nat) : Int) - cx)
                + ((((cy + ((a : Int) - 5)).toNat : Nat) : Int) - cy)
                * ((((cy + ((a : Int) - 5)).toNat : Nat) : Int) - cy) : Int) : ℚ) ≤ 5 := by
              rw [← hdx, ← hdy]; exact hdist
            simp only [hv, Option.map_some', hnot, hnow, if_false, if_true, forcedVelocity,
              hdist2]
          · have hne : ¬ ((r : Int) - cy + 5 = a ∧ (c : Int) - cx + 5 = b) := by
              intro he; apply h; omega
            simp only [hstep r c hne]
    · refine ⟨V, ?_, hd, ?_⟩
      · simp only [GPUSolver.addForceCell, hin, if_false]
      · intro r c hr hc
        rw [hinv r c hr hc]
        have hne : ¬ ((r : Int) - cy + 5 = a ∧ (c : Int) - cx + 5 = b) := by
          intro he; apply hin; omega
        simp only [hstep r c hne]
  · intro a V _ ⟨hd, hinv⟩
    refine ⟨hd, fun r c hr hc => ?_⟩
    rw [hinv r c hr hc]
    have hiff : offsetVisited cx cy (a + 1) 0 r c ↔ offsetVisited cx cy a 11 r c := by
      unfold offsetVisited
      constructor <;> intro h <;> omega
    simp only [hiff]

theorem sqrt_intCast (sqrt : ℚ → ℚ) (hnn : ∀ n : Nat, 0 ≤ sqrt n)
    (hle : ∀ n : Nat, sqrt n ≤ 5 → n ≤ 25) (n : Int) (hn : 0 ≤ n) :
    0 ≤ sqrt (n : ℚ) ∧ (sqrt (n : ℚ) ≤ 5 → n ≤ 25) := by
  have e : ((n.toNat : Nat) : ℚ) = (n : ℚ) := by
    rw [← Int.cast_natCast, Int.toNat_of_nonneg hn]
  have h1 := hnn n.toNat
  have h2 := hle n.toNat
  rw [e] at h1 h2
  refine ⟨h1, fun h => ?_⟩
  have := h2 h
  omega

theorem sq_dist_far (dx dy : Int) (h : dx < -5 ∨ 5 < dx ∨ dy < -5 ∨ 5 < dy) :
    25 < dx * dx + dy * dy := by
  have hx : 0 ≤ dx * dx := mul_self_nonneg dx
  have hy : 0 ≤ dy * dy := mul_self_nonneg dy
  rcases h with h | h | h | h <;> nlinarith

/-- C18: `GPUSolver::addForce` on a grid of at least one cell and a velocity texture of the
grid's size never faults, whatever the target `(x, y)`: the target is clamped to a cell
`(cx, cy)` of the grid, and the texture after the call holds, in every texel `(px, py)` of
the grid whose distance `d` from `(cx, cy)` is at most 5, the old velocity plus
`(fx, fy) * 2 * (1 - d/5)`, and in every other texel the old velocity.  The factor
`2 * (1 - d/5)` lies in `[0, 2]` where it is applied, is 0 when `d = 5` and is 2 at the
target cell.  Here `sqrt` stands for `std::sqrt`, of which the proof uses that it is
non-negative, that `sqrt 0 = 0`, and that `sqrt n ≤ 5` only for `n ≤ 25`. -/
theorem addForce_radial (s : GPUSolver) (sqrt : ℚ → ℚ) (x y : Int) (fx fy : ℚ)
    (texture : List ℚ) (hW : 1 ≤ s.gridWidth) (hH : 1 ≤ s.gridHeight)
    (hlen : texture.length = s.gridWidth * s.gridHeight * 2)
    (hnn : ∀ n : Nat, 0 ≤ sqrt n) (h0 : sqrt 0 = 0)
    (hle : ∀ n : Nat, sqrt n ≤ 5 → n ≤ 25) :
    ∃ cx cy : Nat, (cx : Int) = max 0 (min x ((s.gridWidth : Int) - 1)) ∧
      (cy : Int) = max 0 (min y ((s.gridHeight : Int) - 1)) ∧
      cx < s.gridWidth ∧ cy < s.gridHeight ∧
      ∃ texture', s.addForce sqrt x y fx fy texture = some texture' ∧
        texture'.length = s.gridWidth * s.gridHeight * 2 ∧
        ∀ px py, px < s.gridWidth → py < s.gridHeight →
          ∃ v d, texel s.gridWidth texture px py = some v ∧
            d = sqrt ((((px : Int) - cx) * ((px : Int) - cx)
              + ((py : Int) - cy) * ((py : Int) - cy) : Int) : ℚ) ∧
            texel s.gridWidth texture' px py
              = some (if d ≤ 5 then Vec.mk (v.x + fx * (2 * (1 - d / 5)))
                  (v.y + fy * (2 * (1 - d / 5))) else v) ∧
            (d ≤ 5 → 0 ≤ 2 * (1 - d / 5) ∧ 2 * (1 - d / 5) ≤ 2) ∧
            (d = 5 → 2 * (1 - d / 5) = 0) ∧
            (px = cx ∧ py = cy → d = 0 ∧ 2 * (1 - d / 5) = 2) := by
  have hdl := downloadVelocityData_eq s texture hlen
  obtain ⟨V, hV, hdV, hatV⟩ := addForceLoop_spec s sqrt
    (max 0 (min x ((s.gridWidth : Int) - 1))) (max 0 (min y ((s.gridHeight : Int) - 1)))
    fx fy _ (hasDims_tabulate s.gridHeight s.gridWidth (fun y x =>
      Vec.mk (texture.getD ((y * s.gridWidth + x) * 2) 0)
        (texture.getD ((y * s.gridWidth + x) * 2 + 1) 0)))
  obtain ⟨data, hdata, hdlen, htex⟩ := uploadVelocityData_spec s V hdV
  have hadd : s.addForce sqrt x y fx fy texture = some data := by
    simp only [GPUSolver.addForce, hdl, Option.bind_eq_bind, Option.some_bind, hV, hdata]
  generalize hcx : max 0 (min x ((s.gridWidth : Int) - 1)) = cx at hV hatV
  generalize hcy : max 0 (min y ((s.gridHeight : Int) - 1)) = cy at hV hatV
  have hcx0 : 0 ≤ cx ∧ cx < s.gridWidth := by omega
  have hcy0 : 0 ≤ cy ∧ cy < s.gridHeight := by omega
  have ecx : ((cx.toNat : Nat) : Int) = cx := Int.toNat_of_nonneg hcx0.1
  have ecy : ((cy.toNat : Nat) : Int) = cy := Int.toNat_of_nonneg hcy0.1
  refine ⟨cx.toNat, cy.toNat, ecx, ecy, by omega, by omega, data, hadd, hdlen, ?_⟩
  intro px py hpx hpy
  rw [ecx, ecy]
  have hn0 : 0 ≤ ((px : Int) - cx) * ((px : Int) - cx)
      + ((py : Int) - cy) * ((py : Int) - cy) :=
    add_nonneg (mul_self_nonneg _) (mul_self_nonneg _)
  obtain ⟨hd0, hd25⟩ := sqrt_intCast sqrt hnn hle _ hn0
  refine ⟨_, _, texel_eq hlen hpx hpy, rfl, ?_, ?_, ?_, ?_⟩
  · rw [htex py px hpy hpx, hatV py px hpy hpx, at2_tabulate _ hpy hpx]
    simp only [Option.map_some', Option.some.injEq]
    by_cases hvis : offsetVisited cx cy 11 0 py px
    · rw [if_pos hvis]
      rfl
    · rw [if_neg hvis]
      have hfar : ¬ sqrt ((((px : Int) - cx) * ((px : Int) - cx)
          + ((py : Int) - cy) * ((py : Int) - cy) : Int) : ℚ) ≤ 5 := by
        intro hd
        have h25 := hd25 hd
        have hfar := sq_dist_far ((px : Int) - cx) ((py : Int) - cy)
          (by unfold offsetVisited at hvis; omega)
        omega
      rw [if_neg hfar]
  · intro hd
    constructor
    · linarith
    · linarith
  · intro hd
    rw [hd]
    norm_num
  · rintro ⟨h1, h2⟩
    have e : (((px : Int) - cx) * ((px : Int) - cx)
        + ((py : Int) - cy) * ((py : Int) - cy) : Int) = 0 := by
      have e1 : (px : Int) - cx = 0 := by omega
      have e2 : (py : Int) - cy = 0 := by omega
      rw [e1, e2]
      rfl
    rw [e, Int.cast_zero, h0]
    norm_num

theorem sqrtApprox_nonneg (n : Nat) : 0 ≤ sqrtApprox n := by
  rw [sqrtApprox_natCast]
  positivity

theorem sqrtApprox_zero : sqrtApprox 0 = 0 := by
  have e := sqrtApprox_natCast 0
  simpa using e

theorem sqrtApprox_le_five (n : Nat) (h : sqrtApprox n ≤ 5) : n ≤ 25 := by
  rw [sqrtApprox_natCast, div_le_iff₀ (by norm_num)] at h
  have h1 : Nat.sqrt (n * 10000) ≤ 500 := by
    exact_mod_cast (by linarith : ((Nat.sqrt (n * 10000) : Nat) : ℚ) ≤ 500)
  have h2 : Nat.sqrt (n * 10000) < 501 := by omega
  have h3 := Nat.sqrt_lt'.mp h2
  norm_num at h3
  omega

/-- Witness of C18: a force `(1, 1)` aimed at `(7, -3)`, outside the grid of 3 by 2 cells, is
applied around the clamped target `(2, 0)`, whose velocity `(5, 6)` becomes `(7, 8)`. -/
theorem addForce_radial_witness :
    (1 ≤ smallSolver.gridWidth ∧ 1 ≤ smallSolver.gridHeight ∧
      smallTexture.length = smallSolver.gridWidth * smallSolver.gridHeight * 2 ∧
      (∀ n : Nat, 0 ≤ sqrtApprox n) ∧ sqrtApprox 0 = 0 ∧
      (∀ n : Nat, sqrtApprox n ≤ 5 → n ≤ 25)) ∧
    ∃ texture', smallSolver.addForce sqrtApprox 7 (-3) 1 1 smallTexture = some texture' ∧
      texel 3 smallTexture 2 0 = some (Vec.mk 5 6) ∧
      texel 3 texture' 2 0 = some (Vec.mk 7 8) := by
  refine ⟨⟨by decide, by decide, by decide, sqrtApprox_nonneg, sqrtApprox_zero,
    sqrtApprox_le_five⟩, ?_⟩
  obtain ⟨cx, cy, hcx, hcy, _, _, texture', hadd, _, hcells⟩ :=
    addForce_radial smallSolver sqrtApprox 7 (-3) 1 1 smallTexture (by decide) (by decide)
      (by decide) sqrtApprox_nonneg sqrtApprox_zero sqrtApprox_le_five
  have ex : cx = 2 := by
    have : ((smallSolver.gridWidth : Nat) : Int) = 3 := rfl
    rw [this] at hcx
    omega
  have ey : cy = 0 := by
    have : ((smallSolver.gridHeight : Nat) : Int) = 2 := rfl
    rw [this] at hcy
    omega
  subst ex ey
  obtain ⟨v, d, hv, _, hnew, _, _, htarget⟩ := hcells 2 0 (by decide) (by decide)
  have hold : texel 3 smallTexture 2 0 = some (Vec.mk 5 6) := by decide!
  have hd : d = 0 := (htarget ⟨rfl, rfl⟩).1
  have hw : smallSolver.gridWidth = 3 := rfl
  rw [hw] at hv hnew
  rw [hold] at hv
  have hv' : v = Vec.mk 5 6 := (Option.some.inj hv).symm
  refine ⟨texture', hadd, hold, ?_⟩
  rw [hnew, hd, hv']
  norm_num

/-! ## Maximum principle of the diffusion (C27) -/

theorem mem_of_at2 {α : Type} {F : List (List α)} {i j : Nat} {v : α}
    (h : at2 F i j = some v) : ∃ row ∈ F, v ∈ row := by
  unfold at2 at h
  cases hr : F[i]? with
  | none => simp [hr] at h
  | some row =>
    simp only [hr, Option.some_bind] at h
    exact ⟨row, List.getElem?_mem hr, List.getElem?_mem h⟩

theorem fieldWithin_at2 {comp : Vec → ℚ} {m M : ℚ} {F : List (List Vec)}
    (h : fieldWithin comp m M F) {i j : Nat} {v : Vec} (hv : at2 F i j = some v) :
    m ≤ comp v ∧ comp v ≤ M := by
  obtain ⟨row, hrow, hmem⟩ := mem_of_at2 hv
  exact h row hrow v hmem

theorem fieldWithin_tabulate {comp : Vec → ℚ} {m M : ℚ} {R C : Nat} {f : Nat → Nat → Vec}
    (h : ∀ i j, i < R → j < C → m ≤ comp (f i j) ∧ comp (f i j) ≤ M) :
    fieldWithin comp m M (tabulate R C f) := by
  intro row hrow v hv
  simp only [tabulate, List.mem_map, List.mem_range] at hrow
  obtain ⟨i, hi, rfl⟩ := hrow
  simp only [List.mem_map, List.mem_range] at hv
  obtain ⟨j, hj, rfl⟩ := hv
  exact h i j hi hj

theorem fieldWithin_sampleV {comp : Vec → ℚ} {m M : ℚ} {W H : Nat} (hW : 1 ≤ W) (hH : 1 ≤ H)
    {F : List (List Vec)} (hF : hasDims F W H) (h : fieldWithin comp m M F) (i j : Int) :
    m ≤ comp (sampleV W H F i j) ∧ comp (sampleV W H F i j) ≤ M := by
  obtain ⟨v, hv⟩ := at2_of_hasDims hF (clampIdx_lt hW i) (clampIdx_lt hH j)
  have hs : sampleV W H F i j = v := by simp [sampleV, hv]
  rw [hs]
  exact fieldWithin_at2 h hv

theorem jacobi_average_bounds {m M alpha b l r u d : ℚ} (hα : 0 ≤ alpha)
    (hb : m ≤ b ∧ b ≤ M) (hl : m ≤ l ∧ l ≤ M) (hr : m ≤ r ∧ r ≤ M) (hu : m ≤ u ∧ u ≤ M)
    (hd : m ≤ d ∧ d ≤ M) :
    m ≤ (b + alpha * (l + r + u + d)) / (1 + 4 * alpha)
      ∧ (b + alpha * (l + r + u + d)) / (1 + 4 * alpha) ≤ M := by
  have hpos : 0 < 1 + 4 * alpha := by linarith
  constructor
  · rw [le_div_iff₀ hpos]
    nlinarith [mul_nonneg hα (sub_nonneg.mpr hl.1), mul_nonneg hα (sub_nonneg.mpr hr.1),
      mul_nonneg hα (sub_nonneg.mpr hu.1), mul_nonneg hα (sub_nonneg.mpr hd.1)]
  · rw [div_le_iff₀ hpos]
    nlinarith [mul_nonneg hα (sub_nonneg.mpr hl.2), mul_nonneg hα (sub_nonneg.mpr hr.2),
      mul_nonneg hα (sub_nonneg.mpr hu.2), mul_nonneg hα (sub_nonneg.mpr hd.2)]

theorem fieldWithin_jacobiPass {comp : Vec → ℚ} (hcomp : comp = Vec.x ∨ comp = Vec.y)
    {m M alpha : ℚ} (hα : 0 ≤ alpha) {W H : Nat} {before cur : List (List Vec)}
    (hb : hasDims before W H) (hc : hasDims cur W H) (hbw : fieldWithin comp m M before)
    (hcw : fieldWithin comp m M cur) :
    fieldWithin comp m M (jacobiPass W H alpha before cur) := by
  apply fieldWithin_tabulate
  intro i j hi hj
  have hW : 1 ≤ W := by omega
  have hH : 1 ≤ H := by omega
  obtain ⟨b, hbv⟩ := at2_of_hasDims hb hi hj
  have hbb := fieldWithin_at2 hbw hbv
  have hl := fieldWithin_sampleV hW hH hc hcw ((i : Int) - 1) j
  have hr := fieldWithin_sampleV hW hH hc hcw ((i : Int) + 1) j
  have hu := fieldWithin_sampleV hW hH hc hcw i ((j : Int) - 1)
  have hd := fieldWithin_sampleV hW hH hc hcw i ((j : Int) + 1)
  rcases hcomp with rfl | rfl
  · simp only [hbv, Option.getD_some]
    exact jacobi_average_bounds hα hbb hl hr hu hd
  · simp only [hbv, Option.getD_some]
    exact jacobi_average_bounds hα hbb hl hr hu hd

theorem fieldWithin_jacobiIterate {comp : Vec → ℚ} (hcomp : comp = Vec.x ∨ comp = Vec.y)
    {m M alpha : ℚ} (hα : 0 ≤ alpha) {W H : Nat} {before cur : List (List Vec)}
    (hb : hasDims before W H) (hc : hasDims cur W H) (hbw : fieldWithin comp m M before)
    (hcw : fieldWithin comp m M cur) (k : Nat) :
    fieldWithin comp m M ((jacobiPass W H alpha before)^[k] cur) := by
  induction k with
  | zero => exact hcw
  | succ k ih =>
    rw [Function.iterate_succ_apply']
    exact fieldWithin_jacobiPass hcomp hα hb
      (hasDims_iterate _ (hasDims_jacobiPass W H alpha before) hc k) hbw ih

/-- C21, counterexample: two calls of `grid::projection` on grids of 2 by 2 cells entered with
the same velocity field (at rest), one with the pressure zero and one with the pressure 1
left in cell `[0][0]`, return different velocities and different pressures. -/
theorem projection_not_reset :
    (grid.init 2 2 grid.fresh).currentVelocities = leftoverExample.currentVelocities ∧
    (grid.projection 2 2 (grid.init 2 2 grid.fresh)).bind
        (fun g => (at2 g.currentVelocities 0 0).bind
          (fun v => (at2 g.pressureForces 0 0).map (fun p => (v, p))))
      = some (Vec.mk 0 0, 0) ∧
    (grid.projection 2 2 leftoverExample).bind
        (fun g => (at2 g.currentVelocities 0 0).bind
          (fun v => (at2 g.pressureForces 0 0).map (fun p => (v, p))))
      = some (Vec.mk (1048577 / 4398046511104) (-1048577 / 4398046511104),
          183252462251 / 1099511627776) := by
  decide!

/-- C21, amended: the velocity and the pressure that `grid::projection` returns depend only
on the velocity field and on the pressure field at entry: the pressure solve starts from the
values that `pressureForces` holds at entry, so two calls entered with the same velocity
field and the same pressure field return the same velocity and pressure, whatever the other
members hold. -/
theorem projection_depends_on_entry (n : Nat) (g1 g2 : grid)
    (hc : hasDims g1.currentVelocities n n) (hp : hasDims g1.pressureForces n n)
    (hv : g1.currentVelocities = g2.currentVelocities)
    (hq : g1.pressureForces = g2.pressureForces) :
    ∃ r1 r2, grid.projection n n g1 = some r1 ∧ grid.projection n n g2 = some r2 ∧
      r1.currentVelocities = r2.currentVelocities ∧ r1.pressureForces = r2.pressureForces ∧
      r1.pressureForces
        = (fun p => halfSweepSpec n 1 (divergenceSpec n n g1.currentVelocities)
            (halfSweepSpec n 0 (divergenceSpec n n g1.currentVelocities) p))^[20]
          g1.pressureForces := by
  refine ⟨_, _, projection_eq n g1 hc hp, projection_eq n g2 (hv ▸ hc) (hq ▸ hp), ?_, ?_, rfl⟩
  · simp only [hv, hq]
  · simp only [hv, hq]

/-- Witness of C21 (amended): the grid `leftoverExample` and the same grid with another
time step. -/
theorem projection_depends_on_entry_witness :
    ∃ r1 r2, grid.projection 2 2 leftoverExample = some r1 ∧
      grid.projection 2 2 { leftoverExample with timeStep := 1 } = some r2 ∧
      r1.currentVelocities = r2.currentVelocities ∧ r1.pressureForces = r2.pressureForces :=
  (projection_depends_on_entry 2 leftoverExample { leftoverExample with timeStep := 1 }
    (by decide) (by decide) rfl rfl).imp
    (fun _ h => h.imp (fun _ h => ⟨h.1, h.2.1, h.2.2.1, h.2.2.2.1⟩))

theorem sampleP_replicate {W H : Nat} (hW : 1 ≤ W) (hH : 1 ≤ H) (c : ℚ) (i j : Int) :
    sampleP W H (List.replicate W (List.replicate H c)) i j = c := by
  simp [sampleP, at2_replicate c (clampIdx_lt hW i) (clampIdx_lt hH j)]

theorem tabulate_const {α : Type} (R C : Nat) (c : α) :
    tabulate R C (fun _ _ => c) = List.replicate R (List.replicate C c) := by
  apply ext_of_hasDims (hasDims_tabulate _ _ _) (hasDims_replicate R C c)
  intro i j hi hj
  rw [at2_tabulate _ hi hj, at2_replicate c hi hj]

theorem halfSweepSpec_zero (n par : Nat) :
    halfSweepSpec n par (List.replicate n (List.replicate n 0))
      (List.replicate n (List.replicate n 0)) = List.replicate n (List.replicate n 0) := by
  apply ext_of_hasDims (hasDims_tabulate _ _ _) (hasDims_replicate n n 0)
  intro i j hi hj
  have hn : 1 ≤ n := by omega
  rw [at2_tabulate _ hi hj, at2_replicate 0 hi hj]
  simp [sampleP_replicate hn hn]

theorem sweeps_zero (n k : Nat) :
    (sweepSpec n (List.replicate n (List.replicate n 0)))^[k]
      (List.replicate n (List.replicate n 0)) = List.replicate n (List.replicate n 0) := by
  induction k with
  | zero => rfl
  | succ k ih =>
    rw [Function.iterate_succ_apply', ih, sweepSpec, halfSweepSpec_zero, halfSweepSpec_zero]

theorem gradientSpec_zero (n : Nat) (cur : List (List Vec)) (hc : hasDims cur n n) :
    gradientSpec n (List.replicate n (List.replicate n 0)) cur = cur := by
  apply ext_of_hasDims (hasDims_tabulate _ _ _) hc
  intro i j hi hj
  have hn : 1 ≤ n := by omega
  obtain ⟨v, hv⟩ := at2_of_hasDims hc hi hj
  rw [at2_tabulate _ hi hj, hv]
  simp [sampleP_replicate hn hn]

theorem divergenceSpec_uniform (n : Nat) (c : Vec) :
    divergenceSpec n n (List.replicate n (List.replicate n c))
      = List.replicate n (List.replicate n 0) := by
  apply ext_of_hasDims (hasDims_tabulate _ _ _) (hasDims_replicate n n 0)
  intro i j hi hj
  have hn : 1 ≤ n := by omega
  rw [at2_tabulate _ hi hj, at2_replicate 0 hi hj]
  simp [sampleV_replicate hn hn]

theorem projection_of_zero_divergence (n : Nat) (g : grid)
    (hc : hasDims g.currentVelocities n n)
    (hp : g.pressureForces = List.replicate n (List.replicate n 0))
    (hdiv : divergenceSpec n n g.currentVelocities = List.replicate n (List.replicate n 0)) :
    grid.projection n n g = some g := by
  have hpd : hasDims g.pressureForces n n := hp ▸ hasDims_replicate n n 0
  rw [projection_eq n g hc hpd, hdiv, hp, sweeps_zero, gradientSpec_zero n _ hc]
  cases g
  simp only at hp
  simp only [hp]

/-- C30: `grid::projection` entered with the pressure zero in every cell and a velocity field
whose divergence (the array that the divergence pass of `projection` computes) is zero in
every cell returns the state unchanged: the pressure stays zero and the velocity field is
the same.  Every uniform velocity field is such a field. -/
theorem projection_fixes_divergence_free (n : Nat) (g : grid)
    (hc : hasDims g.currentVelocities n n)
    (hp : g.pressureForces = List.replicate n (List.replicate n 0)) :
    (grid.divergencePass n n g.currentVelocities = some (List.replicate n (List.replicate n 0))
      → grid.projection n n g = some g) ∧
    (∀ c : Vec, g.currentVelocities = List.replicate n (List.replicate n c) →
      grid.divergencePass n n g.currentVelocities
          = some (List.replicate n (List.replicate n 0)) ∧
        grid.projection n n g = some g) := by
  constructor
  · intro hdiv
    rw [divergencePass_eq n n _ hc] at hdiv
    exact projection_of_zero_divergence n g hc hp (Option.some.inj hdiv)
  · intro c hu
    have hdiv : divergenceSpec n n g.currentVelocities
        = List.replicate n (List.replicate n 0) := by
      rw [hu]
      exact divergenceSpec_uniform n c
    refine ⟨?_, projection_of_zero_divergence n g hc hp hdiv⟩
    rw [divergencePass_eq n n _ hc, hdiv]

/-- Witness of C30: the grid of 2 by 2 cells after `init`, at rest with zero pressure. -/
theorem projection_fixes_divergence_free_witness :
    grid.projection 2 2 (grid.init 2 2 grid.fresh) = some (grid.init 2 2 grid.fresh) :=
  ((projection_fixes_divergence_free 2 (grid.init 2 2 grid.fresh) (by decide) rfl).2
    (Vec.mk 0 0) rfl).2

/-! ## Advection: closed form, index safety, bounds (C28, C29) -/

theorem atI_of_hasDims {α : Type} {F : List (List α)} {R C : Nat} (h : hasDims F R C)
    {a b : Int} (ha0 : 0 ≤ a) (ha : a < R) (hb0 : 0 ≤ b) (hb : b < C) :
    ∃ v, atI F a b = some v ∧ at2 F a.toNat b.toNat = some v := by
  obtain ⟨v, hv⟩ := at2_of_hasDims h (i := a.toNat) (j := b.toNat) (by omega) (by omega)
  exact ⟨v, by simp [atI, ha0, hb0, hv], hv⟩

theorem backtraceX_range {W : Nat} (hW : 1 ≤ W) (dt : ℚ) (v : Vec) (j : Nat) :
    0 ≤ backtraceX W dt v j ∧ backtraceX W dt v j ≤ (W : ℚ) - 1 := by
  have h1 : (1 : ℚ) ≤ W := by exact_mod_cast hW
  unfold backtraceX
  constructor
  · exact le_max_right _ _
  · exact max_le (min_le_right _ _) (by linarith)

theorem backtraceY_range {H : Nat} (hH : 1 ≤ H) (dt : ℚ) (v : Vec) (i : Nat) :
    0 ≤ backtraceY H dt v i ∧ backtraceY H dt v i ≤ (H : ℚ) - 1 := by
  have h1 : (1 : ℚ) ≤ H := by exact_mod_cast hH
  unfold backtraceY
  constructor
  · exact le_max_right _ _
  · exact max_le (min_le_right _ _) (by linarith)

theorem floor_range {n : Nat} {q : ℚ} (h0 : 0 ≤ q) (h1 : q ≤ (n : ℚ) - 1) :
    0 ≤ ⌊q⌋ ∧ ⌊q⌋ ≤ (n : Int) - 1 := by
  constructor
  · exact Int.floor_nonneg.mpr h0
  · have h2 : (⌊q⌋ : ℚ) ≤ (((n : Int) - 1 : Int) : ℚ) := by
      push_cast
      exact le_trans (Int.floor_le q) h1
    exact_mod_cast h2

theorem advectionLow_range {n : Nat} (hn : 1 ≤ n) (dt : ℚ) (F : List (List Vec)) (i j : Nat) :
    (0 ≤ advectionLowX n dt F i j ∧ advectionLowX n dt F i j < n) ∧
    (0 ≤ advectionLowY n dt F i j ∧ advectionLowY n dt F i j < n) := by
  have hx := backtraceX_range hn dt ((at2 F i j).getD Vec.zero) j
  have hy := backtraceY_range hn dt ((at2 F i j).getD Vec.zero) i
  have fx := floor_range hx.1 hx.2
  have fy := floor_range hy.1 hy.2
  unfold advectionLowX advectionLowY
  omega

theorem advection_weights (W H : Nat) (dt : ℚ) (F : List (List Vec)) (i j : Nat) :
    (0 ≤ advectionS W dt F i j ∧ advectionS W dt F i j < 1) ∧
    (0 ≤ advectionT H dt F i j ∧ advectionT H dt F i j < 1) := by
  unfold advectionS advectionT
  refine ⟨⟨?_, ?_⟩, ?_, ?_⟩
  · exact sub_nonneg.mpr (Int.floor_le _)
  · have := Int.lt_floor_add_one (backtraceX W dt ((at2 F i j).getD Vec.zero) j)
    linarith
  · exact sub_nonneg.mpr (Int.floor_le _)
  · have := Int.lt_floor_add_one (backtraceY H dt ((at2 F i j).getD Vec.zero) i)
    linarith

theorem advectionCell_eq (n : Nat) (g s : grid) (hc : hasDims g.currentVelocities n n)
    (hs : s = { g with nextVelocities := s.nextVelocities })
    (hd : hasDims s.nextVelocities n n) {i j : Nat} (hi : i < n) (hj : j < n) :
    ∃ nv, set2 s.nextVelocities i j (advectedCell n n g.timeStep g.currentVelocities i j)
        = some nv ∧
      grid.advectionCell n n i j s = some { s with nextVelocities := nv } := by
  have hn : 1 ≤ n := by omega
  have hcur : s.currentVelocities = g.currentVelocities := by rw [hs]
  have hts : s.timeStep = g.timeStep := by rw [hs]
  obtain ⟨v, hv⟩ := at2_of_hasDims hc hi hj
  obtain ⟨⟨hx0, hx1⟩, hy0, hy1⟩ := advectionLow_range hn g.timeStep g.currentVelocities i j
  obtain ⟨c00, h00, _⟩ := atI_of_hasDims hc hx0 hx1 hy0 hy1
  obtain ⟨c10, h10, _⟩ := atI_of_hasDims hc
    (a := min (advectionLowX n g.timeStep g.currentVelocities i j + 1) ((n : Int) - 1))
    (b := advectionLowY n g.timeStep g.currentVelocities i j) (by omega) (by omega) hy0 hy1
  obtain ⟨c01, h01, _⟩ := atI_of_hasDims hc
    (a := advectionLowX n g.timeStep g.currentVelocities i j)
    (b := min (advectionLowY n g.timeStep g.currentVelocities i j + 1) ((n : Int) - 1))
    hx0 hx1 (by omega) (by omega)
  obtain ⟨c11, h11, _⟩ := atI_of_hasDims hc
    (a := min (advectionLowX n g.timeStep g.currentVelocities i j + 1) ((n : Int) - 1))
    (b := min (advectionLowY n g.timeStep g.currentVelocities i j + 1) ((n : Int) - 1))
    (by omega) (by omega) (by omega) (by omega)
  obtain ⟨old, hold⟩ := at2_of_hasDims hd hi hj
  obtain ⟨nv, hnv⟩ := set2_some hold
    (advectedCell n n g.timeStep g.currentVelocities i j)
  refine ⟨nv, hnv, ?_⟩
  have hval : advectedCell n n g.timeStep g.currentVelocities i j = Vec.mk
      ((1 - advectionS n g.timeStep g.currentVelocities i j)
          * (1 - advectionT n g.timeStep g.currentVelocities i j) * c00.x
        + advectionS n g.timeStep g.currentVelocities i j
          * (1 - advectionT n g.timeStep g.currentVelocities i j) * c10.x
        + (1 - advectionS n g.timeStep g.currentVelocities i j)
          * advectionT n g.timeStep g.currentVelocities i j * c01.x
        + advectionS n g.timeStep g.currentVelocities i j
          * advectionT n g.timeStep g.currentVelocities i j * c11.x)
      ((1 - advectionS n g.timeStep g.currentVelocities i j)
          * (1 - advectionT n g.timeStep g.currentVelocities i j) * c00.y
        + advectionS n g.timeStep g.currentVelocities i j
          * (1 - advectionT n g.timeStep g.currentVelocities i j) * c10.y
        + (1 - advectionS n g.timeStep g.currentVelocities i j)
          * advectionT n g.timeStep g.currentVelocities i j * c01.y
        + advectionS n g.timeStep g.currentVelocities i j
          * advectionT n g.timeStep g.currentVelocities i j * c11.y) := by
    simp only [advectedCell, h00, h10, h01, h11, Option.getD_some]
  rw [hval] at hnv
  simp only [advectionLowX, advectionLowY, advectionS, advectionT, backtraceX, backtraceY, hv,
    Option.getD_some] at h00 h10 h01 h11 hnv
  simp only [grid.advectionCell, hcur, hts, hv, Option.bind_eq_bind, Option.some_bind, h00, h10,
    h01, h11, hnv, Option.pure_def]

theorem advection_eq (n : Nat) (g : grid) (hc : hasDims g.currentVelocities n n)
    (hn : hasDims g.nextVelocities n n) :
    grid.advection n n g = some { g with
      currentVelocities := tabulate n n (advectedCell n n g.timeStep g.currentVelocities)
      nextVelocities := tabulate n n (advectedCell n n g.timeStep g.currentVelocities) } := by
  obtain ⟨t, ht, hP, htab⟩ := inplace_loop n n (fun i j => grid.advectionCell n n i j)
    (fun s => s.nextVelocities) (fun s => s = { g with nextVelocities := s.nextVelocities })
    (advectedCell n n g.timeStep g.currentVelocities) g rfl hn
    (by
      intro i j s hi hj hPs hds _
      obtain ⟨nv, hnv, hcell⟩ := advectionCell_eq n g s hc hPs hds hi hj
      refine ⟨{ s with nextVelocities := nv }, hcell, ?_, hasDims_set2 hds hnv, ?_⟩
      · rw [hPs]
      · intro r c
        exact at2_set2 hnv r c)
  unfold grid.advection
  rw [ht, hP, htab]
  rfl


/-- C29: index safety of `grid::advection` on a square grid of `n ≥ 1` cells a side whose
velocity arrays are allocated with `n` rows of `n` entries (as `grid::init` does for
`width = height`).  For every cell `[i][j]` and every velocity field the indices `lowX` and
`lowY`, `min(lowX + 1, width - 1)` and `min(lowY + 1, height - 1)` lie in `[0, n)`, the four
reads are inside the array, and `grid::advection` as a whole returns without a fault. -/
theorem advection_index_safety (n : Nat) (g : grid) (hn1 : 1 ≤ n)
    (hc : hasDims g.currentVelocities n n) (hn : hasDims g.nextVelocities n n) :
    (∀ i j, i < n → j < n →
      ∃ lowX lowY : Int, lowX = advectionLowX n g.timeStep g.currentVelocities i j ∧
        lowY = advectionLowY n g.timeStep g.currentVelocities i j ∧
        (0 ≤ lowX ∧ lowX < n) ∧ (0 ≤ lowY ∧ lowY < n) ∧
        (0 ≤ min (lowX + 1) ((n : Int) - 1) ∧ min (lowX + 1) ((n : Int) - 1) < n) ∧
        (0 ≤ min (lowY + 1) ((n : Int) - 1) ∧ min (lowY + 1) ((n : Int) - 1) < n) ∧
        (atI g.currentVelocities lowX lowY).isSome = true ∧
        (atI g.currentVelocities (min (lowX + 1) ((n : Int) - 1)) lowY).isSome = true ∧
        (atI g.currentVelocities lowX (min (lowY + 1) ((n : Int) - 1))).isSome = true ∧
        (atI g.currentVelocities (min (lowX + 1) ((n : Int) - 1))
          (min (lowY + 1) ((n : Int) - 1))).isSome = true) ∧
    ∃ g', grid.advection n n g = some g' := by
  refine ⟨?_, _, advection_eq n g hc hn⟩
  intro i j _ _
  obtain ⟨⟨hx0, hx1⟩, hy0, hy1⟩ := advectionLow_range hn1 g.timeStep g.currentVelocities i j
  have hx2 : 0 ≤ min (advectionLowX n g.timeStep g.currentVelocities i j + 1) ((n : Int) - 1)
      ∧ min (advectionLowX n g.timeStep g.currentVelocities i j + 1) ((n : Int) - 1) < n := by
    omega
  have hy2 : 0 ≤ min (advectionLowY n g.timeStep g.currentVelocities i j + 1) ((n : Int) - 1)
      ∧ min (advectionLowY n g.timeStep g.currentVelocities i j + 1) ((n : Int) - 1) < n := by
    omega
  obtain ⟨c00, h00, _⟩ := atI_of_hasDims hc hx0 hx1 hy0 hy1
  obtain ⟨c10, h10, _⟩ := atI_of_hasDims hc hx2.1 hx2.2 hy0 hy1
  obtain ⟨c01, h01, _⟩ := atI_of_hasDims hc hx0 hx1 hy2.1 hy2.2
  obtain ⟨c11, h11, _⟩ := atI_of_hasDims hc hx2.1 hx2.2 hy2.1 hy2.2
  exact ⟨_, _, rfl, rfl, ⟨hx0, hx1⟩, ⟨hy0, hy1⟩, hx2, hy2, by rw [h00]; rfl, by rw [h10]; rfl,
    by rw [h01]; rfl, by rw [h11]; rfl⟩

/-- Witness of C29: the configured grid of 256 by 256 cells after `init`. -/
theorem advection_index_safety_witness :
    ∃ g', grid.advection 256 256 (grid.init 256 256 grid.fresh) = some g' :=
  (advection_index_safety 256 (grid.init 256 256 grid.fresh) (by decide)
    (hasDims_replicate 256 256 (Vec.mk 0 0)) (hasDims_replicate 256 256 (Vec.mk 0 0))).2

theorem bilinear_bounds {m M s t a b c d : ℚ} (hs : 0 ≤ s ∧ s < 1) (ht : 0 ≤ t ∧ t < 1)
    (ha : m ≤ a ∧ a ≤ M) (hb : m ≤ b ∧ b ≤ M) (hc : m ≤ c ∧ c ≤ M) (hd : m ≤ d ∧ d ≤ M) :
    m ≤ (1 - s) * (1 - t) * a + s * (1 - t) * b + (1 - s) * t * c + s * t * d ∧
      (1 - s) * (1 - t) * a + s * (1 - t) * b + (1 - s) * t * c + s * t * d ≤ M := by
  have w1 : 0 ≤ (1 - s) * (1 - t) := mul_nonneg (by linarith) (by linarith)
  have w2 : 0 ≤ s * (1 - t) := mul_nonneg hs.1 (by linarith)
  have w3 : 0 ≤ (1 - s) * t := mul_nonneg (by linarith) ht.1
  have w4 : 0 ≤ s * t := mul_nonneg hs.1 ht.1
  constructor
  · nlinarith [mul_nonneg w1 (sub_nonneg.mpr ha.1), mul_nonneg w2 (sub_nonneg.mpr hb.1),
      mul_nonneg w3 (sub_nonneg.mpr hc.1), mul_nonneg w4 (sub_nonneg.mpr hd.1)]
  · nlinarith [mul_nonneg w1 (sub_nonneg.mpr ha.2), mul_nonneg w2 (sub_nonneg.mpr hb.2),
      mul_nonneg w3 (sub_nonneg.mpr hc.2), mul_nonneg w4 (sub_nonneg.mpr hd.2)]

theorem fieldWithin_advected {comp : Vec → ℚ} (hcomp : comp = Vec.x ∨ comp = Vec.y)
    {m M : ℚ} {n : Nat} (dt : ℚ) {F : List (List Vec)} (hF : hasDims F n n)
    (hw : fieldWithin comp m M F) :
    fieldWithin comp m M (tabulate n n (advectedCell n n dt F)) := by
  apply fieldWithin_tabulate
  intro i j hi hj
  have hn1 : 1 ≤ n := by omega
  obtain ⟨⟨hx0, hx1⟩, hy0, hy1⟩ := advectionLow_range hn1 dt F i j
  obtain ⟨hs, ht⟩ := advection_weights n n dt F i j
  obtain ⟨c00, h00, a00⟩ := atI_of_hasDims hF hx0 hx1 hy0 hy1
  obtain ⟨c10, h10, a10⟩ := atI_of_hasDims hF
    (a := min (advectionLowX n dt F i j + 1) ((n : Int) - 1))
    (b := advectionLowY n dt F i j) (by omega) (by omega) hy0 hy1
  obtain ⟨c01, h01, a01⟩ := atI_of_hasDims hF (a := advectionLowX n dt F i j)
    (b := min (advectionLowY n dt F i j + 1) ((n : Int) - 1)) hx0 hx1 (by omega) (by omega)
  obtain ⟨c11, h11, a11⟩ := atI_of_hasDims hF
    (a := min (advectionLowX n dt F i j + 1) ((n : Int) - 1))
    (b := min (advectionLowY n dt F i j + 1) ((n : Int) - 1))
    (by omega) (by omega) (by omega) (by omega)
  have b00 := fieldWithin_at2 hw a00
  have b10 := fieldWithin_at2 hw a10
  have b01 := fieldWithin_at2 hw a01
  have b11 := fieldWithin_at2 hw a11
  rcases hcomp with rfl | rfl
  · simp only [advectedCell, h00, h10, h01, h11, Option.getD_some]
    exact bilinear_bounds hs ht b00 b10 b01 b11
  · simp only [advectedCell, h00, h10, h01, h11, Option.getD_some]
    exact bilinear_bounds hs ht b00 b10 b01 b11

theorem advected_uniform (n : Nat) (dt : ℚ) (c : Vec) :
    tabulate n n (advectedCell n n dt (List.replicate n (List.replicate n c)))
      = List.replicate n (List.replicate n c) := by
  apply ext_of_hasDims (hasDims_tabulate _ _ _) (hasDims_replicate n n c)
  intro i j hi hj
  have hn1 : 1 ≤ n := by omega
  have hF := hasDims_replicate n n c
  have hall : ∀ a b : Int, 0 ≤ a → a < n → 0 ≤ b → b < n →
      atI (List.replicate n (List.replicate n c)) a b = some c := by
    intro a b ha0 ha hb0 hb
    have h1 : a.toNat < n := by omega
    have h2 : b.toNat < n := by omega
    simp [atI, ha0, hb0, at2_replicate c h1 h2]
  obtain ⟨⟨hx0, hx1⟩, hy0, hy1⟩ :=
    advectionLow_range hn1 dt (List.replicate n (List.replicate n c)) i j
  rw [at2_tabulate _ hi hj, at2_replicate c hi hj]
  simp only [advectedCell, hall _ _ hx0 hx1 hy0 hy1,
    hall _ _ (by omega : 0 ≤ min (advectionLowX n dt (List.replicate n (List.replicate n c))
      i j + 1) ((n : Int) - 1)) (by omega) hy0 hy1,
    hall _ _ hx0 hx1 (by omega : 0 ≤ min (advectionLowY n dt
      (List.replicate n (List.replicate n c)) i j + 1) ((n : Int) - 1)) (by omega),
    hall _ _ (by omega : 0 ≤ min (advectionLowX n dt (List.replicate n (List.replicate n c))
      i j + 1) ((n : Int) - 1)) (by omega)
      (by omega : 0 ≤ min (advectionLowY n dt (List.replicate n (List.replicate n c)) i j + 1)
        ((n : Int) - 1)) (by omega),
    Option.getD_some, Option.some.injEq]
  cases c
  simp only [Vec.mk.injEq]
  constructor <;> ring

/-- C26, counterexample: on the configured grid of 256 by 256 cells at rest,
`grid::forces` changes the cell `[116][0]` (first index in the band) to `(1, 0)` and leaves
the cell `[0][116]` (second index in the band) at `(0, 0)`: the band is selected by the first
array index.  `grid::advection` and `grid::projection` take the second index as the
horizontal coordinate: on `shiftExample` the cell `[1][2]`, of velocity `(2, 0)` with
`dt = 0.5`, receives the velocity `(4, 0)` of the cell `[1][1]`, one step back in the second
index, and the divergence of the cell `[1][0]` is `-0.5 * (4 - 0)`, the difference of the `x`
components of its neighbours in the second index. -/
theorem forces_band_first_index :
    (grid.forces 256 256 (grid.init 256 256 grid.fresh)).bind
        (fun g => at2 g.currentVelocities 116 0) = some (Vec.mk 1 0) ∧
    (grid.forces 256 256 (grid.init 256 256 grid.fresh)).bind
        (fun g => at2 g.currentVelocities 0 116) = some (Vec.mk 0 0) ∧
    (grid.advection 3 3 shiftExample).bind (fun g => at2 g.currentVelocities 1 2)
      = some (Vec.mk 4 0) ∧
    (grid.divergencePass 3 3 shiftExample.currentVelocities).bind (fun d => at2 d 1 0)
      = some (-2) := by
  have hf := forces_eq 256 256 (grid.init 256 256 grid.fresh)
    (hasDims_replicate 256 256 (Vec.mk 0 0))
  have h0 : (grid.init 256 256 grid.fresh).currentVelocities
      = List.replicate 256 (List.replicate 256 (Vec.mk 0 0)) := rfl
  refine ⟨?_, ?_, by decide!, by decide!⟩
  · rw [hf]
    simp only [Option.some_bind]
    rw [at2_tabulate _ (by decide) (by decide), h0,
      at2_replicate _ (by decide) (by decide)]
    decide!
  · rw [hf]
    simp only [Option.some_bind]
    rw [at2_tabulate _ (by decide) (by decide), h0,
      at2_replicate _ (by decide) (by decide)]
    decide!

/-! ## Coverage of the grid by a tiled dispatch (C25) -/

theorem mem_invocations (gx gy x y : Nat) :
    (x, y) ∈ invocations gx gy ↔ x < 16 * gx ∧ y < 16 * gy := by
  simp only [invocations, List.mem_flatMap, List.mem_map, List.mem_range, Prod.mk.injEq]
  constructor
  · rintro ⟨wy, hwy, wx, hwx, ly, hly, lx, hlx, rfl, rfl⟩
    omega
  · rintro ⟨hx, hy⟩
    exact ⟨y / 16, by omega, x / 16, by omega, y % 16, by omega, x % 16, by omega, by omega,
      by omega⟩

theorem nodup_invocations (gx gy : Nat) : (invocations gx gy).Nodup := by
  unfold invocations
  rw [List.nodup_flatMap]
  refine ⟨fun wy _ => ?_, ?_⟩
  · rw [List.nodup_flatMap]
    refine ⟨fun wx _ => ?_, ?_⟩
    · rw [List.nodup_flatMap]
      refine ⟨fun ly _ => ?_, ?_⟩
      · apply List.Nodup.map_on _ (List.nodup_range 16)
        intro a _ b _ h
        simp only [Prod.mk.injEq] at h
        omega
      · apply (List.nodup_range 16).imp
        intro a b hab p hp hq
        simp only [List.mem_map, List.mem_range] at hp hq
        obtain ⟨l1, _, rfl⟩ := hp
        obtain ⟨l2, _, h2⟩ := hq
        simp only [Prod.mk.injEq] at h2
        omega
    · apply (List.nodup_range gx).imp
      intro a b hab p hp hq
      simp only [List.mem_flatMap, List.mem_map, List.mem_range] at hp hq
      obtain ⟨_, _, l1, hl1, rfl⟩ := hp
      obtain ⟨_, _, l2, hl2, h2⟩ := hq
      simp only [Prod.mk.injEq] at h2
      omega
  · apply (List.nodup_range gy).imp
    intro a b hab p hp hq
    simp only [List.mem_flatMap, List.mem_map, List.mem_range] at hp hq
    obtain ⟨_, _, l1, hl1, _, _, rfl⟩ := hp
    obtain ⟨_, _, l2, hl2, _, _, h2⟩ := hq
    simp only [Prod.mk.injEq] at h2
    omega

/-- The cells of a grid of `W` by `H` that a dispatch of `(W + 15) / 16` by `(H + 15) / 16`
work groups reaches behind the guard of the kernels, in the order of the invocations. -/
theorem foldl_guarded {σ : Type} (W H : Nat) (body : Int × Int → σ → σ)
    (L : List (Nat × Nat)) (s : σ) :
    L.foldl (fun s gid => guardedMain (W : Int) (H : Int) body gid s) s
      = (L.filter (fun p => decide (p.1 < W ∧ p.2 < H))).foldl
          (fun s p => body ((p.1 : Int), (p.2 : Int)) s) s := by
  induction L generalizing s with
  | nil => rfl
  | cons p L ih =>
    rw [List.foldl_cons, ih, List.filter_cons]
    by_cases hp : p.1 < W ∧ p.2 < H
    · have hg : ¬ (((p.1 : Int)) ≥ (W : Int) ∨ ((p.2 : Int)) ≥ (H : Int)) := by omega
      simp only [hp, and_self, decide_True, if_true, List.foldl_cons, guardedMain, hg, if_false]
    · have hg : ((p.1 : Int)) ≥ (W : Int) ∨ ((p.2 : Int)) ≥ (H : Int) := by omega
      simp only [hp, decide_False, guardedMain, hg, if_true]
      rfl

/-- C25: a dispatch of `(W + 15) / 16` by `(H + 15) / 16` work groups of 16 by 16 invocations
of a kernel that starts with the guard `if (pos.x >= W || pos.y >= H) return;` runs the rest
of the kernel, `body`, once for each cell of a list `cells` without repetition that holds
exactly the positions `(x, y)` with `x < W` and `y < H`: every cell of the grid exactly once,
no position outside the grid. -/
theorem dispatch_covers_grid (W H : Nat) :
    ∃ cells : List (Nat × Nat), cells.Nodup ∧ (∀ x y, (x, y) ∈ cells ↔ x < W ∧ y < H) ∧
      cells.length = W * H ∧
      ∀ (σ : Type) (body : Int × Int → σ → σ) (s : σ),
        dispatchCompute ((W + 15) / 16) ((H + 15) / 16) (guardedMain (W : Int) (H : Int) body) s
          = cells.foldl (fun s p => body ((p.1 : Int), (p.2 : Int)) s) s := by
  have hnd : ((invocations ((W + 15) / 16) ((H + 15) / 16)).filter
      (fun p => decide (p.1 < W ∧ p.2 < H))).Nodup :=
    (nodup_invocations _ _).filter _
  have hmem : ∀ x y, (x, y) ∈ (invocations ((W + 15) / 16) ((H + 15) / 16)).filter
      (fun p => decide (p.1 < W ∧ p.2 < H)) ↔ x < W ∧ y < H := by
    intro x y
    rw [List.mem_filter, mem_invocations]
    simp only [decide_eq_true_eq]
    constructor
    · exact fun h => h.2
    · exact fun h => ⟨by omega, h⟩
  refine ⟨_, hnd, hmem, ?_, fun σ body s => foldl_guarded W H body _ s⟩
  have hperm : ((invocations ((W + 15) / 16) ((H + 15) / 16)).filter
      (fun p => decide (p.1 < W ∧ p.2 < H))).Perm (List.range W ×ˢ List.range H) := by
    rw [List.perm_ext_iff_of_nodup hnd ((List.nodup_range W).product (List.nodup_range H))]
    rintro ⟨x, y⟩
    rw [hmem, List.mem_product, List.mem_range, List.mem_range]
  rw [hperm.length_eq, List.length_product, List.length_range, List.length_range]
/-! ## Image loads and stores, kernels in closed form -/

theorem imageStoreRG_nat (texW texH : Nat) (T : Images) (image : Tex) {x y : Nat}
    (hx : x < texW) (hy : y < texH) (v : Vec) :
    imageStoreRG texW texH T image ((x : Int), (y : Int)) v
      = Function.update T image
          (((T image).set ((y * texW + x) * 2) v.x).set ((y * texW + x) * 2 + 1) v.y) := by
  have h : 0 ≤ (x : Int) ∧ (x : Int) < texW ∧ 0 ≤ (y : Int) ∧ (y : Int) < texH := by omega
  simp only [imageStoreRG, h, and_self, if_true, Int.toNat_ofNat]

theorem imageStoreR_nat (texW texH : Nat) (T : Images) (image : Tex) {x y : Nat}
    (hx : x < texW) (hy : y < texH) (v : ℚ) :
    imageStoreR texW texH T image ((x : Int), (y : Int)) v
      = Function.update T image ((T image).set (y * texW + x) v) := by
  have h : 0 ≤ (x : Int) ∧ (x : Int) < texW ∧ 0 ≤ (y : Int) ∧ (y : Int) < texH := by omega
  simp only [imageStoreR, h, and_self, if_true, Int.toNat_ofNat]

theorem texelR_set {W : Nat} (data : List ℚ) {x y c r : Nat} (hx : x < W) (hc : c < W)
    (h : y * W + x < data.length) (v : ℚ) :
    texelR W (data.set (y * W + x) v) c r
      = if r = y ∧ c = x then some v else texelR W data c r := by
  unfold texelR
  by_cases he : r = y ∧ c = x
  · obtain ⟨rfl, rfl⟩ := he
    simp [h]
  · have hk : r * W + c ≠ y * W + x := fun e => he (flat_index_inj hx hc e)
    simp [he, List.getElem?_set, Ne.symm hk]

theorem foldl_storeRG (texW texH : Nat) (out : Tex) (f : Int × Int → Images → Vec)
    (hf : ∀ p T T', (∀ t, t ≠ out → T t = T' t) → f p T = f p T')
    (cells : List (Nat × Nat)) (hcells : ∀ p ∈ cells, p.1 < texW ∧ p.2 < texH) (T : Images)
    (hlen : (T out).length = texW * texH * 2) :
    (∀ t, t ≠ out →
      cells.foldl (fun T p => imageStoreRG texW texH T out ((p.1 : Int), (p.2 : Int))
        (f ((p.1 : Int), (p.2 : Int)) T)) T t = T t) ∧
    (cells.foldl (fun T p => imageStoreRG texW texH T out ((p.1 : Int), (p.2 : Int))
        (f ((p.1 : Int), (p.2 : Int)) T)) T out).length = texW * texH * 2 ∧
    ∀ x y, x < texW → y < texH →
      texel texW (cells.foldl (fun T p => imageStoreRG texW texH T out
          ((p.1 : Int), (p.2 : Int)) (f ((p.1 : Int), (p.2 : Int)) T)) T out) x y
        = if (x, y) ∈ cells then some (f ((x : Int), (y : Int)) T)
          else texel texW (T out) x y := by
  induction cells generalizing T with
  | nil =>
    refine ⟨fun t _ => rfl, hlen, fun x y _ _ => ?_⟩
    simp
  | cons p cells ih =>
    obtain ⟨hp1, hp2⟩ := hcells p (List.mem_cons_self _ _)
    have hstep := imageStoreRG_nat texW texH T out hp1 hp2 (f ((p.1 : Int), (p.2 : Int)) T)
    have hoff : ∀ t, t ≠ out →
        imageStoreRG texW texH T out ((p.1 : Int), (p.2 : Int))
          (f ((p.1 : Int), (p.2 : Int)) T) t = T t := by
      intro t ht
      rw [hstep, Function.update_noteq ht]
    have hout : imageStoreRG texW texH T out ((p.1 : Int), (p.2 : Int))
          (f ((p.1 : Int), (p.2 : Int)) T) out
        = ((T out).set ((p.2 * texW + p.1) * 2) (f ((p.1 : Int), (p.2 : Int)) T).x).set
            ((p.2 * texW + p.1) * 2 + 1) (f ((p.1 : Int), (p.2 : Int)) T).y := by
      rw [hstep, Function.update_same]
    have hlen1 : (imageStoreRG texW texH T out ((p.1 : Int), (p.2 : Int))
        (f ((p.1 : Int), (p.2 : Int)) T) out).length = texW * texH * 2 := by
      rw [hout, List.length_set, List.length_set, hlen]
    obtain ⟨ih1, ih2, ih3⟩ := ih (fun q hq => hcells q (List.mem_cons_of_mem _ hq))
      (imageStoreRG texW texH T out ((p.1 : Int), (p.2 : Int))
        (f ((p.1 : Int), (p.2 : Int)) T)) hlen1
    rw [List.foldl_cons]
    refine ⟨fun t ht => (ih1 t ht).trans (hoff t ht), ih2, fun x y hx hy => ?_⟩
    rw [ih3 x y hx hy, hf _ _ T hoff]
    by_cases hmem : (x, y) ∈ cells
    · simp [hmem]
    · simp only [hmem, if_false, List.mem_cons]
      rw [hout]
      by_cases he : (x, y) = p
      · subst he
        have hidx := flat_index_lt hx hy
        rw [texel_set_self _ (by rw [hlen]; exact hidx)]
        simp
      · have hne : ¬ (y = p.2 ∧ x = p.1) := by
          rintro ⟨h1, h2⟩
          exact he (Prod.ext h2 h1)
        rw [texel_set_other _ hp1 hx hne]
        simp [he]

theorem foldl_storeR (texW texH : Nat) (out : Tex) (f : Int × Int → Images → ℚ)
    (hf : ∀ p T T', (∀ t, t ≠ out → T t = T' t) → f p T = f p T')
    (cells : List (Nat × Nat)) (hcells : ∀ p ∈ cells, p.1 < texW ∧ p.2 < texH) (T : Images)
    (hlen : (T out).length = texW * texH) :
    (∀ t, t ≠ out →
      cells.foldl (fun T p => imageStoreR texW texH T out ((p.1 : Int), (p.2 : Int))
        (f ((p.1 : Int), (p.2 : Int)) T)) T t = T t) ∧
    (cells.foldl (fun T p => imageStoreR texW texH T out ((p.1 : Int), (p.2 : Int))
        (f ((p.1 : Int), (p.2 : Int)) T)) T out).length = texW * texH ∧
    ∀ x y, x < texW → y < texH →
      texelR texW (cells.foldl (fun T p => imageStoreR texW texH T out
          ((p.1 : Int), (p.2 : Int)) (f ((p.1 : Int), (p.2 : Int)) T)) T out) x y
        = if (x, y) ∈ cells then some (f ((x : Int), (y : Int)) T)
          else texelR texW (T out) x y := by
  induction cells generalizing T with
  | nil =>
    refine ⟨fun t _ => rfl, hlen, fun x y _ _ => ?_⟩
    simp
  | cons p cells ih =>
    obtain ⟨hp1, hp2⟩ := hcells p (List.mem_cons_self _ _)
    have hstep := imageStoreR_nat texW texH T out hp1 hp2 (f ((p.1 : Int), (p.2 : Int)) T)
    have hoff : ∀ t, t ≠ out →
        imageStoreR texW texH T out ((p.1 : Int), (p.2 : Int))
          (f ((p.1 : Int), (p.2 : Int)) T) t = T t := by
      intro t ht
      rw [hstep, Function.update_noteq ht]
    have hout : imageStoreR texW texH T out ((p.1 : Int), (p.2 : Int))
          (f ((p.1 : Int), (p.2 : Int)) T) out
        = (T out).set (p.2 * texW + p.1) (f ((p.1 : Int), (p.2 : Int)) T) := by
      rw [hstep, Function.update_same]
    have hlen1 : (imageStoreR texW texH T out ((p.1 : Int), (p.2 : Int))
        (f ((p.1 : Int), (p.2 : Int)) T) out).length = texW * texH := by
      rw [hout, List.length_set, hlen]
    obtain ⟨ih1, ih2, ih3⟩ := ih (fun q hq => hcells q (List.mem_cons_of_mem _ hq))
      (imageStoreR texW texH T out ((p.1 : Int), (p.2 : Int))
        (f ((p.1 : Int), (p.2 : Int)) T)) hlen1
    rw [List.foldl_cons]
    refine ⟨fun t ht => (ih1 t ht).trans (hoff t ht), ih2, fun x y hx hy => ?_⟩
    rw [ih3 x y hx hy, hf _ _ T hoff]
    by_cases hmem : (x, y) ∈ cells
    · simp [hmem]
    · simp only [hmem, if_false, List.mem_cons]
      rw [hout]
      have hidx : p.2 * texW + p.1 < (T out).length := by
        have := flat_index_lt hp1 hp2
        rw [hlen]
        omega
      rw [texelR_set _ hp1 hx hidx]
      by_cases he : (x, y) = p
      · subst he
        simp
      · have hne : ¬ (y = p.2 ∧ x = p.1) := by
          rintro ⟨h1, h2⟩
          exact he (Prod.ext h2 h1)
        simp [he, hne]

theorem dispatch_storeRG (W H : Nat) (out : Tex) (f : Int × Int → Images → Vec)
    (hf : ∀ p T T', (∀ t, t ≠ out → T t = T' t) → f p T = f p T') (T : Images)
    (hlen : (T out).length = W * H * 2) :
    (∀ t, t ≠ out → dispatchCompute ((W + 15) / 16) ((H + 15) / 16)
      (guardedMain (W : Int) (H : Int) (fun pos T => imageStoreRG W H T out pos (f pos T))) T t
        = T t) ∧
    (dispatchCompute ((W + 15) / 16) ((H + 15) / 16)
      (guardedMain (W : Int) (H : Int) (fun pos T => imageStoreRG W H T out pos (f pos T))) T
        out).length = W * H * 2 ∧
    ∀ x y, x < W → y < H →
      texel W (dispatchCompute ((W + 15) / 16) ((H + 15) / 16)
        (guardedMain (W : Int) (H : Int) (fun pos T => imageStoreRG W H T out pos (f pos T))) T
          out) x y = some (f ((x : Int), (y : Int)) T) := by
  unfold dispatchCompute
  rw [foldl_guarded]
  obtain ⟨h1, h2, h3⟩ := foldl_storeRG W H out f hf
    ((invocations ((W + 15) / 16) ((H + 15) / 16)).filter
      (fun p => decide (p.1 < W ∧ p.2 < H)))
    (by
      intro p hp
      rw [List.mem_filter] at hp
      simpa using hp.2) T hlen
  refine ⟨h1, h2, fun x y hx hy => ?_⟩
  rw [h3 x y hx hy, if_pos]
  rw [List.mem_filter, mem_invocations]
  exact ⟨by omega, by simpa using ⟨hx, hy⟩⟩

theorem dispatch_storeR (W H : Nat) (out : Tex) (f : Int × Int → Images → ℚ)
    (hf : ∀ p T T', (∀ t, t ≠ out → T t = T' t) → f p T = f p T') (T : Images)
    (hlen : (T out).length = W * H) :
    (∀ t, t ≠ out → dispatchCompute ((W + 15) / 16) ((H + 15) / 16)
      (guardedMain (W : Int) (H : Int) (fun pos T => imageStoreR W H T out pos (f pos T))) T t
        = T t) ∧
    (dispatchCompute ((W + 15) / 16) ((H + 15) / 16)
      (guardedMain (W : Int) (H : Int) (fun pos T => imageStoreR W H T out pos (f pos T))) T
        out).length = W * H ∧
    ∀ x y, x < W → y < H →
      texelR W (dispatchCompute ((W + 15) / 16) ((H + 15) / 16)
        (guardedMain (W : Int) (H : Int) (fun pos T => imageStoreR W H T out pos (f pos T))) T
          out) x y = some (f ((x : Int), (y : Int)) T) := by
  unfold dispatchCompute
  rw [foldl_guarded]
  obtain ⟨h1, h2, h3⟩ := foldl_storeR W H out f hf
    ((invocations ((W + 15) / 16) ((H + 15) / 16)).filter
      (fun p => decide (p.1 < W ∧ p.2 < H)))
    (by
      intro p hp
      rw [List.mem_filter] at hp
      simpa using hp.2) T hlen
  refine ⟨h1, h2, fun x y hx hy => ?_⟩
  rw [h3 x y hx hy, if_pos]
  rw [List.mem_filter, mem_invocations]
  exact ⟨by omega, by simpa using ⟨hx, hy⟩⟩

theorem imageLoadRG_sample {W H : Nat} {T : Images} {image : Tex} {V : List (List Vec)}
    (hV : holdsField W H (T image) V) (i j a b : Int) (ha0 : 0 ≤ a) (ha : a < W)
    (hb0 : 0 ≤ b) (hb : b < H) (hja : a.toNat = clampIdx W j) (hib : b.toNat = clampIdx H i) :
    imageLoadRG W H T image (a, b) = sampleV H W V i j := by
  obtain ⟨hlen, _, hcells⟩ := hV
  have hx : a.toNat < W := by omega
  have hy : b.toNat < H := by omega
  have h1 := texel_eq hlen hx hy
  rw [hcells _ hy _ hx] at h1
  simp only [imageLoadRG, ha0, ha, hb0, hb, and_self, if_true, sampleV, ← hja, ← hib, h1,
    Option.getD_some]

theorem imageLoadR_sample {W H : Nat} {T : Images} {image : Tex} {P : List (List ℚ)}
    (hP : holdsScalar W H (T image) P) (i j a b : Int) (ha0 : 0 ≤ a) (ha : a < W)
    (hb0 : 0 ≤ b) (hb : b < H) (hja : a.toNat = clampIdx W j) (hib : b.toNat = clampIdx H i) :
    imageLoadR W H T image (a, b) = sampleP H W P i j := by
  obtain ⟨hlen, _, hcells⟩ := hP
  have hx : a.toNat < W := by omega
  have hy : b.toNat < H := by omega
  have hidx : b.toNat * W + a.toNat < (T image).length := by
    have := flat_index_lt hx hy
    rw [hlen]
    omega
  have h1 : texelR W (T image) a.toNat b.toNat
      = some ((T image).getD (b.toNat * W + a.toNat) 0) := by
    simp [texelR, List.getD_eq_getElem?_getD, List.getElem?_eq_getElem hidx]
  rw [hcells _ hy _ hx] at h1
  simp only [imageLoadR, ha0, ha, hb0, hb, and_self, if_true, sampleP, ← hja, ← hib, h1,
    Option.getD_some]

theorem imageLoadRG_congr (texW texH : Nat) {T T' : Images} {image : Tex}
    (h : T image = T' image) (p : Int × Int) :
    imageLoadRG texW texH T image p = imageLoadRG texW texH T' image p := by
  simp only [imageLoadRG, h]

theorem imageLoadR_congr (texW texH : Nat) {T T' : Images} {image : Tex}
    (h : T image = T' image) (p : Int × Int) :
    imageLoadR texW texH T image p = imageLoadR texW texH T' image p := by
  simp only [imageLoadR, h]

/-- One dispatch of the diffusion kernel over a grid of `W` by `H` texels, writing the
texture `out` and reading the textures `inp` and `bef`, both different from `out`: the
texture `out` then holds the field that one sequential Jacobi pass computes from the fields
held by `inp` and `bef`, and no other texture changes. -/
theorem diffusion_dispatch (W H : Nat) (alpha : ℚ) (out inp bef : Tex) (hoi : inp ≠ out)
    (hob : bef ≠ out) (T : Images) (hlen : (T out).length = W * H * 2)
    (Vin Vbef : List (List Vec)) (hin : holdsField W H (T inp) Vin)
    (hbef : holdsField W H (T bef) Vbef) :
    (∀ t, t ≠ out → dispatchCompute ((W + 15) / 16) ((H + 15) / 16)
      (guardedMain (W : Int) (H : Int) (diffusionBody W H W H alpha out inp bef)) T t = T t) ∧
    holdsField W H (dispatchCompute ((W + 15) / 16) ((H + 15) / 16)
      (guardedMain (W : Int) (H : Int) (diffusionBody W H W H alpha out inp bef)) T out)
      (jacobiPass H W alpha Vbef Vin) := by
  obtain ⟨h1, h2, h3⟩ := dispatch_storeRG W H out
    (fun pos T =>
      Vec.mk (((imageLoadRG W H T bef pos).x + alpha *
        ((imageLoadRG W H T inp (max (pos.1 - 1) 0, pos.2)).x
          + (imageLoadRG W H T inp (min (pos.1 + 1) ((W : Int) - 1), pos.2)).x
          + (imageLoadRG W H T inp (pos.1, max (pos.2 - 1) 0)).x
          + (imageLoadRG W H T inp (pos.1, min (pos.2 + 1) ((H : Int) - 1))).x))
          / (1 + 4 * alpha))
        (((imageLoadRG W H T bef pos).y + alpha *
        ((imageLoadRG W H T inp (max (pos.1 - 1) 0, pos.2)).y
          + (imageLoadRG W H T inp (min (pos.1 + 1) ((W : Int) - 1), pos.2)).y
          + (imageLoadRG W H T inp (pos.1, max (pos.2 - 1) 0)).y
          + (imageLoadRG W H T inp (pos.1, min (pos.2 + 1) ((H : Int) - 1))).y))
          / (1 + 4 * alpha)))
    (by
      intro p T1 T2 hT
      simp only [imageLoadRG_congr W H (hT inp hoi), imageLoadRG_congr W H (hT bef hob)])
    T hlen
  refine ⟨h1, h2, hasDims_jacobiPass H W alpha Vbef Vin, fun y hy x hx => ?_⟩
  have hW : 1 ≤ W := by omega
  have hH : 1 ≤ H := by omega
  have e := h3 x y hx hy
  unfold diffusionBody
  rw [e, at2_jacobiPass H W alpha Vbef Vin hy hx]
  have hC := imageLoadRG_sample hbef (y : Int) (x : Int) (x : Int) (y : Int) (by omega)
    (by omega) (by omega) (by omega) (by unfold clampIdx; omega) (by unfold clampIdx; omega)
  have hL := imageLoadRG_sample hin (y : Int) ((x : Int) - 1) (max ((x : Int) - 1) 0) (y : Int)
    (by omega) (by omega) (by omega) (by omega) (by unfold clampIdx; omega)
    (by unfold clampIdx; omega)
  have hR := imageLoadRG_sample hin (y : Int) ((x : Int) + 1)
    (min ((x : Int) + 1) ((W : Int) - 1)) (y : Int)
    (by omega) (by omega) (by omega) (by omega) (by unfold clampIdx; omega)
    (by unfold clampIdx; omega)
  have hU := imageLoadRG_sample hin ((y : Int) - 1) (x : Int) (x : Int) (max ((y : Int) - 1) 0)
    (by omega) (by omega) (by omega) (by omega) (by unfold clampIdx; omega)
    (by unfold clampIdx; omega)
  have hD := imageLoadRG_sample hin ((y : Int) + 1) (x : Int) (x : Int)
    (min ((y : Int) + 1) ((H : Int) - 1))
    (by omega) (by omega) (by omega) (by omega) (by unfold clampIdx; omega)
    (by unfold clampIdx; omega)
  have hCs : sampleV H W Vbef (y : Int) (x : Int) = (at2 Vbef y x).getD Vec.zero := by
    simp only [sampleV, clampIdx_of_lt hy, clampIdx_of_lt hx]
  simp only [hC, hL, hR, hU, hD, hCs, Option.some.injEq, Vec.mk.injEq]
  constructor <;> ring

/-! ## Running the calls of a stage -/

theorem execAll_append (st : GLState) (a b : List GLCall) :
    st.execAll (a ++ b) = (st.execAll a).bind (fun st => st.execAll b) := by
  induction a generalizing st with
  | nil => rfl
  | cons c cs ih =>
    simp only [List.cons_append, GLState.execAll]
    cases st.exec c with
    | none => rfl
    | some st1 => simpa using ih st1

theorem diffuseIteration_exec (r : Run) (out inp : Tex)
    (hout : GPUSolver.velocityTexture (1 - r.solver.currentBuffer) = some out)
    (hinp : GPUSolver.velocityTexture r.solver.currentBuffer = some inp)
    (st0 st : GLState) (hst : st0.execAll r.calls = some st) :
    ∃ r' st', GPUSolver.diffuseIteration r = some r' ∧ r'.solver = r.solver.swapBuffers ∧
      st0.execAll r'.calls = some st' ∧ st'.texWidth = st.texWidth ∧
      st'.texHeight = st.texHeight ∧
      st'.images = dispatchCompute ((r.solver.gridWidth + 15) / 16)
        ((r.solver.gridHeight + 15) / 16)
        (guardedMain (r.solver.gridWidth : Int) (r.solver.gridHeight : Int)
          (diffusionBody st.texWidth st.texHeight r.solver.gridWidth r.solver.gridHeight
            r.solver.alpha out inp Tex.velocityBefore)) st.images := by
  simp only [GPUSolver.diffuseIteration, hout, hinp, Option.bind_eq_bind, Option.some_bind,
    Option.pure_def, Run.gl, Option.some.injEq, exists_and_left, exists_eq_left', true_and,
    execAll_append, hst]
  simp [GLState.execAll, GLState.exec, GLBindings.after, GLState.kernel, GLState.image,
    GLBindings.unit, GPUSolver.dispatchGrid, List.range_succ, Function.update]

theorem copyRegion_full (W H c : Nat) (src dst : List ℚ) (hc : 0 < c)
    (hs : src.length = W * H * c) (hd : dst.length = W * H * c) :
    copyRegion W c W H src dst = src := by
  apply List.ext_getElem
  · simp [copyRegion, hs, hd]
  · intro k h1 h2
    have hk : k < W * H * c := hs ▸ h2
    have hW : 0 < W := by
      rcases Nat.eq_zero_or_pos W with h | h
      · rw [h] at hk
        simp at hk
      · exact h
    have hq : k / c < W * H := by
      rw [Nat.div_lt_iff_lt_mul hc]
      exact hk
    have h3 : k / c % W < W := Nat.mod_lt _ hW
    have h4 : k / c / W < H := by
      rw [Nat.div_lt_iff_lt_mul hW, Nat.mul_comm]
      exact hq
    simp [copyRegion, h3, h4, List.getD_eq_getElem?_getD, List.getElem?_eq_getElem h2]

theorem velocityTexture_cases {k : Int} {a b : Tex}
    (ha : GPUSolver.velocityTexture k = some a) (hb : GPUSolver.velocityTexture (1 - k) = some b) :
    (k = 0 ∧ a = Tex.velocityTexture0 ∧ b = Tex.velocityTexture1) ∨
    (k = 1 ∧ a = Tex.velocityTexture1 ∧ b = Tex.velocityTexture0) := by
  unfold GPUSolver.velocityTexture at ha hb
  by_cases h0 : k = 0
  · subst h0
    simp at ha hb
    exact Or.inl ⟨rfl, ha.symm, hb.symm⟩
  · by_cases h1 : k = 1
    · subst h1
      simp at ha hb
      exact Or.inr ⟨rfl, ha.symm, hb.symm⟩
    · simp [h0, h1] at ha

theorem diffuse_loop (s : GPUSolver) (st0 : GLState) (V : List (List Vec)) (r0 : Run)
    (st : GLState) (a b : Tex) (hs : r0.solver = s)
    (ha : GPUSolver.velocityTexture s.currentBuffer = some a)
    (hb : GPUSolver.velocityTexture (1 - s.currentBuffer) = some b)
    (hst : st0.execAll r0.calls = some st) (hw : st.texWidth = s.gridWidth)
    (hh : st.texHeight = s.gridHeight)
    (hV : holdsField s.gridWidth s.gridHeight (st.images a) V)
    (hlen : (st.images b).length = s.gridWidth * s.gridHeight * 2)
    (hbef : holdsField s.gridWidth s.gridHeight (st.images Tex.velocityBefore) V) (k : Nat) :
    ∃ r st', forLoop k (fun _ => GPUSolver.diffuseIteration) r0 = some r ∧
      st0.execAll r.calls = some st' ∧ st'.texWidth = s.gridWidth ∧
      st'.texHeight = s.gridHeight ∧
      r.solver = { s with currentBuffer :=
        if k % 2 = 0 then s.currentBuffer else 1 - s.currentBuffer } ∧
      holdsField s.gridWidth s.gridHeight
        (st'.images (if k % 2 = 0 then a else b))
        ((jacobiPass s.gridHeight s.gridWidth s.alpha V)^[k] V) ∧
      (st'.images (if k % 2 = 0 then b else a)).length = s.gridWidth * s.gridHeight * 2 ∧
      holdsField s.gridWidth s.gridHeight (st'.images Tex.velocityBefore) V := by
  have hab := velocityTexture_cases ha hb
  have hne : a ≠ b := by rcases hab with ⟨_, h1, h2⟩ | ⟨_, h1, h2⟩ <;> simp [h1, h2]
  have hna : Tex.velocityBefore ≠ a := by
    rcases hab with ⟨_, h1, h2⟩ | ⟨_, h1, h2⟩ <;> simp [h1, h2]
  have hnb : Tex.velocityBefore ≠ b := by
    rcases hab with ⟨_, h1, h2⟩ | ⟨_, h1, h2⟩ <;> simp [h1, h2]
  induction k with
  | zero =>
    refine ⟨r0, st, rfl, hst, hw, hh, ?_, ?_, ?_, hbef⟩
    · rw [hs]
      cases s
      simp
    · simpa using hV
    · simpa using hlen
  | succ k ih =>
    obtain ⟨r, st1, hr, hst1, hw1, hh1, hsol, hcur, hoth, hbef1⟩ := ih
    have hgw : r.solver.gridWidth = s.gridWidth := by rw [hsol]
    have hgh : r.solver.gridHeight = s.gridHeight := by rw [hsol]
    have hal : r.solver.alpha = s.alpha := by rw [hsol]
    have hcb : r.solver.currentBuffer
        = if k % 2 = 0 then s.currentBuffer else 1 - s.currentBuffer := by rw [hsol]
    have hinp : GPUSolver.velocityTexture r.solver.currentBuffer
        = some (if k % 2 = 0 then a else b) := by
      rw [hcb]
      split_ifs
      · exact ha
      · exact hb
    have hout : GPUSolver.velocityTexture (1 - r.solver.currentBuffer)
        = some (if k % 2 = 0 then b else a) := by
      rw [hcb]
      split_ifs
      · exact hb
      · rw [show 1 - (1 - s.currentBuffer) = s.currentBuffer by ring]
        exact ha
    obtain ⟨r', st', hit, hsol', hst', hw', hh', himg⟩ :=
      diffuseIteration_exec r _ _ hout hinp st0 st1 hst1
    rw [hgw, hgh, hal, hw1, hh1] at himg
    have hio : (if k % 2 = 0 then a else b) ≠ (if k % 2 = 0 then b else a) := by
      split_ifs
      · exact hne
      · exact hne.symm
    have hbo : Tex.velocityBefore ≠ (if k % 2 = 0 then b else a) := by
      split_ifs
      · exact hnb
      · exact hna
    obtain ⟨hkeep, hnew⟩ := diffusion_dispatch s.gridWidth s.gridHeight s.alpha
      (if k % 2 = 0 then b else a) (if k % 2 = 0 then a else b) Tex.velocityBefore hio hbo
      st1.images hoth _ V hcur hbef1
    rw [← himg] at hkeep hnew
    have hk2 : (k + 1) % 2 = 0 ↔ ¬ k % 2 = 0 := by omega
    refine ⟨r', st', ?_, hst', hw'.trans hw1, hh'.trans hh1, ?_, ?_, ?_, ?_⟩
    · rw [forLoop, hr, Option.some_bind, hit]
    · rw [hsol', hsol]
      by_cases hk : k % 2 = 0
      · have : ¬ (k + 1) % 2 = 0 := by omega
        simp [GPUSolver.swapBuffers, hk, this]
      · have : (k + 1) % 2 = 0 := by omega
        simp [GPUSolver.swapBuffers, hk, this]
    · rw [Function.iterate_succ_apply']
      by_cases hk : k % 2 = 0
      · have : ¬ (k + 1) % 2 = 0 := by omega
        simp only [hk, this, if_true, if_false] at hnew ⊢
        exact hnew
      · have : (k + 1) % 2 = 0 := by omega
        simp only [hk, this, if_true, if_false] at hnew ⊢
        exact hnew
    · by_cases hk : k % 2 = 0
      · have : ¬ (k + 1) % 2 = 0 := by omega
        simp only [hk, this, if_true, if_false] at hkeep hcur ⊢
        rw [hkeep a hne]
        exact hcur.1
      · have : (k + 1) % 2 = 0 := by omega
        simp only [hk, this, if_true, if_false] at hkeep hcur ⊢
        rw [hkeep b hne.symm]
        exact hcur.1
    · rw [hkeep _ hbo]
      exact hbef1

/-! ## Parity of the diffusion stages (C22) -/

theorem projectionBody_sweep (texW texH : Nat) (width height mode : Int) (hm : mode ≠ 0)
    (vel pOut pIn divT : Tex) :
    projectionBody texW texH width height mode vel pOut pIn divT
      = fun pos T => imageStoreR texW texH T pOut pos
          (if (decide (mode = 1) != decide ((pos.1 + pos.2) % 2 = 0)) = true then
            imageLoadR texW texH T pIn pos
          else
            (imageLoadR texW texH T divT pos
              + imageLoadR texW texH T pIn (max (pos.1 - 1) 0, pos.2)
              + imageLoadR texW texH T pIn (min (pos.1 + 1) (width - 1), pos.2)
              + imageLoadR texW texH T pIn (pos.1, max (pos.2 - 1) 0)
              + imageLoadR texW texH T pIn (pos.1, min (pos.2 + 1) (height - 1))) / 4) := by
  funext pos T
  simp only [projectionBody, hm, if_false]
  split_ifs <;> rfl

/-- One dispatch of the projection kernel in mode 1 (`par = 0`) or mode 2 (`par = 1`) over a
grid of `n` by `n` texels, writing the texture `pOut` and reading the pressure `pIn` and the
divergence `divT`, both different from `pOut`: the texture `pOut` then holds the pressures
of the half-sweep of parity `par`, and no other texture changes. -/
theorem sweep_dispatch (n : Nat) (mode : Int) (par : Nat)
    (hmode : (mode = 1 ∧ par = 0) ∨ (mode = 2 ∧ par = 1)) (vel pOut pIn divT : Tex)
    (hio : pIn ≠ pOut) (hdo : divT ≠ pOut) (T : Images) (hlen : (T pOut).length = n * n)
    (P D : List (List ℚ)) (hP : holdsScalar n n (T pIn) P) (hD : holdsScalar n n (T divT) D) :
    (∀ t, t ≠ pOut → dispatchCompute ((n + 15) / 16) ((n + 15) / 16)
      (guardedMain (n : Int) (n : Int) (projectionBody n n n n mode vel pOut pIn divT)) T t
        = T t) ∧
    holdsScalar n n (dispatchCompute ((n + 15) / 16) ((n + 15) / 16)
      (guardedMain (n : Int) (n : Int) (projectionBody n n n n mode vel pOut pIn divT)) T pOut)
      (halfSweepSpec n par D P) := by
  have hm : mode ≠ 0 := by rcases hmode with ⟨h, _⟩ | ⟨h, _⟩ <;> rw [h] <;> decide
  rw [projectionBody_sweep n n n n mode hm]
  obtain ⟨h1, h2, h3⟩ := dispatch_storeR n n pOut
    (fun pos T =>
      if (decide (mode = 1) != decide ((pos.1 + pos.2) % 2 = 0)) = true then
        imageLoadR n n T pIn pos
      else
        (imageLoadR n n T divT pos
          + imageLoadR n n T pIn (max (pos.1 - 1) 0, pos.2)
          + imageLoadR n n T pIn (min (pos.1 + 1) ((n : Int) - 1), pos.2)
          + imageLoadR n n T pIn (pos.1, max (pos.2 - 1) 0)
          + imageLoadR n n T pIn (pos.1, min (pos.2 + 1) ((n : Int) - 1))) / 4)
    (by
      intro p T1 T2 hT
      simp only [imageLoadR_congr n n (hT pIn hio), imageLoadR_congr n n (hT divT hdo)])
    T hlen
  refine ⟨h1, h2, hasDims_tabulate _ _ _, fun y hy x hx => ?_⟩
  rw [h3 x y hx hy]
  unfold halfSweepSpec
  rw [at2_tabulate _ hy hx]
  have hC := imageLoadR_sample hP (y : Int) (x : Int) (x : Int) (y : Int) (by omega)
    (by omega) (by omega) (by omega) (by unfold clampIdx; omega) (by unfold clampIdx; omega)
  have hDv := imageLoadR_sample hD (y : Int) (x : Int) (x : Int) (y : Int) (by omega)
    (by omega) (by omega) (by omega) (by unfold clampIdx; omega) (by unfold clampIdx; omega)
  have hL := imageLoadR_sample hP (y : Int) ((x : Int) - 1) (max ((x : Int) - 1) 0) (y : Int)
    (by omega) (by omega) (by omega) (by omega) (by unfold clampIdx; omega)
    (by unfold clampIdx; omega)
  have hR := imageLoadR_sample hP (y : Int) ((x : Int) + 1)
    (min ((x : Int) + 1) ((n : Int) - 1)) (y : Int)
    (by omega) (by omega) (by omega) (by omega) (by unfold clampIdx; omega)
    (by unfold clampIdx; omega)
  have hU := imageLoadR_sample hP ((y : Int) - 1) (x : Int) (x : Int) (max ((y : Int) - 1) 0)
    (by omega) (by omega) (by omega) (by omega) (by unfold clampIdx; omega)
    (by unfold clampIdx; omega)
  have hDn := imageLoadR_sample hP ((y : Int) + 1) (x : Int) (x : Int)
    (min ((y : Int) + 1) ((n : Int) - 1))
    (by omega) (by omega) (by omega) (by omega) (by unfold clampIdx; omega)
    (by unfold clampIdx; omega)
  have hCs : sampleP n n P (y : Int) (x : Int) = (at2 P y x).getD 0 := by
    simp only [sampleP, clampIdx_of_lt hy, clampIdx_of_lt hx]
  have hDs : sampleP n n D (y : Int) (x : Int) = (at2 D y x).getD 0 := by
    simp only [sampleP, clampIdx_of_lt hy, clampIdx_of_lt hx]
  simp only [hC, hDv, hL, hR, hU, hDn, hCs, hDs, Option.some.injEq]
  by_cases hpar : (y + x) % 2 = 0
  · have hI : ((x : Int) + (y : Int)) % 2 = 0 := by omega
    rcases hmode with ⟨hm1, hp⟩ | ⟨hm1, hp⟩
    · subst hm1 hp
      simp only [hI, hpar, decide_True, bne_self_eq_false, Bool.false_eq_true, if_false, if_true]
      ring
    · subst hm1 hp
      have hpar1 : ¬ (y + x) % 2 = 1 := by omega
      simp [hI, hpar1]
  · have hI : ¬ ((x : Int) + (y : Int)) % 2 = 0 := by omega
    rcases hmode with ⟨hm1, hp⟩ | ⟨hm1, hp⟩
    · subst hm1 hp
      simp [hI, hpar]
    · subst hm1 hp
      have hpar1 : (y + x) % 2 = 1 := by omega
      simp only [hI, hpar1, decide_False, if_true]
      simp
      ring

theorem projectIteration_exec (r : Run) (pb : Int) (pin pout vel divT : Tex)
    (hin : GPUSolver.pressureTexture pb = some pin)
    (hout : GPUSolver.pressureTexture (1 - pb) = some pout)
    (st0 st : GLState) (hst : st0.execAll r.calls = some st)
    (hprog : st.bindings.program = some Program.projectionProgram)
    (h0 : st.image 0 = some vel) (h3 : st.image 3 = some divT) :
    ∃ r' st', GPUSolver.projectIteration (r, pb) = some (r', pb) ∧ r'.solver = r.solver ∧
      (r'.calls.filter GLCall.isDispatch).length
        = (r.calls.filter GLCall.isDispatch).length + 2 ∧
      st0.execAll r'.calls = some st' ∧ st'.texWidth = st.texWidth ∧
      st'.texHeight = st.texHeight ∧
      st'.bindings.program = some Program.projectionProgram ∧
      st'.image 0 = some vel ∧ st'.image 3 = some divT ∧
      st'.ints Program.projectionProgram Uniform.width
        = st.ints Program.projectionProgram Uniform.width ∧
      st'.ints Program.projectionProgram Uniform.height
        = st.ints Program.projectionProgram Uniform.height ∧
      st'.images = dispatchCompute ((r.solver.gridWidth + 15) / 16)
        ((r.solver.gridHeight + 15) / 16)
        (guardedMain (st.ints Program.projectionProgram Uniform.width)
          (st.ints Program.projectionProgram Uniform.height)
          (projectionBody st.texWidth st.texHeight
            (st.ints Program.projectionProgram Uniform.width)
            (st.ints Program.projectionProgram Uniform.height) 2 vel pin pout divT))
        (dispatchCompute ((r.solver.gridWidth + 15) / 16) ((r.solver.gridHeight + 15) / 16)
          (guardedMain (st.ints Program.projectionProgram Uniform.width)
            (st.ints Program.projectionProgram Uniform.height)
            (projectionBody st.texWidth st.texHeight
              (st.ints Program.projectionProgram Uniform.width)
              (st.ints Program.projectionProgram Uniform.height) 1 vel pout pin divT))
          st.images) := by
  have hpb : 1 - (1 - pb) = pb := by ring
  have h0' := h0
  have h3' := h3
  simp only [GLState.image, GLBindings.unit, Option.map_map] at h0' h3'
  simp only [GPUSolver.projectIteration, hout, hin, hpb, Option.bind_eq_bind, Option.some_bind,
    Option.pure_def, Run.gl, Option.some.injEq, Prod.mk.injEq, and_true, exists_and_left,
    exists_eq_left', true_and, execAll_append, hst]
  refine ⟨by simp [List.filter_append, GLCall.isDispatch, GPUSolver.dispatchGrid], ?_⟩
  simp [GLState.execAll, GLState.exec, GLBindings.after, GLState.kernel, GLState.image,
    GLBindings.unit, GPUSolver.dispatchGrid, List.range_succ, Function.update, hprog, h0', h3',
    Option.map_map]
  constructor
  · cases hf : List.find? (fun e => decide (e.1 = 0)) st.bindings.units with
    | none => simp [hf] at h0'
    | some e =>
      obtain ⟨u, t, x⟩ := e
      simp only [hf, Option.map_some', Function.comp_apply, Option.some.injEq] at h0'
      exact ⟨u, x, by rw [h0']⟩
  · cases hf : List.find? (fun e => decide (e.1 = 3)) st.bindings.units with
    | none => simp [hf] at h3'
    | some e =>
      obtain ⟨u, t, x⟩ := e
      simp only [hf, Option.map_some', Function.comp_apply, Option.some.injEq] at h3'
      exact ⟨u, x, by rw [h3']⟩

theorem project_loop (n : Nat) (s : GPUSolver) (r0 : Run) (st0 st : GLState) (vel : Tex)
    (P D : List (List ℚ)) (hs : r0.solver = s) (hst : st0.execAll r0.calls = some st)
    (hgw : s.gridWidth = n) (hgh : s.gridHeight = n)
    (htw : st.texWidth = n) (hth : st.texHeight = n)
    (hprog : st.bindings.program = some Program.projectionProgram)
    (h0 : st.image 0 = some vel) (h3 : st.image 3 = some Tex.divergenceTexture)
    (hwu : st.ints Program.projectionProgram Uniform.width = n)
    (hhu : st.ints Program.projectionProgram Uniform.height = n)
    (hP : holdsScalar n n (st.images Tex.pressureTexture0) P)
    (hlen : (st.images Tex.pressureTexture1).length = n * n)
    (hD : holdsScalar n n (st.images Tex.divergenceTexture) D) (k : Nat) :
    ∃ r st', forLoop k (fun _ => GPUSolver.projectIteration) (r0, (0 : Int)) = some (r, 0) ∧
      st0.execAll r.calls = some st' ∧ r.solver = s ∧
      (r.calls.filter GLCall.isDispatch).length
        = (r0.calls.filter GLCall.isDispatch).length + 2 * k ∧
      st'.texWidth = n ∧ st'.texHeight = n ∧
      st'.bindings.program = some Program.projectionProgram ∧
      st'.image 0 = some vel ∧ st'.image 3 = some Tex.divergenceTexture ∧
      st'.ints Program.projectionProgram Uniform.width = n ∧
      st'.ints Program.projectionProgram Uniform.height = n ∧
      holdsScalar n n (st'.images Tex.pressureTexture0) ((sweepSpec n D)^[k] P) ∧
      (st'.images Tex.pressureTexture1).length = n * n ∧
      holdsScalar n n (st'.images Tex.divergenceTexture) D := by
  induction k with
  | zero =>
    exact ⟨r0, st, rfl, hst, hs, rfl, htw, hth, hprog, h0, h3, hwu, hhu, hP, hlen, hD⟩
  | succ k ih =>
    obtain ⟨r, st1, hr, hst1, hsol, hcnt, htw1, hth1, hprog1, h01, h31, hwu1, hhu1, hP1, hlen1,
      hD1⟩ := ih
    obtain ⟨r', st', hit, hsol', hcnt', hst', htw', hth', hprog', h0', h3', hwu', hhu',
      himg⟩ :=
      projectIteration_exec r 0 Tex.pressureTexture0 Tex.pressureTexture1 vel
        Tex.divergenceTexture rfl rfl st0 st1 hst1 hprog1 h01 h31
    rw [hsol, hgw, hgh, hwu1, hhu1, htw1, hth1] at himg
    obtain ⟨hk1, hn1⟩ := sweep_dispatch n 1 0 (Or.inl ⟨rfl, rfl⟩) vel Tex.pressureTexture1
      Tex.pressureTexture0 Tex.divergenceTexture (by decide) (by decide) st1.images hlen1
      _ D hP1 hD1
    have hP0 := hk1 Tex.pressureTexture0 (by decide)
    have hDv := hk1 Tex.divergenceTexture (by decide)
    obtain ⟨hk2, hn2⟩ := sweep_dispatch n 2 1 (Or.inr ⟨rfl, rfl⟩) vel Tex.pressureTexture0
      Tex.pressureTexture1 Tex.divergenceTexture (by decide) (by decide)
      (dispatchCompute ((n + 15) / 16) ((n + 15) / 16)
        (guardedMain (n : Int) (n : Int)
          (projectionBody n n n n 1 vel Tex.pressureTexture1 Tex.pressureTexture0
            Tex.divergenceTexture)) st1.images)
      (by rw [hP0]; exact hP1.1) _ D hn1 (by rw [hDv]; exact hD1)
    rw [← himg] at hk2 hn2
    refine ⟨r', st', ?_, hst', hsol'.trans hsol, by rw [hcnt', hcnt]; ring, htw'.trans htw1,
      hth'.trans hth1, hprog', h0', h3', hwu'.trans hwu1, hhu'.trans hhu1, ?_, ?_, ?_⟩
    · rw [forLoop, hr, Option.some_bind, hit]
    · rw [Function.iterate_succ_apply']
      exact hn2
    · rw [hk2 Tex.pressureTexture1 (by decide)]
      exact hn1.1
    · rw [hk2 Tex.divergenceTexture (by decide), hDv]
      exact hD1

theorem clamp_order {p b : ℚ} (hb : 0 ≤ b) : min (max p 0) b = max 0 (min p b) := by
  rcases le_total p 0 with h | h
  · rw [max_eq_right h, min_eq_left hb, max_eq_left (le_trans (min_le_left _ _) h)]
  · rw [max_eq_left h, max_eq_right (le_min h hb)]

theorem imageLoadRG_flipped {W H : Nat} {T : Images} {image : Tex} {V : List (List Vec)}
    (hV : holdsFlipped W H (T image) V) (a b : Int) (ha0 : 0 ≤ a) (ha : a < W)
    (hb0 : 0 ≤ b) (hb : b < H) :
    imageLoadRG W H T image (a, b) = (atI V ((H : Int) - 1 - b) a).getD Vec.zero := by
  obtain ⟨hlen, _, hcells⟩ := hV
  have hx : a.toNat < W := by omega
  have hy : b.toNat < H := by omega
  have h1 := texel_eq hlen hx hy
  rw [hcells _ hy _ hx] at h1
  have hr : ((H : Int) - 1 - b).toNat = H - 1 - b.toNat := by omega
  have h0 : 0 ≤ (H : Int) - 1 - b ∧ 0 ≤ a := by omega
  simp only [imageLoadRG, ha0, ha, hb0, hb, and_self, if_true, atI, h0, hr, h1,
    Option.getD_some]

theorem advectionResult_flipped {W H : Nat} {T : Images} {inp : Tex} {V : List (List Vec)}
    (dt : ℚ) (hV : holdsFlipped W H (T inp) V) {x y : Nat} (hx : x < W) (hy : y < H) :
    advectionResult W H W H dt inp ((x : Int), (y : Int)) T
      = bilinearBacktrace W H dt V (H - 1 - y) x := by
  have hW : 1 ≤ W := by omega
  have hH : 1 ≤ H := by omega
  have hWq : (0 : ℚ) ≤ (W : ℚ) - 1 := by
    have : (1 : ℚ) ≤ W := by exact_mod_cast hW
    linarith
  have hHq : (0 : ℚ) ≤ (H : ℚ) - 1 := by
    have : (1 : ℚ) ≤ H := by exact_mod_cast hH
    linarith
  have hi : H - 1 - y < H := by omega
  obtain ⟨v, hv⟩ := at2_of_hasDims hV.2.1 hi hx
  have hvel : imageLoadRG W H T inp ((x : Int), (y : Int)) = v := by
    rw [imageLoadRG_flipped hV _ _ (by omega) (by omega) (by omega) (by omega)]
    have h0 : 0 ≤ (H : Int) - 1 - (y : Int) ∧ 0 ≤ (x : Int) := by omega
    have hr : ((H : Int) - 1 - (y : Int)).toNat = H - 1 - y := by omega
    simp only [atI, h0, and_self, if_true, hr, Int.toNat_ofNat, hv, Option.getD_some]
  have hX : min (max ((((x : Int)) : ℚ) - v.x * dt) 0) ((((W : Int) - 1 : Int)) : ℚ)
      = max 0 (min ((x : ℚ) - v.x * dt) ((W : ℚ) - 1)) := by
    push_cast
    exact clamp_order hWq
  have hY : min (max ((((y : Int)) : ℚ) - v.y * dt) 0) ((((H : Int) - 1 : Int)) : ℚ)
      = max 0 (min ((H : ℚ) - 1 - ((H - 1 - y : Nat) : ℚ) - v.y * dt) ((H : ℚ) - 1)) := by
    have hc : ((H - 1 - y : Nat) : ℚ) = (H : ℚ) - 1 - y := by
      rw [Nat.sub_sub, Nat.cast_sub (by omega)]
      push_cast
      ring
    rw [hc]
    push_cast
    rw [show (H : ℚ) - 1 - ((H : ℚ) - 1 - (y : ℚ)) = (y : ℚ) by ring]
    exact clamp_order hHq
  have hxs0 : 0 ≤ max (0 : ℚ) (min ((x : ℚ) - v.x * dt) ((W : ℚ) - 1)) := le_max_left _ _
  have hxs1 : max (0 : ℚ) (min ((x : ℚ) - v.x * dt) ((W : ℚ) - 1)) ≤ (W : ℚ) - 1 :=
    max_le hWq (min_le_right _ _)
  have hys0 : 0 ≤ max (0 : ℚ)
      (min ((H : ℚ) - 1 - ((H - 1 - y : Nat) : ℚ) - v.y * dt) ((H : ℚ) - 1)) := le_max_left _ _
  have hys1 : max (0 : ℚ)
      (min ((H : ℚ) - 1 - ((H - 1 - y : Nat) : ℚ) - v.y * dt) ((H : ℚ) - 1)) ≤ (H : ℚ) - 1 :=
    max_le hHq (min_le_right _ _)
  obtain ⟨fx0, fx1⟩ := floor_range hxs0 hxs1
  obtain ⟨fy0, fy1⟩ := floor_range hys0 hys1
  simp only [advectionResult, hvel, hX, hY, bilinearBacktrace, hv, Option.getD_some]
  rw [imageLoadRG_flipped hV _ _ fx0 (by omega) fy0 (by omega),
    imageLoadRG_flipped hV _ _ (by omega) (by omega) fy0 (by omega),
    imageLoadRG_flipped hV _ _ fx0 (by omega) (by omega) (by omega),
    imageLoadRG_flipped hV _ _ (by omega) (by omega) (by omega) (by omega)]
  simp only [mix, Vec.mk.injEq]
  constructor <;> ring

theorem advectionResult_congr (texW texH : Nat) (width height : Int) (dt : ℚ) (inp : Tex)
    {T T' : Images} (h : T inp = T' inp) (pos : Int × Int) :
    advectionResult texW texH width height dt inp pos T
      = advectionResult texW texH width height dt inp pos T' := by
  simp only [advectionResult, imageLoadRG, h]

/-- One dispatch of the advection kernel over a grid of `W` by `H` texels, writing the
texture `out` and reading a different texture `inp` that holds the field `V` upside down:
the texture `out` then holds, upside down, the bilinear interpolants of `V` at the clamped
backtraced positions, and no other texture changes. -/
theorem advection_dispatch (W H : Nat) (dt : ℚ) (out inp : Tex) (hio : inp ≠ out) (T : Images)
    (hlen : (T out).length = W * H * 2) (V : List (List Vec))
    (hV : holdsFlipped W H (T inp) V) :
    (∀ t, t ≠ out → dispatchCompute ((W + 15) / 16) ((H + 15) / 16)
      (guardedMain (W : Int) (H : Int) (advectionBody W H W H dt out inp)) T t = T t) ∧
    holdsFlipped W H (dispatchCompute ((W + 15) / 16) ((H + 15) / 16)
      (guardedMain (W : Int) (H : Int) (advectionBody W H W H dt out inp)) T out)
      (tabulate H W (bilinearBacktrace W H dt V)) := by
  obtain ⟨h1, h2, h3⟩ := dispatch_storeRG W H out
    (fun pos T => advectionResult W H W H dt inp pos T)
    (fun p T1 T2 hT => advectionResult_congr W H W H dt inp (hT inp hio) p) T hlen
  refine ⟨h1, h2, hasDims_tabulate _ _ _, fun y hy x hx => ?_⟩
  have e := h3 x y hx hy
  unfold advectionBody
  rw [e, at2_tabulate _ (by omega) hx, advectionResult_flipped dt hV hx hy]

theorem advected_integral (n : Nat) (dt : ℚ) (F : List (List Vec)) (hF : hasDims F n n)
    {i j : Nat} (hi : i < n) (hj : j < n) (hS : advectionS n dt F i j = 0)
    (hT : advectionT n dt F i j = 0) :
    advectedCell n n dt F i j = bilinearBacktrace n n dt F i j := by
  obtain ⟨v, hv⟩ := at2_of_hasDims hF hi hj
  have e1 : max (0 : ℚ) (min ((j : ℚ) - v.x * dt) ((n : ℚ) - 1)) = backtraceX n dt v j := by
    unfold backtraceX
    rw [max_comm, Int.cast_natCast]
  have e2 : max (0 : ℚ) (min ((n : ℚ) - 1 - (i : ℚ) - v.y * dt) ((n : ℚ) - 1))
      = backtraceY n dt v i := by
    unfold backtraceY
    rw [max_comm]
    push_cast
    rw [show (n : ℚ) - (i : ℚ) - 1 = (n : ℚ) - 1 - (i : ℚ) by ring]
  have hS' := hS
  have hT' := hT
  simp only [advectionS, hv, Option.getD_some] at hS'
  simp only [advectionT, hv, Option.getD_some] at hT'
  simp only [advectedCell, hS, hT, advectionLowX, advectionLowY, bilinearBacktrace, hv,
    Option.getD_some, e1, e2, hS', hT', Vec.mk.injEq]
  constructor <;> ring

/-- C24, counterexample: on the field of `fallExample` (2 by 2 cells, `dt = 0.5`), stored in
`velocityTexture[0]` with array entry `[y][x]` in texel `(x, y)`, `grid::advection` leaves
the velocity `(0, 2)` in the cell `[1][0]`, while one dispatch of the advection kernel with
the same time step writes `(0, 0)` into the texel `(0, 1)`. -/
theorem advection_not_parallel :
    holdsField 2 2 (fallImages Tex.velocityTexture0) fallExample.currentVelocities ∧
    fallExample.timeStep = 1 / 2 ∧
    (grid.advection 2 2 fallExample).bind (fun g => at2 g.currentVelocities 1 0)
      = some (Vec.mk 0 2) ∧
    texel 2 (dispatchCompute ((2 + 15) / 16) ((2 + 15) / 16)
      (guardedMain 2 2 (advectionBody 2 2 2 2 (1 / 2) Tex.velocityTexture1
        Tex.velocityTexture0)) fallImages Tex.velocityTexture1) 0 1 = some (Vec.mk 0 0) := by
  decide!

/-- C24, amended: on a grid of `n` by `n` cells, identify the array entry `[i][j]` with the
texel `(j, n - 1 - i)`, the position that `grid::advection` gives to the cell
(`holdsFlipped`).  Then one dispatch of the advection kernel writes into every texel the
bilinear interpolant of the input field at the clamped backtraced position of the cell, and
in every cell whose backtraced position is integral (the weights `s` and `t` of
`grid::advection` are zero) `grid::advection`, with the same time step, stores the same
value. -/
theorem advection_parity_flipped (n : Nat) (g : grid) (T : Images) (out inp : Tex)
    (hio : inp ≠ out) (hc : hasDims g.currentVelocities n n)
    (hn : hasDims g.nextVelocities n n)
    (hT : holdsFlipped n n (T inp) g.currentVelocities)
    (hlen : (T out).length = n * n * 2) :
    ∃ g', grid.advection n n g = some g' ∧
      (∀ i j, i < n → j < n →
        texel n (dispatchCompute ((n + 15) / 16) ((n + 15) / 16)
          (guardedMain (n : Int) (n : Int) (advectionBody n n n n g.timeStep out inp)) T out)
            j (n - 1 - i)
          = some (bilinearBacktrace n n g.timeStep g.currentVelocities i j)) ∧
      (∀ i j, i < n → j < n → advectionS n g.timeStep g.currentVelocities i j = 0 →
        advectionT n g.timeStep g.currentVelocities i j = 0 →
        at2 g'.currentVelocities i j
          = texel n (dispatchCompute ((n + 15) / 16) ((n + 15) / 16)
              (guardedMain (n : Int) (n : Int) (advectionBody n n n n g.timeStep out inp)) T
                out) j (n - 1 - i)) := by
  obtain ⟨_, _, _, hcells⟩ := advection_dispatch n n g.timeStep out inp hio T hlen _ hT
  have hker : ∀ i j, i < n → j < n →
      texel n (dispatchCompute ((n + 15) / 16) ((n + 15) / 16)
        (guardedMain (n : Int) (n : Int) (advectionBody n n n n g.timeStep out inp)) T out)
          j (n - 1 - i)
        = some (bilinearBacktrace n n g.timeStep g.currentVelocities i j) := by
    intro i j hi hj
    rw [hcells (n - 1 - i) (by omega) j hj,
      show n - 1 - (n - 1 - i) = i by omega, at2_tabulate _ hi hj]
  refine ⟨_, advection_eq n g hc hn, hker, ?_⟩
  intro i j hi hj hS hT0
  rw [hker i j hi hj]
  show at2 (tabulate n n (advectedCell n n g.timeStep g.currentVelocities)) i j = _
  rw [at2_tabulate _ hi hj, advected_integral n g.timeStep g.currentVelocities hc hi hj hS hT0]

/-- Witness of C24 (amended): the field of `fallExample`, stored upside down in
`velocityTexture[0]`; the cell `[1][0]` corresponds to the texel `(0, 0)`. -/
theorem advection_parity_flipped_witness :
    holdsFlipped 2 2 (fallFlippedImages Tex.velocityTexture0) fallExample.currentVelocities ∧
    ∃ g', grid.advection 2 2 fallExample = some g' ∧
      at2 g'.currentVelocities 1 0
        = texel 2 (dispatchCompute ((2 + 15) / 16) ((2 + 15) / 16)
            (guardedMain ((2 : Nat) : Int) ((2 : Nat) : Int)
              (advectionBody 2 2 ((2 : Nat) : Int) ((2 : Nat) : Int) fallExample.timeStep
                Tex.velocityTexture1 Tex.velocityTexture0)) fallFlippedImages
              Tex.velocityTexture1) 0 (2 - 1 - 1) := by
  have hF : holdsFlipped 2 2 (fallFlippedImages Tex.velocityTexture0)
      fallExample.currentVelocities := by decide!
  refine ⟨hF, ?_⟩
  obtain ⟨g', hg', _, hint⟩ := advection_parity_flipped 2 fallExample fallFlippedImages
    Tex.velocityTexture1 Tex.velocityTexture0 (by decide) (by decide) (by decide) hF
    (by decide)
  exact ⟨g', hg', hint 1 0 (by decide) (by decide) (by decide!) (by decide!)⟩


/-! ## The forcing band in the coordinates of advection and projection (C26) -/

theorem advectedCell_shift (n : Nat) (dt : ℚ) (F : List (List Vec)) (hF : hasDims F n n)
    {i j : Nat} {v : Vec} (hv : at2 F i j = some v) (k m : Int)
    (hk : v.x * dt = k) (hm : v.y * dt = m) (hk0 : 0 ≤ (j : Int) - k)
    (hk1 : (j : Int) - k ≤ (n : Int) - 1) (hm0 : 0 ≤ (i : Int) + m)
    (hm1 : (i : Int) + m ≤ (n : Int) - 1) :
    some (advectedCell n n dt F i j) = atI F ((i : Int) + m) ((j : Int) - k) := by
  have hbx : backtraceX n dt v j = ((((j : Int) - k : Int)) : ℚ) := by
    unfold backtraceX
    rw [hk]
    have h1 : ((((j : Int)) : ℚ)) - (k : ℚ) ≤ (n : ℚ) - 1 := by
      have : ((((j : Int) - k : Int)) : ℚ) ≤ ((((n : Int) - 1 : Int)) : ℚ) := by
        exact_mod_cast hk1
      push_cast at this
      exact this
    have h0 : (0 : ℚ) ≤ ((((j : Int)) : ℚ)) - (k : ℚ) := by
      have : ((0 : Int) : ℚ) ≤ ((((j : Int) - k : Int)) : ℚ) := by exact_mod_cast hk0
      push_cast at this
      exact this
    rw [min_eq_left h1, max_eq_left h0]
    push_cast
    rfl
  have hby : backtraceY n dt v i = ((((n : Int) - 1 - ((i : Int) + m) : Int)) : ℚ) := by
    unfold backtraceY
    rw [hm]
    have e : (((((n : Int) - (i : Int) - 1 : Int)) : ℚ)) - (m : ℚ)
        = ((((n : Int) - 1 - ((i : Int) + m) : Int)) : ℚ) := by
      push_cast
      ring
    rw [e]
    have h1 : ((((n : Int) - 1 - ((i : Int) + m) : Int)) : ℚ) ≤ (n : ℚ) - 1 := by
      have : ((((n : Int) - 1 - ((i : Int) + m) : Int)) : ℚ) ≤ ((((n : Int) - 1 : Int)) : ℚ) := by
        exact_mod_cast (by omega : (n : Int) - 1 - ((i : Int) + m) ≤ (n : Int) - 1)
      push_cast at this ⊢
      exact this
    have h0 : (0 : ℚ) ≤ ((((n : Int) - 1 - ((i : Int) + m) : Int)) : ℚ) := by
      exact_mod_cast (by omega : (0 : Int) ≤ (n : Int) - 1 - ((i : Int) + m))
    rw [min_eq_left h1, max_eq_left h0]
  have hlx : advectionLowX n dt F i j = (i : Int) + m := by
    simp only [advectionLowX, hv, Option.getD_some, hby, Int.floor_intCast]
    ring
  have hly : advectionLowY n dt F i j = (j : Int) - k := by
    simp only [advectionLowY, hv, Option.getD_some, hbx, Int.floor_intCast]
  have hS : advectionS n dt F i j = 0 := by
    simp only [advectionS, hv, Option.getD_some, hbx, Int.floor_intCast, sub_self]
  have hT : advectionT n dt F i j = 0 := by
    simp only [advectionT, hv, Option.getD_some, hby, Int.floor_intCast, sub_self]
  obtain ⟨w, hw, _⟩ := atI_of_hasDims hF (a := (i : Int) + m) (b := (j : Int) - k) hm0
    (by omega) hk0 (by omega)
  rw [hw]
  simp only [advectedCell, hS, hT, hlx, hly, hw, Option.getD_some, Option.some.injEq]
  cases w
  simp

/-- C26, amended: the forcing band is selected by the first array index, which
`grid::advection` and `grid::projection` treat as the row of a cell.  On a grid of `n` by `n`
cells, `grid::forces` adds `(2 * dt, 0)` to the cells `[i][j]` with `116 ≤ i < 140`, for every
`j`, and to no other cell; `grid::advection` moves the field along the second index by the
`x` component of the velocity and along the first index by the `y` component (a cell
`[i][j]` whose velocity times `dt` is the integral vector `(k, m)` receives the velocity of
the cell `[i + m][j - k]`); and the divergence of `grid::projection` takes the difference of
the `x` components between the neighbours `[i][j + 1]` and `[i][j - 1]` in the second
index. -/
theorem forces_band_rows (n : Nat) (g : grid) (hc : hasDims g.currentVelocities n n)
    (hn : hasDims g.nextVelocities n n) :
    (∃ g', grid.forces n n g = some g' ∧ ∀ i j, i < n → j < n →
      ∃ old, at2 g.currentVelocities i j = some old ∧
        at2 g'.currentVelocities i j
          = some (if 116 ≤ i ∧ i < 140 then Vec.mk (old.x + 2 * g.timeStep) old.y else old)) ∧
    (∃ g', grid.advection n n g = some g' ∧ ∀ i j (k m : Int) (v : Vec), i < n → j < n →
      at2 g.currentVelocities i j = some v → v.x * g.timeStep = k → v.y * g.timeStep = m →
      0 ≤ (j : Int) - k → (j : Int) - k ≤ (n : Int) - 1 →
      0 ≤ (i : Int) + m → (i : Int) + m ≤ (n : Int) - 1 →
      at2 g'.currentVelocities i j = atI g.currentVelocities ((i : Int) + m) ((j : Int) - k)) ∧
    (∃ div, grid.divergencePass n n g.currentVelocities = some div ∧
      ∀ i j, i < n → j < n → at2 div i j = some (-(1 / 2) *
        (((sampleV n n g.currentVelocities i ((j : Int) + 1)).x
            - (sampleV n n g.currentVelocities i ((j : Int) - 1)).x)
          + ((sampleV n n g.currentVelocities ((i : Int) - 1) j).y
            - (sampleV n n g.currentVelocities ((i : Int) + 1) j).y)))) := by
  refine ⟨⟨_, forces_eq n n g hc, ?_⟩, ⟨_, advection_eq n g hc hn, ?_⟩,
    ⟨_, divergencePass_eq n n _ hc, ?_⟩⟩
  · intro i j hi hj
    obtain ⟨old, hold⟩ := at2_of_hasDims hc hi hj
    refine ⟨old, hold, ?_⟩
    show at2 (tabulate n n _) i j = _
    rw [at2_tabulate _ hi hj, hold]
    by_cases hb : 116 ≤ i ∧ i < 140
    · have hb' : i < 140 ∧ i ≥ 116 := ⟨hb.2, hb.1⟩
      simp [hb, hb', Vec.add]
    · have hb' : ¬ (i < 140 ∧ i ≥ 116) := fun h => hb ⟨h.2, h.1⟩
      cases old
      simp [hb, hb', Vec.add]
  · intro i j k m v hi hj hv hk hm hk0 hk1 hm0 hm1
    show at2 (tabulate n n _) i j = _
    rw [at2_tabulate _ hi hj]
    exact advectedCell_shift n g.timeStep g.currentVelocities hc hv k m hk hm hk0 hk1 hm0 hm1
  · intro i j hi hj
    unfold divergenceSpec
    rw [at2_tabulate _ hi hj]

/-- Witness of C26 (amended): on `shiftExample` the cell `[1][2]`, of velocity `(2, 0)` with
`dt = 0.5`, receives the velocity of the cell `[1][1]`. -/
theorem forces_band_rows_witness :
    ∃ g', grid.advection 3 3 shiftExample = some g' ∧
      at2 g'.currentVelocities 1 2 = atI shiftExample.currentVelocities 1 1 := by
  obtain ⟨_, ⟨g', hg', hshift⟩, _⟩ := forces_band_rows 3 shiftExample (by decide) (by decide)
  exact ⟨g', hg', hshift 1 2 1 0 (Vec.mk 2 0) (by decide) (by decide) (by decide!)
    (by decide!) (by decide!) (by decide) (by decide) (by decide) (by decide)⟩


/-! ## The whole of `GPUSolver::project`: the pressure is carried over -/

theorem projectionBody_zero (texW texH : Nat) (width height : Int)
    (vel pOut pIn divT : Tex) :
    projectionBody texW texH width height 0 vel pOut pIn divT
      = fun pos T => imageStoreR texW texH T divT pos
          (-(1 / 2) * (((imageLoadRG texW texH T vel (min (pos.1 + 1) (width - 1), pos.2)).x
              - (imageLoadRG texW texH T vel (max (pos.1 - 1) 0, pos.2)).x)
            + ((imageLoadRG texW texH T vel (pos.1, min (pos.2 + 1) (height - 1))).y
              - (imageLoadRG texW texH T vel (pos.1, max (pos.2 - 1) 0)).y))) := by
  funext pos T
  simp only [projectionBody, if_true]

theorem divergence_dispatch (n : Nat) (vel pOut pIn divT : Tex) (hvd : vel ≠ divT)
    (T : Images) (hlen : (T divT).length = n * n) :
    (∀ t, t ≠ divT → dispatchCompute ((n + 15) / 16) ((n + 15) / 16)
      (guardedMain (n : Int) (n : Int) (projectionBody n n n n 0 vel pOut pIn divT)) T t
        = T t) ∧
    ∃ D, holdsScalar n n (dispatchCompute ((n + 15) / 16) ((n + 15) / 16)
      (guardedMain (n : Int) (n : Int) (projectionBody n n n n 0 vel pOut pIn divT)) T divT)
      D := by
  rw [projectionBody_zero]
  obtain ⟨h1, h2, h3⟩ := dispatch_storeR n n divT
    (fun pos T =>
      -(1 / 2) * (((imageLoadRG n n T vel (min (pos.1 + 1) ((n : Int) - 1), pos.2)).x
          - (imageLoadRG n n T vel (max (pos.1 - 1) 0, pos.2)).x)
        + ((imageLoadRG n n T vel (pos.1, min (pos.2 + 1) ((n : Int) - 1))).y
          - (imageLoadRG n n T vel (pos.1, max (pos.2 - 1) 0)).y)))
    (by
      intro p T1 T2 hT
      simp only [imageLoadRG_congr n n (hT vel hvd)])
    T hlen
  refine ⟨h1, tabulate n n (fun y x =>
    -(1 / 2) * (((imageLoadRG n n T vel (min ((x : Int) + 1) ((n : Int) - 1), (y : Int))).x
        - (imageLoadRG n n T vel (max ((x : Int) - 1) 0, (y : Int))).x)
      + ((imageLoadRG n n T vel ((x : Int), min ((y : Int) + 1) ((n : Int) - 1))).y
        - (imageLoadRG n n T vel ((x : Int), max ((y : Int) - 1) 0)).y))),
    h2, hasDims_tabulate _ _ _, fun y hy x hx => ?_⟩
  rw [h3 x y hx hy, at2_tabulate _ hy hx]

theorem imageStoreRG_frame (texW texH : Nat) (T : Images) (image : Tex) (p : Int × Int)
    (v : Vec) {t : Tex} (ht : t ≠ image) : imageStoreRG texW texH T image p v t = T t := by
  unfold imageStoreRG
  split_ifs
  · exact Function.update_noteq ht _ _
  · rfl

theorem gradient_dispatch_frame (gx gy texW texH : Nat) (width height : Int)
    (vel p : Tex) (T : Images) {t : Tex} (ht : t ≠ vel) :
    dispatchCompute gx gy
      (guardedMain width height (projectionGradientBody texW texH width height vel p)) T t
      = T t := by
  unfold dispatchCompute
  induction invocations gx gy generalizing T with
  | nil => rfl
  | cons q L ih =>
    rw [List.foldl_cons, ih]
    unfold guardedMain
    simp only
    split_ifs
    · rfl
    · exact imageStoreRG_frame _ _ _ _ _ _ ht

/-- The calls of `GPUSolver::project` on a grid of `n` by `n` texels run without fault; the
pressure solve starts from the content `P` of `pressureTexture[0]` at entry, which no call
clears: with `D` the divergence that the first pass stores, `pressureTexture[0]` holds at
the end the 20-fold sweep of `P`. -/
theorem project_exec (n : Nat) (s : GPUSolver) (images : Images) (field : Tex)
    (P : List (List ℚ)) (hgw : s.gridWidth = n) (hgh : s.gridHeight = n)
    (hf : GPUSolver.velocityTexture s.currentBuffer = some field)
    (hP : holdsScalar n n (images Tex.pressureTexture0) P)
    (hlen1 : (images Tex.pressureTexture1).length = n * n)
    (hlenD : (images Tex.divergenceTexture).length = n * n) :
    ∃ r st D, GPUSolver.project { solver := s, calls := [] } = some r ∧
      (GLState.start s images).execAll r.calls = some st ∧
      holdsScalar n n (st.images Tex.divergenceTexture) D ∧
      holdsScalar n n (st.images Tex.pressureTexture0) ((sweepSpec n D)^[20] P) := by
  have hfd : field ≠ Tex.divergenceTexture := by
    unfold GPUSolver.velocityTexture at hf
    split_ifs at hf <;> simp at hf <;> rw [← hf] <;> decide
  have hfp : Tex.pressureTexture0 ≠ field := by
    unfold GPUSolver.velocityTexture at hf
    split_ifs at hf <;> simp at hf <;> rw [← hf] <;> decide
  -- the divergence pass
  obtain ⟨st1, hst1, htw1, hth1, hprog1, h01, h31, hwu1, hhu1, himg1⟩ :
      ∃ st1, (GLState.start s images).execAll [
        GLCall.useProgram Program.projectionProgram,
        GLCall.bindImageTexture 0 field Access.readOnly,
        GLCall.bindImageTexture 1 Tex.pressureTexture0 Access.writeOnly,
        GLCall.bindImageTexture 2 Tex.pressureTexture0 Access.readOnly,
        GLCall.bindImageTexture 3 Tex.divergenceTexture Access.writeOnly,
        GLCall.uniform1i Program.projectionProgram Uniform.mode 0,
        GLCall.uniform1i Program.projectionProgram Uniform.width s.gridWidth,
        GLCall.uniform1i Program.projectionProgram Uniform.height s.gridHeight,
        GLCall.uniform1f Program.projectionProgram Uniform.timeStep s.timeStep,
        s.dispatchGrid,
        GLCall.memoryBarrier] = some st1 ∧
      st1.texWidth = n ∧ st1.texHeight = n ∧
      st1.bindings.program = some Program.projectionProgram ∧
      st1.image 0 = some field ∧ st1.image 3 = some Tex.divergenceTexture ∧
      st1.ints Program.projectionProgram Uniform.width = n ∧
      st1.ints Program.projectionProgram Uniform.height = n ∧
      st1.images = dispatchCompute ((n + 15) / 16) ((n + 15) / 16)
        (guardedMain (n : Int) (n : Int)
          (projectionBody n n n n 0 field Tex.pressureTexture0 Tex.pressureTexture0
            Tex.divergenceTexture)) images := by
    simp [GLState.execAll, GLState.exec, GLBindings.after, GLState.kernel, GLState.image,
      GLBindings.unit, GPUSolver.dispatchGrid, List.range_succ, Function.update,
      GLState.start, GLBindings.initial, hgw, hgh]
  obtain ⟨hk1, D, hD1⟩ := divergence_dispatch n field Tex.pressureTexture0
    Tex.pressureTexture0 Tex.divergenceTexture hfd images hlenD
  rw [← himg1] at hk1 hD1
  -- the pressure loop
  obtain ⟨r2, st2, hr2, hst2, hsol2, _, htw2, hth2, _, _, _, hwu2, hhu2, hP2, _, hD2⟩ :=
    project_loop n s
      { solver := s, calls := [
        GLCall.useProgram Program.projectionProgram,
        GLCall.bindImageTexture 0 field Access.readOnly,
        GLCall.bindImageTexture 1 Tex.pressureTexture0 Access.writeOnly,
        GLCall.bindImageTexture 2 Tex.pressureTexture0 Access.readOnly,
        GLCall.bindImageTexture 3 Tex.divergenceTexture Access.writeOnly,
        GLCall.uniform1i Program.projectionProgram Uniform.mode 0,
        GLCall.uniform1i Program.projectionProgram Uniform.width s.gridWidth,
        GLCall.uniform1i Program.projectionProgram Uniform.height s.gridHeight,
        GLCall.uniform1f Program.projectionProgram Uniform.timeStep s.timeStep,
        s.dispatchGrid,
        GLCall.memoryBarrier] }
      (GLState.start s images) st1 field P D rfl hst1 hgw hgh htw1 hth1 hprog1 h01 h31 hwu1
      hhu1 (by rw [hk1 _ (by decide)]; exact hP) (by rw [hk1 _ (by decide)]; exact hlen1)
      hD1 20
  -- the gradient pass
  obtain ⟨st3, hst3, himg3⟩ :
      ∃ st3, st2.execAll [
        GLCall.useProgram Program.projectionGradientProgram,
        GLCall.bindImageTexture 0 field Access.readWrite,
        GLCall.bindImageTexture 1 Tex.pressureTexture0 Access.readOnly,
        GLCall.uniform1i Program.projectionGradientProgram Uniform.width s.gridWidth,
        GLCall.uniform1i Program.projectionGradientProgram Uniform.height s.gridHeight,
        GLCall.uniform1f Program.projectionGradientProgram Uniform.timeStep s.timeStep,
        s.dispatchGrid,
        GLCall.memoryBarrier] = some st3 ∧
      st3.images = dispatchCompute ((n + 15) / 16) ((n + 15) / 16)
        (guardedMain (n : Int) (n : Int)
          (projectionGradientBody st2.texWidth st2.texHeight n n field
            Tex.pressureTexture0)) st2.images := by
    simp [GLState.execAll, GLState.exec, GLBindings.after, GLState.kernel, GLState.image,
      GLBindings.unit, GPUSolver.dispatchGrid, List.range_succ, Function.update, hgw, hgh]
  refine ⟨r2.gl [
      GLCall.useProgram Program.projectionGradientProgram,
      GLCall.bindImageTexture 0 field Access.readWrite,
      GLCall.bindImageTexture 1 Tex.pressureTexture0 Access.readOnly,
      GLCall.uniform1i Program.projectionGradientProgram Uniform.width s.gridWidth,
      GLCall.uniform1i Program.projectionGradientProgram Uniform.height s.gridHeight,
      GLCall.uniform1f Program.projectionGradientProgram Uniform.timeStep s.timeStep,
      s.dispatchGrid,
      GLCall.memoryBarrier], st3, D, ?_, ?_, ?_, ?_⟩
  · have hp0 : GPUSolver.pressureTexture 0 = some Tex.pressureTexture0 := rfl
    simp only [GPUSolver.project, hf, hp0, Option.bind_eq_bind, Option.some_bind, Run.gl,
      List.nil_append, hr2, hsol2, Option.pure_def]
  · simp only [Run.gl, execAll_append, hst2, Option.some_bind]
    exact hst3
  · rw [himg3, gradient_dispatch_frame _ _ _ _ _ _ _ _ _ hfd.symm]
    exact hD2
  · rw [himg3, gradient_dispatch_frame _ _ _ _ _ _ _ _ _ hfp]
    exact hP2

end FluidSim
